import Mathlib

/-!
# lacc: type repository and optimizer passes

A shallow embedding of `src/parser/typetree.c` and `src/optimizer/transform.c`.

* C `int` values (block heads, counts, loop counters) are `Int`; the passes are
  only run on statement arrays far below `INT_MAX`, so no wrap-around is modelled
  for them.
* C `size_t` values are `Nat` below `2 ^ 64`; every `size_t` operation of the
  source reduces modulo `2 ^ 64`.
* `exit(1)` after `error(...)`, a failed `assert`, an out-of-range `array_get`
  and running out of recursion fuel are the `Err` results of `Except Err`.
-/

namespace Lacc

/-! ## Outcomes -/

/-- Ways in which a call does not return normally. -/
inductive Err
  | assertion
  | out_of_bounds
  | out_of_fuel
  | member_exists
  | incomplete_type
  | flexible_member
  | object_too_large
  | array_too_large
  | field_width
  | zero_length_field
  | no_named_members
  | restrict_non_pointer
  | undefined
  deriving DecidableEq, Repr

/-- Short-circuit `&&` over calls that may fail: the right operand is only
consulted when the left one returned true. -/
def and_then (a b : Except Err Bool) : Except Err Bool :=
  match a with
  | .ok true => b
  | .ok false => .ok false
  | .error e => .error e

/-- Value of `array_get(&arr, i)` for a C `int` index. -/
def array_get {α : Type} (arr : List α) (i : Int) : Except Err α :=
  if i < 0 then .error .out_of_bounds
  else match arr[i.toNat]? with
    | some x => .ok x
    | none => .error .out_of_bounds

/-- Effect of the assignment `array_get(&arr, i) = v` for a C `int` index. -/
def array_set {α : Type} (arr : List α) (i : Int) (v : α) : Except Err (List α) :=
  if i < 0 then .error .out_of_bounds
  else if i.toNat < arr.length then .ok (arr.set i.toNat v)
  else .error .out_of_bounds

/-! ## Type handles and the type repository (`typetree.c`) -/

/-- The kind tag `enum type`. -/
inductive enum_type
  | T_VOID | T_BOOL | T_CHAR | T_SHORT | T_INT | T_LONG | T_FLOAT | T_DOUBLE
  | T_LDOUBLE | T_POINTER | T_FUNCTION | T_ARRAY | T_STRUCT | T_UNION
  deriving DecidableEq, Repr

open enum_type

/-- Modelled from the spec: the type handle `Type` (declared in the absent
`lacc/type.h`). A kind tag, the unsigned and qualifier bits of the described
type, the pointer-of bit with its own triple of qualifier bits, and the
repository reference (0 means no entry). -/
structure CType where
  type : enum_type
  is_unsigned : Bool
  is_const : Bool
  is_volatile : Bool
  is_restrict : Bool
  is_pointer : Bool
  is_pointer_const : Bool
  is_pointer_volatile : Bool
  is_pointer_restrict : Bool
  ref : Nat
  deriving DecidableEq, Repr

/-- The zero-initialised handle `Type type = {0}`. -/
def CType.zero : CType :=
  ⟨T_VOID, false, false, false, false, false, false, false, false, 0⟩

def basic_type__bool : CType := { CType.zero with type := T_BOOL }
def basic_type__char : CType := { CType.zero with type := T_CHAR }
def basic_type__short : CType := { CType.zero with type := T_SHORT }
def basic_type__int : CType := { CType.zero with type := T_INT }
def basic_type__long : CType := { CType.zero with type := T_LONG }
def basic_type__unsigned_char : CType := { CType.zero with type := T_CHAR, is_unsigned := true }
def basic_type__unsigned_short : CType := { CType.zero with type := T_SHORT, is_unsigned := true }
def basic_type__unsigned_int : CType := { CType.zero with type := T_INT, is_unsigned := true }
def basic_type__unsigned_long : CType := { CType.zero with type := T_LONG, is_unsigned := true }
def basic_type__float : CType := { CType.zero with type := T_FLOAT }
def basic_type__double : CType := { CType.zero with type := T_DOUBLE }
def basic_type__long_double : CType := { CType.zero with type := T_LDOUBLE }

/-- Modelled from the spec: `struct member` (declared in the absent
`lacc/type.h`): name (possibly empty), type, byte offset, bit-field width and
offset, and the optional back-reference to the defining symbol. -/
structure member where
  name : String
  type : CType
  offset : Nat
  field_width : Nat
  field_offset : Nat
  sym : Option Nat
  deriving DecidableEq, Repr

/-- The zero-initialised `struct member m = {0}`. -/
def member.zero : member := ⟨"", CType.zero, 0, 0, 0, none⟩

/-- The repository entry `struct typetree`. -/
structure typetree where
  type : enum_type
  is_unsigned : Bool
  is_const : Bool
  is_volatile : Bool
  is_restrict : Bool
  is_vararg : Bool
  is_flexible : Bool
  is_vla : Bool
  size : Nat
  vlen : Option Nat
  members : List member
  next : CType
  tag : Option Nat
  deriving DecidableEq, Repr

/-- The zero-initialised `struct typetree t = {0}`. -/
def typetree.zero : typetree :=
  ⟨T_VOID, false, false, false, false, false, false, false, 0, none, [], CType.zero, none⟩

/-- The global list `types`. -/
abbrev Types := List typetree

/-- Modelled from the spec: the macro `type_of` (absent `lacc/type.h`): a
handle with the pointer-of bit set has kind pointer. -/
def type_of (t : CType) : enum_type := if t.is_pointer then T_POINTER else t.type

/-- Modelled from the spec: `is_const`, the const bit of the outermost layer. -/
def is_const (t : CType) : Bool := if t.is_pointer then t.is_pointer_const else t.is_const

/-- Modelled from the spec: `is_volatile`, the volatile bit of the outermost layer. -/
def is_volatile (t : CType) : Bool :=
  if t.is_pointer then t.is_pointer_volatile else t.is_volatile

/-- Modelled from the spec: `is_restrict`, the restrict bit of the outermost layer. -/
def is_restrict (t : CType) : Bool :=
  if t.is_pointer then t.is_pointer_restrict else t.is_restrict

def is_pointer (t : CType) : Bool := type_of t == T_POINTER
def is_struct (t : CType) : Bool := type_of t == T_STRUCT
def is_union (t : CType) : Bool := type_of t == T_UNION
def is_struct_or_union (t : CType) : Bool := is_struct t || is_union t
def is_function (t : CType) : Bool := type_of t == T_FUNCTION
def is_array (t : CType) : Bool := type_of t == T_ARRAY
def is_bool (t : CType) : Bool := type_of t == T_BOOL
def is_object (t : CType) : Bool := !is_function t

/-- `get_typetree_handle`: entry `ref - 1` of the repository, under the two
assertions `ref > 0` and `ref <= array_len(&types)`. -/
def get_typetree_handle (types : Types) (ref : Nat) : Except Err typetree :=
  if ref = 0 then .error .assertion
  else match types[ref - 1]? with
    | some t => .ok t
    | none => .error .assertion

/-- The member loop of `typetree_equal`. `eq` is the recursive call of
`type_equal`, `is_fn` says whether the entries are functions. -/
def typetree_members_equal (eq : CType → CType → Except Err Bool) (is_fn : Bool) :
    List member → List member → Except Err Bool
  | ma :: as, mb :: bs =>
    match eq ma.type mb.type with
    | .error e => .error e
    | .ok false => .ok false
    | .ok true =>
      if is_fn then typetree_members_equal eq is_fn as bs
      else if ma.offset ≠ mb.offset then .error .assertion
      else if ma.name ≠ mb.name then .ok false
      else typetree_members_equal eq is_fn as bs
  | _, _ => .ok true

/-- `typetree_equal`: compares kind, size, unsigned and vararg flags and the
member lists pairwise. -/
def typetree_equal (eq : CType → CType → Except Err Bool) (a b : typetree) :
    Except Err Bool :=
  if a.type ≠ b.type ∨ a.size ≠ b.size ∨ a.is_unsigned ≠ b.is_unsigned
      ∨ a.is_vararg ≠ b.is_vararg then .ok false
  else if a.members.length ≠ b.members.length then .ok false
  else typetree_members_equal eq (a.type == T_FUNCTION) a.members b.members

/-- `type_equal`. The fuel bounds the depth of the recursion through
`typetree_equal`. -/
def type_equal (types : Types) : Nat → CType → CType → Except Err Bool
  | 0, _, _ => .error .out_of_fuel
  | fuel + 1, a, b =>
    if a = b then .ok true
    else if a.type ≠ b.type ∨ a.is_unsigned ≠ b.is_unsigned then .ok false
    else if decide (a.ref = 0) ≠ decide (b.ref = 0) then .ok false
    else if a.ref ≠ 0 ∧ b.ref ≠ 0 then
      match get_typetree_handle types a.ref, get_typetree_handle types b.ref with
      | .ok ta, .ok tb => typetree_equal (type_equal types fuel) ta tb
      | .error e, _ => .error e
      | _, .error e => .error e
    else .ok true

/-- `type_equal(a, b)` returns true: some recursion depth suffices for the call
to come back with 1. -/
def type_equal_holds (types : Types) (a b : CType) : Prop :=
  ∃ fuel, type_equal types fuel a b = .ok true

/-- What one round of the member loop of `typetree_equal` demands of a pair of
members for the loop to go on. -/
def member_equal (eq : CType → CType → Except Err Bool) (f : Bool) (ma mb : member) : Prop :=
  eq ma.type mb.type = .ok true ∧ (f = false → ma.offset = mb.offset ∧ ma.name = mb.name)

/-- The entries of two handles are compared equal by `typetree_equal`. -/
def entries_equal (types : Types) (eq : CType → CType → Except Err Bool) (a b : CType) : Prop :=
  ∃ ta tb, get_typetree_handle types a.ref = .ok ta
    ∧ get_typetree_handle types b.ref = .ok tb
    ∧ typetree_equal eq ta tb = .ok true

/-- One more than the largest `size_t`. -/
def SIZE_MOD : Nat := 2 ^ 64

/-- The constant `LONG_MAX` of the target. -/
def LONG_MAX : Nat := 2 ^ 63 - 1

/-- Store `t` back through the pointer `get_typetree_handle(ref)`. -/
def set_typetree (types : Types) (ref : Nat) (t : typetree) : Types :=
  types.set (ref - 1) t

/-- `get_type_handle`. -/
def get_type_handle (types : Types) (ref : Nat) : Except Err CType :=
  match get_typetree_handle types ref with
  | .error e => .error e
  | .ok t =>
    match t.type with
    | T_POINTER =>
      if t.next.is_pointer then .error .assertion
      else .ok { CType.zero with
        type := t.next.type,
        is_unsigned := t.next.is_unsigned,
        is_const := t.next.is_const,
        is_volatile := t.next.is_volatile,
        is_restrict := t.next.is_restrict,
        ref := t.next.ref,
        is_pointer := true,
        is_pointer_const := t.is_const,
        is_pointer_volatile := t.is_volatile,
        is_pointer_restrict := t.is_restrict }
    | T_FUNCTION | T_ARRAY | T_STRUCT | T_UNION =>
      .ok { CType.zero with
        ref := ref,
        type := t.type,
        is_unsigned := t.is_unsigned,
        is_volatile := t.is_volatile,
        is_const := t.is_const,
        is_restrict := t.is_restrict }
    | _ =>
      .ok { CType.zero with
        type := t.type,
        is_unsigned := t.is_unsigned,
        is_volatile := t.is_volatile,
        is_const := t.is_const,
        is_restrict := t.is_restrict }

/-- `alloc_type`: append a zeroed entry of kind `tt`; the handle refers to it. -/
def alloc_type (types : Types) (tt : enum_type) : Types × CType :=
  (types ++ [{ typetree.zero with type := tt }],
   { CType.zero with type := tt, ref := types.length + 1 })

/-- `remove_qualifiers`. -/
def remove_qualifiers (type : CType) : CType :=
  if type.is_pointer then
    { type with is_pointer_const := false, is_pointer_volatile := false,
                is_pointer_restrict := false }
  else
    { type with is_const := false, is_volatile := false, is_restrict := false }

/-- The body of `size_of`; `self` is the recursive call for the element type of
an array. Products are taken in `size_t`. -/
def size_of_body (self : CType → Except Err Nat) (types : Types) (type : CType) :
    Except Err Nat :=
  match type_of type with
  | T_BOOL | T_CHAR => .ok 1
  | T_SHORT => .ok 2
  | T_INT | T_FLOAT => .ok 4
  | T_LONG | T_DOUBLE | T_POINTER => .ok 8
  | T_LDOUBLE => .ok 16
  | T_STRUCT | T_UNION =>
    match get_typetree_handle types type.ref with
    | .error e => .error e
    | .ok t => .ok t.size
  | T_ARRAY =>
    match get_typetree_handle types type.ref with
    | .error e => .error e
    | .ok t =>
      match self t.next with
      | .error e => .error e
      | .ok n => .ok (t.size * n % SIZE_MOD)
  | _ => .ok 0

/-- `size_of`. The fuel bounds the nesting of arrays. -/
def size_of (types : Types) : Nat → CType → Except Err Nat
  | 0 => size_of_body (fun _ => .error .out_of_fuel) types
  | fuel + 1 => size_of_body (size_of types fuel) types

/-- The arguments that follow the kind in a call of the variadic `type_create`. -/
inductive create_args
  | pointer (next : CType)
  | array (next : CType) (elem : Nat) (sym : Option Nat)
  | function (next : CType)
  | aggregate
  deriving DecidableEq, Repr

/-- `type_create`. -/
def type_create (types : Types) (fuel : Nat) (tt : enum_type) (args : create_args) :
    Except Err (Types × CType) :=
  match tt, args with
  | T_POINTER, .pointer next =>
    if next.is_pointer then
      let r := alloc_type types T_POINTER
      match get_typetree_handle r.1 r.2.ref with
      | .error e => .error e
      | .ok t =>
        let t := { t with is_const := is_const next, is_volatile := is_volatile next }
        let next := remove_qualifiers next
        let next := { next with is_pointer := false }
        .ok (set_typetree r.1 r.2.ref { t with next := next }, r.2)
    else
      .ok (types, { next with is_pointer := true })
  | T_ARRAY, .array next elem sym =>
    match size_of types fuel next with
    | .error e => .error e
    | .ok sz =>
      if elem * sz % SIZE_MOD > LONG_MAX then .error .array_too_large
      else
        let r := alloc_type types T_ARRAY
        match get_typetree_handle r.1 r.2.ref with
        | .error e => .error e
        | .ok t =>
          let t := { t with size := elem, next := next }
          let t := match sym with
            | some s => { t with vlen := some s, is_vla := true }
            | none => t
          .ok (set_typetree r.1 r.2.ref t, r.2)
  | T_FUNCTION, .function next =>
    let r := alloc_type types T_FUNCTION
    match get_typetree_handle r.1 r.2.ref with
    | .error e => .error e
    | .ok t => .ok (set_typetree r.1 r.2.ref { t with next := next }, r.2)
  | T_STRUCT, .aggregate => .ok (alloc_type types T_STRUCT)
  | T_UNION, .aggregate => .ok (alloc_type types T_UNION)
  | _, _ => .error .assertion

/-- `type_set_const`. -/
def type_set_const (type : CType) : CType :=
  if type.is_pointer then { type with is_pointer_const := true }
  else { type with is_const := true }

/-- `type_set_volatile`. -/
def type_set_volatile (type : CType) : CType :=
  if type.is_pointer then { type with is_pointer_volatile := true }
  else { type with is_volatile := true }

/-- `type_set_restrict`. -/
def type_set_restrict (type : CType) : Except Err CType :=
  if !is_pointer type then .error .restrict_non_pointer
  else if type.is_pointer then .ok { type with is_pointer_restrict := true }
  else .ok { type with is_restrict := true }

/-- `type_deref`. -/
def type_deref (types : Types) (type : CType) : Except Err CType :=
  if !is_pointer type then .error .assertion
  else if type.is_pointer then
    .ok { remove_qualifiers type with is_pointer := false }
  else get_type_handle types type.ref

/-- `type_next`. -/
def type_next (types : Types) (type : CType) : Except Err CType :=
  if !(is_pointer type || is_function type || is_array type) then .error .assertion
  else if is_pointer type then type_deref types type
  else
    match get_typetree_handle types type.ref with
    | .error e => .error e
    | .ok t => .ok t.next

/-- The member loop of `type_alignment` for a struct or union: the maximum of
the member alignments, starting from `m`. -/
def members_alignment (align : CType → Except Err Nat) :
    List member → Nat → Except Err Nat
  | [], m => .ok m
  | mb :: rest, m =>
    match align mb.type with
    | .error e => .error e
    | .ok d => members_alignment align rest (if d > m then d else m)

/-- The body of `type_alignment`; `self` is the recursive call, `size` is
`size_of`. -/
def type_alignment_body (self size : CType → Except Err Nat) (types : Types)
    (type : CType) : Except Err Nat :=
  if !is_object type then .error .assertion
  else
    match type_of type with
    | T_ARRAY =>
      match type_next types type with
      | .error e => .error e
      | .ok next => self next
    | T_STRUCT | T_UNION =>
      match get_typetree_handle types type.ref with
      | .error e => .error e
      | .ok t =>
        match members_alignment self t.members 0 with
        | .error e => .error e
        | .ok m => if m = 0 then .error .assertion else .ok m
    | _ => size type

/-- `type_alignment`. The fuel bounds the nesting of arrays and aggregates. -/
def type_alignment (types : Types) : Nat → CType → Except Err Nat
  | 0 => type_alignment_body (fun _ => .error .out_of_fuel) (size_of types 0) types
  | fuel + 1 =>
    type_alignment_body (type_alignment types fuel) (size_of types (fuel + 1)) types

/-- `find_type_member`, as far as its callers here need it: whether a member of
that name exists. -/
def find_type_member (types : Types) (type : CType) (name : String) :
    Except Err (Option member) :=
  if !(is_struct_or_union type || is_function type) then .error .assertion
  else
    match get_typetree_handle types type.ref with
    | .error e => .error e
    | .ok t => .ok (t.members.find? (fun m => name == m.name))

/-- `is_flexible`. -/
def is_flexible (types : Types) (type : CType) : Except Err Bool :=
  if is_struct_or_union type then
    match get_typetree_handle types type.ref with
    | .error e => .error e
    | .ok t => .ok t.is_flexible
  else .ok false

/-- In `add_member`: a member of size 0 is accepted only as the first
zero-size array, which flips the flexible flag. -/
def check_incomplete (sz : Nat) (m : member) (t : typetree) : Except Err typetree :=
  if sz = 0 then
    if is_array m.type ∧ !t.is_flexible then .ok { t with is_flexible := true }
    else .error .incomplete_type
  else .ok t

/-- In `add_member`: a member of flexible type is refused in a struct and
makes a union flexible. -/
def check_flexible (fl : Bool) (parent : CType) (t : typetree) : Except Err typetree :=
  if fl then
    if is_struct parent then .error .flexible_member
    else .ok { t with is_flexible := true }
  else .ok t

/-- In `add_member`: the guard `LONG_MAX - m.offset < size_of(m.type)` and the
growth of the parent size, both in `size_t`. -/
def grow_size (m : member) (sz : Nat) (t : typetree) : Except Err typetree :=
  if (LONG_MAX + SIZE_MOD - m.offset) % SIZE_MOD < sz then .error .object_too_large
  else if t.size < (m.offset + sz) % SIZE_MOD then
    .ok { t with size := (m.offset + sz) % SIZE_MOD }
  else .ok t

/-- The block of `add_member` guarded by `is_struct_or_union(parent)`. `t` is
the entry of the parent after the member was pushed; each query of the source
sees the repository with the entry as updated so far. Returns the final entry. -/
def add_member_aggregate (types : Types) (fuel : Nat) (parent : CType) (m : member)
    (t : typetree) : Except Err typetree := do
  let sz ← size_of (set_typetree types parent.ref t) fuel m.type
  let t1 ← check_incomplete sz m t
  let fl ← is_flexible (set_typetree types parent.ref t1) m.type
  let t2 ← check_flexible fl parent t1
  let sz2 ← size_of (set_typetree types parent.ref t2) fuel m.type
  grow_size m sz2 t2

/-- `add_member`. Returns the repository after the call. -/
def add_member (types : Types) (fuel : Nat) (parent : CType) (m : member) :
    Except Err Types :=
  if !(is_struct_or_union parent || is_function parent) then .error .assertion
  else
    match get_typetree_handle types parent.ref with
    | .error e => .error e
    | .ok t =>
      if m.name = "..." then
        if t.is_vararg then .error .assertion
        else if !is_function parent then .error .assertion
        else .ok (set_typetree types parent.ref { t with is_vararg := true })
      else
        let duplicate : Except Err Bool :=
          if m.name.length ≠ 0 then
            match find_type_member types parent m.name with
            | .error e => .error e
            | .ok found => .ok found.isSome
          else .ok false
        match duplicate with
        | .error e => .error e
        | .ok true => .error .member_exists
        | .ok false =>
          let t := { t with members := t.members ++ [m] }
          if is_struct_or_union parent then
            match add_member_aggregate types fuel parent m t with
            | .error e => .error e
            | .ok t' => .ok (set_typetree types parent.ref t')
          else .ok (set_typetree types parent.ref t)

/-- `adjust_member_alignment`. Returns the repository and the offset. A zero
alignment makes `t->size % align` undefined. -/
def adjust_member_alignment (types : Types) (fuel : Nat) (parent type : CType) :
    Except Err (Types × Nat) :=
  if !is_struct_or_union parent then .error .assertion
  else if is_struct parent then
    match get_typetree_handle types parent.ref with
    | .error e => .error e
    | .ok t =>
      match type_alignment types fuel type with
      | .error e => .error e
      | .ok align =>
        if align = 0 then .error .undefined
        else if t.size % align ≠ 0 then
          let size := (t.size + (align - t.size % align)) % SIZE_MOD
          if size % align ≠ 0 then .error .assertion
          else .ok (set_typetree types parent.ref { t with size := size }, size)
        else .ok (types, t.size)
  else .ok (types, 0)

/-- `type_add_member`. -/
def type_add_member (types : Types) (fuel : Nat) (parent : CType) (name : String)
    (type : CType) : Except Err Types :=
  if !(is_struct_or_union parent || is_function parent) then .error .assertion
  else if !is_function parent then
    match adjust_member_alignment types fuel parent type with
    | .error e => .error e
    | .ok r =>
      add_member r.1 fuel parent { member.zero with offset := r.2, name := name, type := type }
  else
    add_member types fuel parent { member.zero with name := name, type := type }

/-- `pack_field`: the new member when it fits into the unit of `prev`. -/
def pack_field (types : Types) (fuel : Nat) (prev m : member) : Except Err (Option member) :=
  let bits := prev.field_offset + prev.field_width
  match size_of types fuel basic_type__int with
  | .error e => .error e
  | .ok isz =>
    if bits + m.field_width ≤ isz * 8 then
      .ok (some { m with offset := prev.offset, field_offset := bits })
    else .ok none

/-- `get_last_field_member`. -/
def get_last_field_member (t : typetree) : Option member :=
  match t.members.getLast? with
  | some prev => if prev.field_width ≠ 0 then some prev else none
  | none => none

/-- `reset_field_alignment`; `add_field` is the nested call of `type_add_field`. -/
def reset_field_alignment
    (add_field : Types → CType → String → CType → Nat → Except Err Types)
    (types : Types) (type : CType) : Except Err Types := do
  if !is_struct type then throw .assertion
  let t ← get_typetree_handle types type.ref
  match t.members.getLast? with
  | none => return types
  | some m =>
    if m.field_width ≠ 0 then
      let d := m.field_offset + m.field_width
      if d < 32 then add_field types type "" basic_type__int (32 - d)
      else return types
    else if t.size % 4 ≠ 0 then
      return set_typetree types type.ref { t with size := (t.size + t.size % 4) % SIZE_MOD }
    else return types

/-- The second assertion of `type_add_field`:
`type_equal(type, int) || type_equal(type, unsigned int) || is_bool(type)`. -/
def field_type_allowed (types : Types) (fuel : Nat) (type : CType) : Except Err Bool :=
  match type_equal types fuel type basic_type__int with
  | .error e => .error e
  | .ok true => .ok true
  | .ok false =>
    match type_equal types fuel type basic_type__unsigned_int with
    | .error e => .error e
    | .ok true => .ok true
    | .ok false => .ok (is_bool type)

/-- The block of `type_add_field` guarded by `is_struct(parent)`: the new
member is packed behind the last bit-field, or starts a unit at the aligned end
of the struct. Returns the repository and the member. -/
def place_field (types : Types) (fuel : Nat) (parent type : CType) (m : member) :
    Except Err (Types × member) :=
  if is_struct parent then
    match get_typetree_handle types parent.ref with
    | .error e => .error e
    | .ok t =>
      let packed : Except Err (Option member) :=
        match get_last_field_member t with
        | none => .ok none
        | some prev => pack_field types fuel prev m
      match packed with
      | .error e => .error e
      | .ok (some m') => .ok (types, m')
      | .ok none =>
        match adjust_member_alignment types fuel parent type with
        | .error e => .error e
        | .ok r => .ok (r.1, { m with field_offset := 0, offset := r.2 })
  else .ok (types, m)

/-- `type_add_field`. The fuel also bounds the nesting through
`reset_field_alignment`. -/
def type_add_field : Nat → Types → CType → String → CType → Nat → Except Err Types
  | 0, _, _, _, _, _ => .error .out_of_fuel
  | fuel + 1, types, parent, name, type, width =>
    if !is_struct_or_union parent then .error .assertion
    else
      match field_type_allowed types (fuel + 1) type with
      | .error e => .error e
      | .ok false => .error .assertion
      | .ok true =>
        match size_of types (fuel + 1) type with
        | .error e => .error e
        | .ok sz =>
          if width > sz * 8 % SIZE_MOD ∨ (is_bool type ∧ width > 1) then .error .field_width
          else if name.length ≠ 0 ∧ width = 0 then .error .zero_length_field
          else if is_union parent ∧ name.length = 0 then .ok types
          else
            match place_field types (fuel + 1) parent type
                { member.zero with name := name, type := type, field_width := width } with
            | .error e => .error e
            | .ok r =>
              if width = 0 then reset_field_alignment (type_add_field fuel) r.1 parent
              else add_member r.1 (fuel + 1) parent r.2

/-- The loop of `remove_anonymous_fields`: position `i - 1` is looked at next,
`maxalign` is the running maximum. -/
def remove_anonymous_fields_loop (fuel : Nat) (ref : Nat) :
    Nat → Types → Nat → Except Err (Types × Nat)
  | 0, types, maxalign => .ok (types, maxalign)
  | i + 1, types, maxalign =>
    match get_typetree_handle types ref with
    | .error e => .error e
    | .ok t =>
      match t.members[i]? with
      | none => .error .out_of_bounds
      | some m =>
        if m.name.length = 0 then
          remove_anonymous_fields_loop fuel ref i
            (set_typetree types ref { t with members := t.members.eraseIdx i }) maxalign
        else
          match type_alignment types fuel m.type with
          | .error e => .error e
          | .ok align =>
            remove_anonymous_fields_loop fuel ref i types
              (if align > maxalign then align else maxalign)

/-- `remove_anonymous_fields` on the entry `ref`. -/
def remove_anonymous_fields (types : Types) (fuel : Nat) (ref : Nat) :
    Except Err (Types × Nat) :=
  match get_typetree_handle types ref with
  | .error e => .error e
  | .ok t => remove_anonymous_fields_loop fuel ref t.members.length types 0

/-- `type_seal`. -/
def type_seal (types : Types) (fuel : Nat) (type : CType) : Except Err Types := do
  if !is_struct_or_union type then throw .assertion
  let _ ← get_typetree_handle types type.ref
  let r ← remove_anonymous_fields types fuel type.ref
  if r.2 = 0 then throw .no_named_members
  let t ← get_typetree_handle r.1 type.ref
  if t.size % r.2 ≠ 0 then
    return set_typetree r.1 type.ref
      { t with size := (t.size + (r.2 - t.size % r.2)) % SIZE_MOD }
  return r.1

/-- `type_array_len`. -/
def type_array_len (types : Types) (type : CType) : Except Err Nat :=
  if !is_array type then .error .assertion
  else
    match get_typetree_handle types type.ref with
    | .error e => .error e
    | .ok t => .ok t.size

/-- The body of `is_compatible`; `self` is the recursive call on the pointees
or element types, `equal` is `type_equal`. -/
def is_compatible_body (self equal : CType → CType → Except Err Bool) (types : Types)
    (l r : CType) : Except Err Bool :=
  if type_of l ≠ type_of r
      ∨ is_const l ≠ is_const r
      ∨ is_volatile l ≠ is_volatile r
      ∨ is_restrict l ≠ is_restrict r then .ok false
  else
    match type_of l with
    | T_BOOL | T_CHAR | T_SHORT | T_INT | T_LONG | T_FLOAT | T_DOUBLE | T_LDOUBLE => .ok true
    | T_POINTER =>
      match type_next types l, type_next types r with
      | .ok nl, .ok nr => self nl nr
      | .error e, _ => .error e
      | _, .error e => .error e
    | T_ARRAY =>
      match type_array_len types l, type_array_len types r with
      | .ok s1, .ok s2 =>
        if s1 = 0 ∨ s2 = 0 ∨ s1 = s2 then
          match type_next types l, type_next types r with
          | .ok nl, .ok nr => self nl nr
          | .error e, _ => .error e
          | _, .error e => .error e
        else .ok false
      | .error e, _ => .error e
      | _, .error e => .error e
    | _ => equal l r

/-- `is_compatible`. The fuel bounds the depth of the recursion through pointees
and element types, and of the call of `type_equal`. -/
def is_compatible (types : Types) : Nat → CType → CType → Except Err Bool
  | 0 => fun _ _ => .error .out_of_fuel
  | fuel + 1 =>
    is_compatible_body (is_compatible types fuel) (type_equal types (fuel + 1)) types

/-- Modelled from the spec: the macro `is_unsigned`, the unsigned bit of an
arithmetic handle. -/
def is_unsigned (t : CType) : Bool := t.is_unsigned

/-- Modelled from the spec: the macro `is_integer`: kind bool, char, short, int
or long. -/
def is_integer (t : CType) : Bool :=
  type_of t == T_BOOL || type_of t == T_CHAR || type_of t == T_SHORT
    || type_of t == T_INT || type_of t == T_LONG

def is_float (t : CType) : Bool := type_of t == T_FLOAT
def is_double (t : CType) : Bool := type_of t == T_DOUBLE
def is_long_double (t : CType) : Bool := type_of t == T_LDOUBLE

/-- Modelled from the spec: the macro `is_arithmetic`: an integer kind, float,
double or long double. -/
def is_arithmetic (t : CType) : Bool :=
  is_integer t || is_float t || is_double t || is_long_double t

/-- `promote_integer`. -/
def promote_integer (types : Types) (fuel : Nat) (type : CType) : Except Err CType :=
  if !is_integer type then .error .assertion
  else
    match size_of types fuel type with
    | .error e => .error e
    | .ok sz => if sz < 4 then .ok basic_type__int else .ok type

/-- The last branch of `usual_arithmetic_conversion`: both operands are
promoted, the wider one wins, a tie goes to `t1` when it is unsigned. -/
def integer_conversion (types : Types) (fuel : Nat) (t1 t2 : CType) : Except Err CType :=
  match promote_integer types fuel t1 with
  | .error e => .error e
  | .ok t1 =>
    match promote_integer types fuel t2 with
    | .error e => .error e
    | .ok t2 =>
      match size_of types fuel t1, size_of types fuel t2 with
      | .ok s1, .ok s2 =>
        if s1 > s2 then .ok t1
        else if s2 > s1 then .ok t2
        else .ok (if is_unsigned t1 then t1 else t2)
      | .error e, _ => .error e
      | _, .error e => .error e

/-- `usual_arithmetic_conversion`. -/
def usual_arithmetic_conversion (types : Types) (fuel : Nat) (t1 t2 : CType) :
    Except Err CType :=
  if !is_arithmetic t1 then .error .assertion
  else if !is_arithmetic t2 then .error .assertion
  else
    let res : Except Err CType :=
      if is_long_double t1 || is_long_double t2 then .ok basic_type__long_double
      else if is_double t1 || is_double t2 then .ok basic_type__double
      else if is_float t1 || is_float t2 then .ok basic_type__float
      else integer_conversion types fuel t1 t2
    match res with
    | .error e => .error e
    | .ok res => .ok (remove_qualifiers res)

/-- Two repositories that agree on every entry other than `ref`, and on the
`next` handle of entry `ref`. -/
def same_outside (types1 types2 : Types) (ref : Nat) : Prop :=
  (∀ r, r ≠ ref → get_typetree_handle types1 r = get_typetree_handle types2 r)
    ∧ ∀ e1, get_typetree_handle types1 ref = .ok e1 →
        ∃ e2, get_typetree_handle types2 ref = .ok e2 ∧ e1.next = e2.next

/-- A member with a non-empty name. -/
def is_named (m : member) : Bool := m.name.length != 0

/-- `s` rounded up to the next multiple of `a`. -/
def round_up (s a : Nat) : Nat := (s + a - 1) / a * a

/-- The end of the last member when each member of size `sz` and alignment `al`
starts at the end `s` of the previous one rounded up to `al`. -/
def layout_end : Nat → List (Nat × Nat) → Nat
  | s, [] => s
  | s, (sz, al) :: rest => layout_end (round_up s al + sz) rest

/-- The offsets of that layout, in declaration order. -/
def layout_offsets : Nat → List (Nat × Nat) → List Nat
  | _, [] => []
  | s, (sz, al) :: rest => round_up s al :: layout_offsets (round_up s al + sz) rest

/-- `type_add_member(parent, name, type)` for each name and type in turn. -/
def add_members (fuel : Nat) (parent : CType) : Types → List (String × CType) → Except Err Types
  | types, [] => .ok types
  | types, (name, type) :: rest =>
    match type_add_member types fuel parent name type with
    | .error e => .error e
    | .ok types' => add_members fuel parent types' rest

/-- A member type that is complete with respect to the struct stored as `ref`:
whatever that entry holds, the type has the size `sz > 0` and the alignment
`al > 0`, and is not flexible. -/
def complete_type (types : Types) (fuel ref : Nat) (type : CType) (sz al : Nat) : Prop :=
  sz ≠ 0 ∧ al ≠ 0 ∧ ∀ e : typetree,
    size_of (set_typetree types ref e) fuel type = .ok sz
      ∧ type_alignment (set_typetree types ref e) fuel type = .ok al
      ∧ is_flexible (set_typetree types ref e) type = .ok false

/-! ## The intermediate representation (`transform.c` and its operands) -/

inductive Linkage
  | LINK_NONE | LINK_INTERN | LINK_EXTERN
  deriving DecidableEq, Repr

/-- Modelled from the spec: `struct symbol` (absent `lacc/symbol.h`), reduced
to the identity of the object and its linkage, the only field the passes read. -/
structure Symbol where
  id : Nat
  linkage : Linkage
  deriving DecidableEq, Repr

inductive VarKind
  | IMMEDIATE | DIRECT | ADDRESS | DEREF
  deriving DecidableEq, Repr

/-- Modelled from the spec: the operand `struct var` (absent `lacc/ir.h`) with
the fields `transform.c` reads. `symbol` is the view `value.symbol` of the
operand's value, `imm` the immediate view. -/
structure Var where
  type : CType
  is_symbol : Bool
  symbol : Symbol
  imm : Int
  kind : VarKind
  field_width : Int
  field_offset : Int
  offset : Nat
  deriving DecidableEq, Repr

inductive Opcode
  | IR_OP_CAST | IR_OP_CALL | IR_OP_VA_ARG | IR_OP_NOT | IR_OP_ADD | IR_OP_SUB
  | IR_OP_MUL | IR_OP_DIV | IR_OP_MOD | IR_OP_AND | IR_OP_OR | IR_OP_XOR
  | IR_OP_SHL | IR_OP_SHR | IR_OP_EQ | IR_OP_NE | IR_OP_GE | IR_OP_GT
  deriving DecidableEq, Repr

/-- Modelled from the spec: `struct expression`: opcode, result type, operands. -/
structure Expression where
  op : Opcode
  type : CType
  l : Var
  r : Var
  deriving DecidableEq, Repr

inductive StKind
  | IR_EXPR | IR_PARAM | IR_VA_START | IR_ASSIGN
  deriving DecidableEq, Repr

/-- Modelled from the spec: `struct statement`: tag `st`, target `t`, expression. -/
structure Statement where
  st : StKind
  t : Var
  expr : Expression
  deriving DecidableEq, Repr

/-- Modelled from the spec: `struct block`, reduced to its label and its
window `[head, head + count)` into the statement array; terminator, successor
edges and colour are not touched by the passes. -/
structure Block where
  label : Nat
  head : Int
  count : Int
  deriving DecidableEq, Repr

/-- Modelled from the spec: `struct definition`: the statement array and the
blocks `nodes`. A `struct block *` into `nodes` is a position of this list. -/
structure Definition where
  statements : List Statement
  nodes : List Block
  deriving DecidableEq, Repr

open StKind VarKind Opcode Linkage

/-- Modelled from the spec: the macro `is_field` (a bit-field operand). -/
def is_field (v : Var) : Bool := v.field_width != 0

/-- Modelled from the spec: the macro `is_identity`: opcode `CAST` whose
operand type equals the result type. -/
def is_identity (types : Types) (fuel : Nat) (e : Expression) : Except Err Bool :=
  and_then (.ok (e.op == IR_OP_CAST)) (type_equal types fuel e.type e.l.type)

/-- `var_equal`. -/
def var_equal (types : Types) (fuel : Nat) (a b : Var) : Except Err Bool :=
  and_then (type_equal types fuel a.type b.type)
    (.ok (((!a.is_symbol && !b.is_symbol) || a.symbol == b.symbol)
      && a.kind == b.kind
      && a.field_width == b.field_width
      && a.field_offset == b.field_offset
      && a.offset == b.offset))

/-- What the passes take from outside `transform.c`: the repository with the
recursion fuel for `type_equal`, and the two predicates of the absent
`liveness.h`. -/
structure Env where
  types : Types
  fuel : Nat
  is_live_after : Symbol → Statement → Bool
  has_side_effects : Expression → Bool

/-- `can_merge`. -/
def can_merge (env : Env) (s1 s2 : Statement) : Except Err Bool :=
  and_then (.ok (s1.st == IR_ASSIGN))
  (and_then (.ok (s2.st == IR_ASSIGN))
  (and_then (is_identity env.types env.fuel s2.expr)
  (and_then (var_equal env.types env.fuel s1.t s2.expr.l)
  (and_then (type_equal env.types env.fuel s1.t.type s2.t.type)
  (.ok (s1.t.kind == DIRECT
    && s1.t.symbol.linkage == LINK_NONE
    && !is_field s1.t
    && !env.is_live_after s1.t.symbol s2))))))

/-- The update of one block in the loop of `statement_array_erase`. -/
def erase_adjust (index : Int) (block : Block) : Block :=
  if index > block.head + block.count then block
  else if index ≥ block.head ∧ index < block.head + block.count then
    { block with count := block.count - 1 }
  else if index < block.head then
    { block with head := block.head - 1 }
  else block

/-- `statement_array_erase`. -/
def statement_array_erase (d : Definition) (index : Int) : Except Err Definition :=
  if index < 0 then .error .assertion
  else if ¬ index < d.statements.length then .error .assertion
  else .ok { statements := d.statements.eraseIdx index.toNat,
             nodes := d.nodes.map (erase_adjust index) }

/-- Index `j` lies in the window `[head, head + count)` of `b`. -/
def in_window (b : Block) (j : Int) : Bool :=
  decide (b.head ≤ j) && decide (j < b.head + b.count)

/-- Number of blocks of `nodes` whose window contains `j`. -/
def covering (nodes : List Block) (j : Int) : Nat :=
  nodes.countP (fun b => in_window b j)

/-- Each index of `[0, n)` lies in the window of exactly one block. -/
def block_partition (nodes : List Block) (n : Int) : Prop :=
  ∀ j : Int, 0 ≤ j → j < n → covering nodes j = 1

/-- The block `*block` the passes were handed, read through its position in
`nodes`. -/
def get_block (d : Definition) (bi : Nat) : Except Err Block :=
  match d.nodes[bi]? with
  | some b => .ok b
  | none => .error .out_of_bounds

/-- The `while` loop of `merge_chained_assignment`, one iteration per unit of
fuel; `s1` is the local copy of the statement before position `i`. -/
def merge_loop (env : Env) (bi : Nat) :
    Nat → Definition → Int → Int → Statement → Except Err (Definition × Int)
  | 0, _, _, _, _ => .error .out_of_fuel
  | fuel + 1, d, i, c, s1 => do
    let block ← get_block d bi
    if i < block.count then
      let s2 ← array_get d.statements (block.head + i)
      if (← can_merge env s1 s2) then
        let s1 := { s1 with t := s2.t }
        let stmts ← array_set d.statements (block.head + i - 1) s1
        let d ← statement_array_erase { d with statements := stmts } (block.head + i)
        let block ← get_block d bi
        let s1 ← array_get d.statements (block.head + i - 1)
        merge_loop env bi fuel d i (c + 1) s1
      else
        let s1 ← array_get d.statements (block.head + i)
        merge_loop env bi fuel d (i + 1) c s1
    else
      .ok (d, c)

/-- `merge_chained_assignment(def, block)`, the block being `nodes[bi]`. -/
def merge_chained_assignment (env : Env) (fuel : Nat) (d : Definition) (bi : Nat) :
    Except Err (Definition × Int) := do
  let block ← get_block d bi
  if block.count ≤ 1 then
    .ok (d, 0)
  else
    let s1 ← array_get d.statements block.head
    merge_loop env bi fuel d 1 0 s1

/-- The condition under which `dead_store_elimination` rewrites a statement. -/
def is_dead_store (env : Env) (st : Statement) : Bool :=
  st.st == IR_ASSIGN
    && st.t.kind == DIRECT
    && !env.is_live_after st.t.symbol st
    && st.t.symbol.linkage == LINK_NONE

/-- The `for` loop of `dead_store_elimination`, one iteration per unit of fuel. -/
def dead_store_loop (env : Env) (bi : Nat) :
    Nat → Definition → Int → Int → Except Err (Definition × Int)
  | 0, _, _, _ => .error .out_of_fuel
  | fuel + 1, d, i, c => do
    let block ← get_block d bi
    if i < block.count then
      let st ← array_get d.statements (block.head + i)
      if is_dead_store env st then
        if env.has_side_effects st.expr then
          let stmts ← array_set d.statements (block.head + i) { st with st := IR_EXPR }
          dead_store_loop env bi fuel { d with statements := stmts } (i + 1) (c + 1)
        else
          let d ← statement_array_erase d (block.head + i)
          dead_store_loop env bi fuel d (i - 1 + 1) (c + 1)
      else
        dead_store_loop env bi fuel d (i + 1) c
    else
      .ok (d, c)

/-- `dead_store_elimination(def, block)`, the block being `nodes[bi]`. -/
def dead_store_elimination (env : Env) (fuel : Nat) (d : Definition) (bi : Nat) :
    Except Err (Definition × Int) :=
  dead_store_loop env bi fuel d 0 0

/-- What becomes of one statement under dead-store elimination: erased
(`none`), converted to `IR_EXPR`, or kept. -/
def dead_store_result (env : Env) (st : Statement) : Option Statement :=
  if is_dead_store env st then
    if env.has_side_effects st.expr then some { st with st := IR_EXPR } else none
  else some st

/-- The statements in the window of a block. -/
def block_code (d : Definition) (b : Block) : List Statement :=
  (d.statements.drop b.head.toNat).take b.count.toNat

/-- The window of `b` lies inside the statement array. -/
def window_inside (d : Definition) (b : Block) : Prop :=
  0 ≤ b.head ∧ 0 ≤ b.count ∧ b.head + b.count ≤ d.statements.length

/-- The merge conditions between a statement `prev : t1 <- e` and its
successor `cur : t2 <- t1`: both are ASSIGN, the expression of `cur` is an
identity cast whose operand is `var_equal` to `t1`, the targets have equal
types, `t1` is a DIRECT non-bit-field operand whose symbol has linkage
`LINK_NONE`, and that symbol is not live after `cur`. -/
def chain_link (env : Env) (prev cur : Statement) : Prop :=
  prev.st = IR_ASSIGN ∧ cur.st = IR_ASSIGN
    ∧ is_identity env.types env.fuel cur.expr = .ok true
    ∧ var_equal env.types env.fuel prev.t cur.expr.l = .ok true
    ∧ type_equal env.types env.fuel prev.t.type cur.t.type = .ok true
    ∧ prev.t.kind = DIRECT
    ∧ is_field prev.t = false
    ∧ prev.t.symbol.linkage = LINK_NONE
    ∧ env.is_live_after prev.t.symbol cur = false

/-! ### A store semantics for straight-line code -/

/-- Modelled from the spec: the store of an execution, the value held at each
address. -/
abbrev Store := Int → Int

/-- Modelled from the spec: the storage location a symbol names; distinct
symbols occupy distinct (negative) addresses. -/
def symbol_address (s : Symbol) : Int := -(s.id : Int) - 1

/-- Modelled from the spec: the location an lvalue operand designates. `DIRECT`
names the symbol's storage plus byte offset, `DEREF` indirects through the
symbol's value. -/
def var_location (σ : Store) (v : Var) : Int :=
  match v.kind with
  | DIRECT => symbol_address v.symbol + v.offset
  | DEREF => σ (symbol_address v.symbol) + v.offset
  | _ => 0

/-- Modelled from the spec: the value of an operand. -/
def var_value (σ : Store) (v : Var) : Int :=
  match v.kind with
  | IMMEDIATE => v.imm
  | ADDRESS => symbol_address v.symbol + v.offset
  | _ => σ (var_location σ v)

/-- Modelled from the spec: the value of an expression (casts and the additive
operators; the other opcodes are not needed here and evaluate to 0). -/
def eval_expression (σ : Store) (e : Expression) : Int :=
  match e.op with
  | IR_OP_CAST => var_value σ e.l
  | IR_OP_ADD => var_value σ e.l + var_value σ e.r
  | IR_OP_SUB => var_value σ e.l - var_value σ e.r
  | _ => 0

/-- Modelled from the spec: `ASSIGN` stores the value of the expression at the
location of the target; the other statement kinds leave the store alone. -/
def exec_statement (σ : Store) (s : Statement) : Store :=
  match s.st with
  | IR_ASSIGN => Function.update σ (var_location σ s.t) (eval_expression σ s.expr)
  | _ => σ

/-- Modelled from the spec: execution of the statements of a block in order. -/
def exec_block (σ : Store) (code : List Statement) : Store :=
  code.foldl exec_statement σ

/-! ### Sample data -/

def sym_a : Symbol := ⟨1, LINK_NONE⟩
def sym_b : Symbol := ⟨2, LINK_NONE⟩
def sym_t : Symbol := ⟨3, LINK_NONE⟩
def sym_x : Symbol := ⟨4, LINK_NONE⟩
def sym_f : Symbol := ⟨5, LINK_EXTERN⟩

/-- A plain `int` variable operand. -/
def int_var (s : Symbol) : Var :=
  ⟨basic_type__int, true, s, 0, DIRECT, 0, 0, 0⟩

/-- The statement `t = l + r` over `int` operands. -/
def st_add (t l r : Symbol) : Statement :=
  ⟨IR_ASSIGN, int_var t, ⟨IR_OP_ADD, basic_type__int, int_var l, int_var r⟩⟩

/-- The statement `t = s` over `int` operands. -/
def st_copy (t s : Symbol) : Statement :=
  ⟨IR_ASSIGN, int_var t, ⟨IR_OP_CAST, basic_type__int, int_var s, int_var s⟩⟩

/-- The statement `t = f()`. -/
def st_call (t f : Symbol) : Statement :=
  ⟨IR_ASSIGN, int_var t, ⟨IR_OP_CALL, basic_type__int, int_var f, int_var f⟩⟩

/-- Two blocks over four statements: `[0, 2)` and `[2, 4)`. -/
def sample_def : Definition :=
  { statements := [st_add sym_t sym_a sym_b, st_copy sym_x sym_t,
                   st_call sym_t sym_f, st_add sym_x sym_a sym_b],
    nodes := [⟨0, 0, 2⟩, ⟨1, 2, 2⟩] }

/-- Liveness in the sample: only `x` is read later on. -/
def sample_env : Env :=
  { types := [], fuel := 1,
    is_live_after := fun s _ => s.id == 4,
    has_side_effects := fun e => e.op == IR_OP_CALL || e.op == IR_OP_VA_ARG }

/-- The repository holding `struct node { struct node *next; }` as entry 1. -/
def node_types : Types :=
  [{ typetree.zero with
      type := T_STRUCT, size := 8,
      members := [⟨"next", { CType.zero with type := T_STRUCT, ref := 1, is_pointer := true },
                   0, 0, 0, none⟩] }]

/-- The handle of `struct node *`. -/
def node_ptr : CType := { CType.zero with type := T_STRUCT, ref := 1, is_pointer := true }

def sym_p : Symbol := ⟨10, LINK_NONE⟩
def sym_q : Symbol := ⟨11, LINK_NONE⟩

/-- The statement `p = q + 8` (`p = q + 1` on `struct node *`). -/
def st_p_gets_q_plus : Statement :=
  ⟨IR_ASSIGN, ⟨node_ptr, true, sym_p, 0, DIRECT, 0, 0, 0⟩,
    ⟨IR_OP_ADD, node_ptr, ⟨node_ptr, true, sym_q, 0, DIRECT, 0, 0, 0⟩,
      ⟨basic_type__long, false, sym_q, 8, IMMEDIATE, 0, 0, 0⟩⟩⟩

/-- The statement `*p = p` (`p->next = p`). -/
def st_store_through_p : Statement :=
  ⟨IR_ASSIGN, ⟨node_ptr, true, sym_p, 0, DEREF, 0, 0, 0⟩,
    ⟨IR_OP_CAST, node_ptr, ⟨node_ptr, true, sym_p, 0, DIRECT, 0, 0, 0⟩,
      ⟨node_ptr, true, sym_p, 0, DIRECT, 0, 0, 0⟩⟩⟩

/-- The block `[p = q + 8; *p = p]`, after which nothing is live. -/
def deref_def : Definition :=
  { statements := [st_p_gets_q_plus, st_store_through_p], nodes := [⟨0, 0, 2⟩] }

def deref_env : Env :=
  { types := node_types, fuel := 1,
    is_live_after := fun _ _ => false,
    has_side_effects := fun e => e.op == IR_OP_CALL || e.op == IR_OP_VA_ARG }

/-- An initial store: `q` holds the address 100, `p` holds the stale value 500. -/
def deref_store : Store :=
  fun a => if a = symbol_address sym_q then 100 else if a = symbol_address sym_p then 500 else 0

/-- Two separate entries for `struct { int x; }`. -/
def pair_types : Types :=
  [{ typetree.zero with
      type := T_STRUCT, size := 4,
      members := [⟨"x", basic_type__int, 0, 0, 0, none⟩] },
   { typetree.zero with
      type := T_STRUCT, size := 4,
      members := [⟨"x", basic_type__int, 0, 0, 0, none⟩] }]

/-- The handle of the struct stored as entry `ref`. -/
def struct_handle (ref : Nat) : CType := { CType.zero with type := T_STRUCT, ref := ref }

/-- The handle of `int * restrict`, as built by
`type_set_restrict(type_create(T_POINTER, basic_type__int))`. -/
def restrict_int_ptr : CType :=
  { CType.zero with type := T_INT, is_pointer := true, is_pointer_restrict := true }

/-- The members of `struct { char a; int b; char c; }` as laid out by
`type_add_member`. -/
def abc_members : List member :=
  [⟨"a", basic_type__char, 0, 0, 0, none⟩,
   ⟨"b", basic_type__int, 4, 0, 0, none⟩,
   ⟨"c", basic_type__char, 8, 0, 0, none⟩]

/-- The repository holding `struct { char a; int b; char c; }` before sealing. -/
def abc_unsealed : Types :=
  [{ typetree.zero with type := T_STRUCT, size := 9, members := abc_members }]

/-- The repository holding `struct { char a; int b; char c; }` after sealing. -/
def abc_sealed : Types :=
  [{ typetree.zero with type := T_STRUCT, size := 12, members := abc_members }]

/-- The repository holding one empty struct, as `type_create(T_STRUCT)` leaves it. -/
def empty_struct : Types := [{ typetree.zero with type := T_STRUCT }]

/-- A named `int` bit-field member at byte offset 0. -/
def int_field (name : String) (field_offset field_width : Nat) : member :=
  ⟨name, basic_type__int, 0, field_width, field_offset, none⟩

/-- The repository holding `struct { int a:3; ... }` after its first field. -/
def bits_a : Types :=
  [{ typetree.zero with type := T_STRUCT, size := 4, members := [int_field "a" 0 3] }]

/-- The repository holding `struct { int a:3; int b:5; ... }`. -/
def bits_ab : Types :=
  [{ typetree.zero with
      type := T_STRUCT, size := 4, members := [int_field "a" 0 3, int_field "b" 3 5] }]

/-- The repository holding `struct { int a:3; int b:5; int c:1; }`; sealing
leaves it as it is. -/
def bits_abc : Types :=
  [{ typetree.zero with
      type := T_STRUCT, size := 4,
      members := [int_field "a" 0 3, int_field "b" 3 5, int_field "c" 8 1] }]

/-- The handle of the array stored as entry `ref`. -/
def array_handle (ref : Nat) : CType := { CType.zero with type := T_ARRAY, ref := ref }

/-- The repository holding an empty struct, `char [LONG_MAX]` and
`char [LONG_MAX - 1]`. -/
def huge_types : Types :=
  [{ typetree.zero with type := T_STRUCT },
   { typetree.zero with type := T_ARRAY, size := LONG_MAX, next := basic_type__char },
   { typetree.zero with type := T_ARRAY, size := LONG_MAX - 1, next := basic_type__char }]

/-- The members of
`struct { char a[LONG_MAX]; short b; char c[LONG_MAX - 1]; }` as laid out by
`type_add_member`. -/
def huge_members : List member :=
  [⟨"a", array_handle 2, 0, 0, 0, none⟩,
   ⟨"b", basic_type__short, 2 ^ 63, 0, 0, none⟩,
   ⟨"c", array_handle 3, 2 ^ 63 + 2, 0, 0, none⟩]

/-- The repository after the three members were added and the struct sealed. -/
def huge_sealed : Types :=
  [{ typetree.zero with type := T_STRUCT, size := 2 ^ 63 + 2, members := huge_members },
   { typetree.zero with type := T_ARRAY, size := LONG_MAX, next := basic_type__char },
   { typetree.zero with type := T_ARRAY, size := LONG_MAX - 1, next := basic_type__char }]

/-- The two array entries behind the struct in `huge_types`. -/
def huge_tail : Types :=
  [{ typetree.zero with type := T_ARRAY, size := LONG_MAX, next := basic_type__char },
   { typetree.zero with type := T_ARRAY, size := LONG_MAX - 1, next := basic_type__char }]

/-- The repository after `a` was added: the struct is `LONG_MAX` bytes long. -/
def huge_a : Types :=
  { typetree.zero with type := T_STRUCT, size := 2 ^ 63 - 1, members := huge_members.take 1 }
    :: huge_tail

/-- The repository after `b` was added at offset `2 ^ 63`. -/
def huge_ab : Types :=
  { typetree.zero with type := T_STRUCT, size := 2 ^ 63 + 2, members := huge_members.take 2 }
    :: huge_tail

/-- The repository holding `struct { char a; ... }` after its first member. -/
def abc_a : Types :=
  [{ typetree.zero with type := T_STRUCT, size := 1, members := abc_members.take 1 }]

/-- The repository holding `struct { char a; int b; ... }`. -/
def abc_ab : Types :=
  [{ typetree.zero with type := T_STRUCT, size := 8, members := abc_members.take 2 }]

/-- An unnamed `int` bit-field member at byte offset 0, as
`reset_field_alignment` inserts it. -/
def pad_field (field_offset field_width : Nat) : member :=
  ⟨"", basic_type__int, 0, field_width, field_offset, none⟩

/-- The repository holding `struct { int a:3; int :0; ... }`: the unit of `a`
is filled by a padding field of 29 bits. -/
def flush_a : Types :=
  [{ typetree.zero with
      type := T_STRUCT, size := 4, members := [int_field "a" 0 3, pad_field 3 29] }]

/-- The repository holding `struct { int a:3; int :0; int b:4; }` before
sealing. -/
def flush_ab : Types :=
  [{ typetree.zero with
      type := T_STRUCT, size := 8,
      members := [int_field "a" 0 3, pad_field 3 29,
                  ⟨"b", basic_type__int, 4, 4, 0, none⟩] }]

/-- The repository holding `struct { int a:3; int :0; int b:4; }` after
sealing. -/
def flush_sealed : Types :=
  [{ typetree.zero with
      type := T_STRUCT, size := 8,
      members := [int_field "a" 0 3, ⟨"b", basic_type__int, 4, 4, 0, none⟩] }]

/-- The name of the `k`-th `_Bool` field: `b`, `bb`, `bbb`, ... -/
def bool_name (k : Nat) : String := String.mk (List.replicate (k + 1) 'b')

/-- The `k`-th of a run of `_Bool : 1` fields packed into the unit at byte
offset 0. -/
def bool_field (k : Nat) : member := ⟨bool_name k, basic_type__bool, 0, 1, k, none⟩

/-- The repository holding a struct of `k` fields `_Bool b:1`. -/
def bools (k : Nat) : Types :=
  [{ typetree.zero with
      type := T_STRUCT, size := if k = 0 then 0 else 1,
      members := (List.range k).map bool_field }]

/-- The repository after `_Bool c:1` was added behind 32 fields `_Bool b:1` and
an `int :0`. -/
def bools_c : Types :=
  [{ typetree.zero with
      type := T_STRUCT, size := 2,
      members := (List.range 32).map bool_field ++ [⟨"c", basic_type__bool, 1, 1, 0, none⟩] }]

/-- The repository holding `struct { char a; ... }` with the given size. -/
def char_a (size : Nat) : Types :=
  [{ typetree.zero with
      type := T_STRUCT, size := size, members := [⟨"a", basic_type__char, 0, 0, 0, none⟩] }]

/-- The handle of `int *`: the handle of `int` with the pointer-of bit set. -/
def int_ptr : CType := { basic_type__int with is_pointer := true }

/-- The repository after `int [2^62]` was created in the empty repository. -/
def wrapped_array_types : Types :=
  [{ typetree.zero with type := T_ARRAY, size := 2 ^ 62, next := basic_type__int }]

/-- The repository after `int [3]` was created in the empty repository. -/
def int3_types : Types :=
  [{ typetree.zero with type := T_ARRAY, size := 3, next := basic_type__int }]

/-- The size in bytes that the specification lists for the kinds without a
repository entry: scalars and pointers, and 0 for void and functions. -/
def scalar_size : enum_type → Nat
  | T_BOOL | T_CHAR => 1
  | T_SHORT => 2
  | T_INT | T_FLOAT => 4
  | T_LONG | T_DOUBLE | T_POINTER => 8
  | T_LDOUBLE => 16
  | _ => 0

/-- The handle of `const unsigned long`. -/
def const_unsigned_long : CType := type_set_const basic_type__unsigned_long

/-- The value of `promote_integer` for an integer handle, with `size_of` read
off the kind. -/
def promoted (t : CType) : CType :=
  if scalar_size (type_of t) < 4 then basic_type__int else t

/-- The value of the integer branch of `usual_arithmetic_conversion` for integer
handles, before the qualifiers are removed. -/
def integer_conversion_value (t1 t2 : CType) : CType :=
  if scalar_size (type_of (promoted t1)) > scalar_size (type_of (promoted t2)) then promoted t1
  else if scalar_size (type_of (promoted t2)) > scalar_size (type_of (promoted t1)) then
    promoted t2
  else if is_unsigned (promoted t1) then promoted t1 else promoted t2

/-- The entry `type_create(T_POINTER, int *)` appends: kind pointer, `next` is
`int` with the pointer-of bit clear. -/
def int_ptr_entry : typetree :=
  { typetree.zero with type := T_POINTER, next := basic_type__int }

/-- The handle of `int **` once its entry is entry 1. -/
def int_ptr_ptr : CType := { CType.zero with type := T_POINTER, ref := 1 }

/-- Modelled from the spec: an operand references a symbol when it is a symbol
operand naming it (`struct var` of the absent `lacc/ir.h`). -/
def var_references (v : Var) (s : Symbol) : Bool := v.is_symbol && v.symbol == s

/-- Modelled from the spec: only an assignment has a target operand; the other
statement kinds consist of their expression. -/
def statement_target (st : Statement) : Option Var :=
  if st.st = IR_ASSIGN then some st.t else none

/-- Modelled from the spec: a statement references a symbol through its target
(when it has one) or through an operand of its expression. -/
def statement_references (st : Statement) (s : Symbol) : Bool :=
  (match statement_target st with
    | some t => var_references t s
    | none => false)
  || var_references st.expr.l s || var_references st.expr.r s

/-- The block `[x = t + a; t = f()]`: `t` is read before the dead store. -/
def reads_def : Definition :=
  { statements := [st_add sym_x sym_t sym_a, st_call sym_t sym_f],
    nodes := [⟨0, 0, 2⟩] }

/-- The block `[x = t + a; f()]`. -/
def reads_def_after : Definition :=
  { statements := [st_add sym_x sym_t sym_a, { st_call sym_t sym_f with st := IR_EXPR }],
    nodes := [⟨0, 0, 2⟩] }

/-! ## The driver loop (`lacc.c`) -/

/-- Modelled from the spec: what the loop of `main` takes from outside `lacc.c`,
as abstract steps on the rest of the program state `W`: `parse` (returning
`none` for `NULL`), `optimize`, `compile`, the diagnostic `error`, and the
counter `context.errors` read from the state. -/
structure Driver (W Def : Type) where
  parse : W → Option Def × W
  optimize : Def → W → W
  compile : Def → W → W
  error : W → W
  errors : W → Int

/-- What the loop of `main` does, in order. A definition coming back from
`parse` is recorded with the value of `context.errors` at that point. -/
inductive DriverEvent (Def : Type)
  | parsed (d : Def) (errors : Int)
  | end_of_input
  | aborted
  | optimized (d : Def)
  | compiled (d : Def)
  deriving DecidableEq, Repr

/-- The loop `while ((def = parse()) != NULL) { ... }` of `main`, one iteration
per unit of fuel. Returns the events so far, the state, and whether the loop was
left. -/
def main_loop {W Def : Type} (drv : Driver W Def) : Nat → W → List (DriverEvent Def) × W × Bool
  | 0, w => ([], w, false)
  | fuel + 1, w =>
    match drv.parse w with
    | (none, w1) => ([.end_of_input], w1, true)
    | (some d, w1) =>
      if drv.errors w1 ≠ 0 then
        ([.parsed d (drv.errors w1), .aborted], drv.error w1, true)
      else
        let r := main_loop drv fuel (drv.compile d (drv.optimize d w1))
        (.parsed d (drv.errors w1) :: .optimized d :: .compiled d :: r.1, r.2)

/-- The events of definitions that went through the whole loop body. -/
def handled_events {Def : Type} : List Def → List (DriverEvent Def)
  | [] => []
  | d :: ds => .parsed d 0 :: .optimized d :: .compiled d :: handled_events ds

/-- A driver over a list of pending definitions, given by number: parsing
definition `n` leaves `context.errors` at 1 when `n` is odd, compiling changes
nothing. The state is the error counter with the pending input. -/
def sample_driver : Driver (Int × List Nat) Nat :=
  { parse := fun w =>
      match w.2 with
      | [] => (none, w)
      | n :: rest => (some n, (if n % 2 = 1 then 1 else w.1, rest)),
    optimize := fun _ w => w,
    compile := fun _ w => w,
    error := fun w => (w.1 + 1, w.2),
    errors := fun w => w.1 }

/-! ### The result of merging, as a function on lists -/

/-- What the loop of `merge_chained_assignment` makes of a window: `s1` is the
statement the loop holds, the list holds the statements still ahead. A statement
that can be merged into `s1` hands its target to `s1` and disappears; otherwise
`s1` is final and the loop goes on from the next statement. -/
def merge_list (env : Env) : Statement → List Statement → List Statement
  | s1, [] => [s1]
  | s1, s2 :: rest =>
    match can_merge env s1 s2 with
    | .ok true => merge_list env { s1 with t := s2.t } rest
    | _ => s1 :: merge_list env s2 rest

/-- Every call of `can_merge` the loop makes on this window returns. -/
def merge_defined (env : Env) : Statement → List Statement → Bool
  | _, [] => true
  | s1, s2 :: rest =>
    match can_merge env s1 s2 with
    | .ok true => merge_defined env { s1 with t := s2.t } rest
    | .ok false => merge_defined env s2 rest
    | .error _ => false

/-- `merge_list` for a whole window, which may be empty. -/
def merge_code (env : Env) : List Statement → List Statement
  | [] => []
  | s :: rest => merge_list env s rest

/-- `merge_defined` for a whole window, which may be empty. -/
def merge_code_defined (env : Env) : List Statement → Bool
  | [] => true
  | s :: rest => merge_defined env s rest

/-- The handle of the union stored as entry `ref`. -/
def union_handle (ref : Nat) : CType := { CType.zero with type := T_UNION, ref := ref }

/-- The outcomes of a call of `type_add_field` that got past the validation of
the width: it returns, or `add_member` ends with one of its two fatal errors. -/
def placed_outcome (x : Except Err Types) : Prop :=
  (∃ types', x = .ok types') ∨ x = .error .member_exists ∨ x = .error .object_too_large

/-! ## Building an aggregate by a sequence of calls -/

/-- The loops of `type_add_anonymous_member`, one round per unit of fuel: `step`
is what the loop body does with member `i` of the entry of `type`; the entry is
read from the repository in every round, as `nmembers(type)` and the pointer `t`
of the source do. -/
def anonymous_loop (step : Types → member → Except Err Types) (type : CType) :
    Nat → Nat → Types → Except Err Types
  | 0, _, _ => .error .out_of_fuel
  | k + 1, i, types =>
    match get_typetree_handle types type.ref with
    | .error e => .error e
    | .ok t =>
      if i < t.members.length then
        match t.members[i]? with
        | none => .error .out_of_bounds
        | some m =>
          match step types m with
          | .error e => .error e
          | .ok types' => anonymous_loop step type k (i + 1) types'
      else .ok types

/-- `type_add_anonymous_member`. The fuel also bounds the rounds of the loops. -/
def type_add_anonymous_member (types : Types) (fuel : Nat) (parent type : CType) :
    Except Err Types :=
  if !is_struct_or_union parent then .error .assertion
  else if !is_struct_or_union type then .error .assertion
  else
    match get_typetree_handle types type.ref with
    | .error e => .error e
    | .ok _ =>
      if is_struct parent ∧ is_union type then
        match adjust_member_alignment types fuel parent type with
        | .error e => .error e
        | .ok r =>
          anonymous_loop
            (fun ts m => add_member ts fuel parent
              { m with offset := (m.offset + r.2) % SIZE_MOD })
            type fuel 0 r.1
      else if is_union parent ∧ is_struct type then
        anonymous_loop (fun ts m => add_member ts fuel parent m) type fuel 0 types
      else
        anonymous_loop (fun ts m => type_add_member ts fuel parent m.name m.type)
          type fuel 0 types

/-- One call that adds to an aggregate under construction. -/
inductive member_op
  | add_member (name : String) (type : CType)
  | add_field (name : String) (type : CType) (width : Nat)
  | add_anonymous (type : CType)
  deriving DecidableEq, Repr

/-- The call an operation stands for, on the aggregate `parent`. -/
def apply_member_op (fuel : Nat) (parent : CType) (types : Types) :
    member_op → Except Err Types
  | .add_member name type => type_add_member types fuel parent name type
  | .add_field name type width => type_add_field fuel types parent name type width
  | .add_anonymous type => type_add_anonymous_member types fuel parent type

/-- A sequence of calls on the aggregate `parent`, each on the repository the
previous one left. -/
def apply_member_ops (fuel : Nat) (parent : CType) : Types → List member_op → Except Err Types
  | types, [] => .ok types
  | types, op :: rest =>
    match apply_member_op fuel parent types op with
    | .error e => .error e
    | .ok types' => apply_member_ops fuel parent types' rest

/-- How the entry of a union may grow from `t` to `t'` under calls that add
members at byte offset 0: members are appended, all at offset 0; and when the
size of each new member type does not depend on the entry of the union itself,
the new size is the largest of the old size and the sizes of the new members. -/
def union_growth (types0 : Types) (fuel ref : Nat) (t t' : typetree) : Prop :=
  ∃ added : List member,
    t'.members = t.members ++ added
      ∧ (∀ m ∈ added, m.offset = 0)
      ∧ ((∀ m ∈ added, ∀ e,
            size_of (set_typetree types0 ref e) fuel m.type = size_of types0 fuel m.type) →
          ∃ sizes : List Nat,
            List.Forall₂ (fun m s => size_of types0 fuel m.type = .ok s) added sizes
              ∧ t'.size = sizes.foldl max t.size)

/-- The calls the amended claim on unions speaks of: `type_add_member`,
`type_add_field`, and `type_add_anonymous_member` with a union argument. -/
def union_op : member_op → Prop
  | .add_member _ _ => True
  | .add_field _ _ _ => True
  | .add_anonymous type => is_struct type = false

/-- The repository holding `struct { int a; int b; }` as entry 1 and an empty
union as entry 2. -/
def anon_types : Types :=
  [{ typetree.zero with
      type := T_STRUCT, size := 8,
      members := [⟨"a", basic_type__int, 0, 0, 0, none⟩,
                  ⟨"b", basic_type__int, 4, 0, 0, none⟩] },
   { typetree.zero with type := T_UNION }]

/-- The repository after the struct was added to the union as an anonymous
member: `union { struct { int a; int b; }; }`. -/
def anon_types_added : Types :=
  [{ typetree.zero with
      type := T_STRUCT, size := 8,
      members := [⟨"a", basic_type__int, 0, 0, 0, none⟩,
                  ⟨"b", basic_type__int, 4, 0, 0, none⟩] },
   { typetree.zero with
      type := T_UNION, size := 8,
      members := [⟨"a", basic_type__int, 0, 0, 0, none⟩,
                  ⟨"b", basic_type__int, 4, 0, 0, none⟩] }]

/-- The repository holding `union { int i; char c; }` before sealing. -/
def union_ic : Types :=
  [{ typetree.zero with
      type := T_UNION, size := 4,
      members := [⟨"i", basic_type__int, 0, 0, 0, none⟩,
                  ⟨"c", basic_type__char, 0, 0, 0, none⟩] }]

/-! ### Sample data: derived types and self-referential structs -/

/-- The handle of the function type stored as entry `ref`. -/
def function_handle (ref : Nat) : CType := { CType.zero with type := T_FUNCTION, ref := ref }

/-- The handle of a pointer whose entry is entry `ref` (a pointer to a pointer). -/
def pointer_handle (ref : Nat) : CType := { CType.zero with type := T_POINTER, ref := ref }

/-- The handle of `char *`. -/
def char_ptr : CType := { basic_type__char with is_pointer := true }

/-- The repository after `int [3]` and `char [3]` were created: the entry of an
array holds the element count in `size` and the element type in `next`. -/
def array_pair_types : Types :=
  [{ typetree.zero with type := T_ARRAY, size := 3, next := basic_type__int },
   { typetree.zero with type := T_ARRAY, size := 3, next := basic_type__char }]

/-- The repository after the function types `int ()` and `char ()` were created,
no parameter added: the return type is in `next`. -/
def function_pair_types : Types :=
  [{ typetree.zero with type := T_FUNCTION, next := basic_type__int },
   { typetree.zero with type := T_FUNCTION, next := basic_type__char }]

/-- The repository after `int **` and `char **` were created. -/
def pointer_pair_types : Types :=
  [{ typetree.zero with type := T_POINTER, next := basic_type__int },
   { typetree.zero with type := T_POINTER, next := basic_type__char }]
/-- The handle of a pointer to the struct stored as entry `ref`: the handle of
the struct with the pointer-of bit set, as `type_create(T_POINTER, S)` returns
it. -/
def struct_ptr (ref : Nat) : CType := { struct_handle ref with is_pointer := true }

/-- The sealed entry of `struct S { struct S *next; }` when it is entry `ref`. -/
def self_ref_entry (ref : Nat) : typetree :=
  { typetree.zero with
      type := T_STRUCT, size := 8,
      members := [⟨"next", struct_ptr ref, 0, 0, 0, none⟩] }

/-- The repository holding `struct A { struct A *next; }` as entry 1 and
`struct B { struct B *next; }` as entry 2. -/
def self_ref_types : Types := [self_ref_entry 1, self_ref_entry 2]
/-- A pointer variable of type pointer to the struct stored as entry `ref`. -/
def ptr_var (ref : Nat) (s : Symbol) : Var :=
  ⟨struct_ptr ref, true, s, 0, DIRECT, 0, 0, 0⟩

/-- The statement `t = s` over pointers to the struct stored as entry `ref`. -/
def st_ptr_copy (ref : Nat) (t s : Symbol) : Statement :=
  ⟨IR_ASSIGN, ptr_var ref t, ⟨IR_OP_CAST, struct_ptr ref, ptr_var ref s, ptr_var ref s⟩⟩

/-- The block `[p = q; a = b]` with `p`, `q` of type `struct A *` and `a`, `b` of
type `struct B *`. -/
def self_ref_def : Definition :=
  { statements := [st_ptr_copy 1 sym_p sym_q, st_ptr_copy 2 sym_a sym_b],
    nodes := [⟨0, 0, 2⟩] }

/-- The passes over the repository of the two self-referential structs, every
symbol live, `fuel` the recursion depth granted to `type_equal`. -/
def self_ref_env (fuel : Nat) : Env :=
  { types := self_ref_types, fuel := fuel,
    is_live_after := fun _ _ => true,
    has_side_effects := fun e => e.op == IR_OP_CALL || e.op == IR_OP_VA_ARG }

/-! ## Theorems -/

theorem in_window_erase_adjust (i j : Int) (b : Block) :
    in_window (erase_adjust i b) j = in_window b (if j < i then j else j + 1) := by
  unfold erase_adjust in_window
  rw [Bool.eq_iff_iff]
  simp only [Bool.and_eq_true, decide_eq_true_eq]
  split_ifs <;> (try dsimp only) <;> omega

theorem covering_erase_adjust (i j : Int) (nodes : List Block) :
    covering (nodes.map (erase_adjust i)) j
      = covering nodes (if j < i then j else j + 1) := by
  unfold covering
  rw [List.countP_map]
  congr 1
  funext b
  exact in_window_erase_adjust i j b

theorem statement_array_erase_ok (d : Definition) (i : Int)
    (h0 : 0 ≤ i) (hlt : i < d.statements.length) :
    statement_array_erase d i
      = .ok { statements := d.statements.eraseIdx i.toNat,
              nodes := d.nodes.map (erase_adjust i) } := by
  unfold statement_array_erase
  rw [if_neg (by omega), if_neg (by omega)]

/-- C1: `statement_array_erase` preserves the block partition. If every index
of `[0, n)` lies in the window of exactly one block of `def.nodes` and
`0 <= i < n`, then the erase returns, the array has `n - 1` statements, every
index of `[0, n - 1)` lies in the window of exactly one block, and no block head
that was non-negative becomes negative. -/
theorem statement_array_erase_preserves_partition (d : Definition) (i : Int)
    (hpart : block_partition d.nodes d.statements.length)
    (h0 : 0 ≤ i) (hlt : i < d.statements.length) :
    ∃ d', statement_array_erase d i = .ok d'
      ∧ (d'.statements.length : Int) = d.statements.length - 1
      ∧ block_partition d'.nodes (d.statements.length - 1)
      ∧ d'.nodes.length = d.nodes.length
      ∧ ∀ (k : Nat) (b b' : Block), d.nodes[k]? = some b → d'.nodes[k]? = some b' →
          0 ≤ b.head → 0 ≤ b'.head := by
  refine ⟨_, statement_array_erase_ok d i h0 hlt, ?_, ?_, ?_, ?_⟩
  · have hi : i.toNat < d.statements.length := by omega
    simp only [List.length_eraseIdx, hi, if_true]
    omega
  · intro j hj0 hj1
    simp only [covering_erase_adjust]
    apply hpart
    · split_ifs <;> omega
    · split_ifs <;> omega
  · simp
  · intro k b b' hb hb' hh
    simp only [List.getElem?_map, hb, Option.map_some', Option.some.injEq] at hb'
    subst hb'
    unfold erase_adjust
    split_ifs <;> (try dsimp only) <;> omega

/-- Witness for C1: erasing statement 1 of the two-block sample. -/
theorem statement_array_erase_preserves_partition_witness :
    ∃ d', statement_array_erase sample_def 1 = .ok d'
      ∧ (d'.statements.length : Int) = sample_def.statements.length - 1
      ∧ block_partition d'.nodes (sample_def.statements.length - 1)
      ∧ d'.nodes.length = sample_def.nodes.length
      ∧ ∀ (k : Nat) (b b' : Block), sample_def.nodes[k]? = some b → d'.nodes[k]? = some b' →
          0 ≤ b.head → 0 ≤ b'.head :=
  statement_array_erase_preserves_partition sample_def 1
    (by
      intro j hj0 hj1
      have hj1' : j < 4 := hj1
      interval_cases j <;> decide)
    (by decide) (by decide)

/-! ### List positions -/

theorem getElem?_mid {α : Type} (p : List α) (a : α) (q : List α) :
    (p ++ a :: q)[p.length]? = some a := by
  rw [List.getElem?_append_right (le_refl _)]
  simp

theorem eraseIdx_mid {α : Type} (p : List α) (a : α) (q : List α) :
    (p ++ a :: q).eraseIdx p.length = p ++ q := by
  induction p with
  | nil => rfl
  | cons x p ih => simp [ih]

theorem set_mid {α : Type} (p : List α) (a a' : α) (q : List α) :
    (p ++ a :: q).set p.length a' = p ++ a' :: q := by
  induction p with
  | nil => rfl
  | cons x p ih => simp [ih]

theorem array_get_mid {α : Type} (p : List α) (a : α) (q : List α) (i : Int)
    (h : i = p.length) : array_get (p ++ a :: q) i = .ok a := by
  subst h
  unfold array_get
  rw [if_neg (by omega)]
  simp only [Int.toNat_ofNat, getElem?_mid]

theorem array_set_mid {α : Type} (p : List α) (a a' : α) (q : List α) (i : Int)
    (h : i = p.length) : array_set (p ++ a :: q) i a' = .ok (p ++ a' :: q) := by
  subst h
  unfold array_set
  rw [if_neg (by omega), if_pos (by simp)]
  simp [set_mid]

theorem statement_array_erase_mid (d : Definition) (p : List Statement) (a : Statement)
    (q : List Statement) (i : Int) (hs : d.statements = p ++ a :: q) (h : i = p.length) :
    statement_array_erase d i
      = .ok { statements := p ++ q, nodes := d.nodes.map (erase_adjust i) } := by
  rw [statement_array_erase_ok d i (by omega) (by rw [hs]; simp; omega)]
  subst h
  simp [hs, eraseIdx_mid]

theorem erase_adjust_inside (i : Int) (b : Block) (h1 : b.head ≤ i)
    (h2 : i < b.head + b.count) :
    erase_adjust i b = { b with count := b.count - 1 } := by
  unfold erase_adjust
  rw [if_neg (by omega), if_pos ⟨h1, h2⟩]

/-! ### Dead-store elimination -/

theorem dead_store_loop_spec (env : Env) (bi : Nat) :
    ∀ (rest : List Statement) (fuel : Nat) (d : Definition) (b : Block)
      (pre done post : List Statement) (c : Int),
      d.nodes[bi]? = some b →
      d.statements = pre ++ done ++ rest ++ post →
      b.head = pre.length → b.count = done.length + rest.length →
      rest.length < fuel →
      ∃ d', dead_store_loop env bi fuel d done.length c
            = .ok (d', c + (rest.filter (is_dead_store env)).length)
        ∧ d'.statements = pre ++ done ++ rest.filterMap (dead_store_result env) ++ post
        ∧ d'.nodes[bi]? = some { b with
            count := done.length + (rest.filterMap (dead_store_result env)).length } := by
  intro rest
  induction rest with
  | nil =>
    intro fuel d b pre done post c hb hs hh hc hf
    obtain ⟨f, rfl⟩ : ∃ f, fuel = f + 1 := ⟨fuel - 1, by simp at hf; omega⟩
    refine ⟨d, ?_, by simpa using hs, ?_⟩
    · unfold dead_store_loop
      simp only [get_block, hb, bind, Except.bind]
      rw [if_neg (by simp at hc; omega)]
      simp
    · rw [hb]
      cases b
      simp at hc ⊢
      omega
  | cons st rest ih =>
    intro fuel d b pre done post c hb hs hh hc hf
    obtain ⟨f, rfl⟩ : ∃ f, fuel = f + 1 := ⟨fuel - 1, by simp at hf; omega⟩
    have hf' : rest.length < f := by simp at hf; omega
    have hs' : d.statements = (pre ++ done) ++ st :: (rest ++ post) := by
      rw [hs]; simp
    have hidx : b.head + (done.length : Int) = ((pre ++ done).length : Int) := by
      rw [hh]; simp
    have hget : array_get d.statements (b.head + done.length) = .ok st := by
      rw [hs']; exact array_get_mid _ _ _ _ hidx
    simp only [List.length_cons, Nat.cast_add, Nat.cast_one] at hc
    unfold dead_store_loop
    simp only [get_block, hb, bind, Except.bind]
    rw [if_pos (by omega)]
    simp only [hget]
    by_cases hdead : is_dead_store env st = true
    · simp only [hdead, if_true]
      by_cases hse : env.has_side_effects st.expr = true
      · simp only [hse, if_true]
        have hset : array_set d.statements (b.head + done.length) { st with st := IR_EXPR }
            = .ok ((pre ++ done) ++ { st with st := IR_EXPR } :: (rest ++ post)) := by
          rw [hs']; exact array_set_mid _ _ _ _ _ hidx
        simp only [hset]
        obtain ⟨d', h1, h2, h3⟩ := ih f
          { d with statements := (pre ++ done) ++ { st with st := IR_EXPR } :: (rest ++ post) }
          b pre (done ++ [{ st with st := IR_EXPR }]) post (c + 1) hb (by simp) hh
          (by simp; omega) hf'
        refine ⟨d', ?_, ?_, ?_⟩
        · simp only [List.length_append, List.length_singleton, Nat.cast_add,
            Nat.cast_one] at h1
          rw [h1]
          simp [List.filter_cons, hdead]
          omega
        · rw [h2]
          simp [List.filterMap_cons, dead_store_result, hdead, hse]
        · rw [h3]
          simp [List.filterMap_cons, dead_store_result, hdead, hse]
          omega
      · simp only [hse, if_false]
        have hers := statement_array_erase_mid d (pre ++ done) st (rest ++ post)
          (b.head + done.length) hs' hidx
        simp only [hers]
        have hb1 : (d.nodes.map (erase_adjust (b.head + done.length)))[bi]?
            = some { b with count := b.count - 1 } := by
          rw [List.getElem?_map, hb]
          simp only [Option.map_some', Option.some.injEq]
          exact erase_adjust_inside _ _ (by omega) (by omega)
        obtain ⟨d', h1, h2, h3⟩ := ih f
          { statements := (pre ++ done) ++ (rest ++ post),
            nodes := d.nodes.map (erase_adjust (b.head + done.length)) }
          { b with count := b.count - 1 } pre done post (c + 1) hb1 (by simp) hh
          (by simp; omega) hf'
        refine ⟨d', ?_, ?_, ?_⟩
        · have e : (done.length : Int) - 1 + 1 = done.length := by omega
          rw [e, h1]
          simp [List.filter_cons, hdead]
          omega
        · rw [h2]
          simp [List.filterMap_cons, dead_store_result, hdead, hse]
        · rw [h3]
          simp [List.filterMap_cons, dead_store_result, hdead, hse]
    · simp only [hdead, if_false]
      obtain ⟨d', h1, h2, h3⟩ := ih f d b pre (done ++ [st]) post c hb
        (by rw [hs]; simp) hh (by simp; omega) hf'
      refine ⟨d', ?_, ?_, ?_⟩
      · simp only [List.length_append, List.length_singleton, Nat.cast_add,
          Nat.cast_one] at h1
        rw [h1]
        simp [List.filter_cons, hdead]
      · rw [h2]
        simp [List.filterMap_cons, dead_store_result, hdead]
      · rw [h3]
        simp [List.filterMap_cons, dead_store_result, hdead]
        omega

theorem block_code_split (d : Definition) (b : Block) (hw : window_inside d b) :
    d.statements = d.statements.take b.head.toNat ++ [] ++ block_code d b
        ++ d.statements.drop (b.head + b.count).toNat
      ∧ (b.head : Int) = (d.statements.take b.head.toNat).length
      ∧ (b.count : Int) = (([] : List Statement).length : Int) + (block_code d b).length := by
  obtain ⟨h0, hc, hin⟩ := hw
  have e : (b.head + b.count).toNat = b.head.toNat + b.count.toNat := by omega
  refine ⟨?_, ?_, ?_⟩
  · unfold block_code
    rw [e, List.append_nil, List.append_assoc, ← List.drop_drop, List.take_append_drop,
      List.take_append_drop]
  · rw [List.length_take]; omega
  · unfold block_code
    rw [List.length_take, List.length_drop]
    simp only [List.length_nil, Nat.cast_zero, zero_add]
    omega

theorem block_code_of_split (d : Definition) (b : Block) (pre mid post : List Statement)
    (hs : d.statements = pre ++ [] ++ mid ++ post) (hh : b.head = pre.length)
    (hc : b.count = mid.length) : block_code d b = mid := by
  unfold block_code
  rw [hs, hh, hc]
  simp

theorem filter_dead_split (env : Env) (l : List Statement) :
    ((l.filter (is_dead_store env)).length : Int)
      = (l.filter (fun st => is_dead_store env st && !env.has_side_effects st.expr)).length
        + (l.filter (fun st => is_dead_store env st && env.has_side_effects st.expr)).length := by
  induction l with
  | nil => rfl
  | cons st l ih =>
    simp only [List.filter_cons]
    cases h1 : is_dead_store env st <;> cases h2 : env.has_side_effects st.expr <;>
      simp [ih] <;> omega

/-- The run of `dead_store_elimination` on a block whose window lies inside
the statement array. -/
theorem dead_store_elimination_run (env : Env) (d : Definition) (bi : Nat) (b : Block)
    (hb : d.nodes[bi]? = some b) (hw : window_inside d b)
    (fuel : Nat) (hf : b.count < fuel) :
    ∃ d' b', dead_store_elimination env fuel d bi
          = .ok (d', ((block_code d b).filter (is_dead_store env)).length)
      ∧ d'.nodes[bi]? = some b' ∧ b'.head = b.head ∧ b'.label = b.label
      ∧ b'.count = ((block_code d b).filterMap (dead_store_result env)).length
      ∧ block_code d' b' = (block_code d b).filterMap (dead_store_result env)
      ∧ d'.statements = d.statements.take b.head.toNat
          ++ (block_code d b).filterMap (dead_store_result env)
          ++ d.statements.drop (b.head + b.count).toNat := by
  obtain ⟨hs, hh, hc⟩ := block_code_split d b hw
  have hlen : (block_code d b).length < fuel := by
    simp only [List.length_nil, Nat.cast_zero, zero_add] at hc
    omega
  obtain ⟨d', h1, h2, h3⟩ := dead_store_loop_spec env bi (block_code d b) fuel d b
    (d.statements.take b.head.toNat) [] (d.statements.drop (b.head + b.count).toNat) 0
    hb hs hh hc hlen
  refine ⟨d', _, ?_, h3, rfl, rfl, ?_, ?_, ?_⟩
  · unfold dead_store_elimination
    simp only [List.length_nil, Nat.cast_zero, zero_add] at h1
    exact h1
  · simp
  · exact block_code_of_split d' _ _ _ _ h2 hh (by simp)
  · rw [h2]; simp

/-- C2: `dead_store_elimination(def, b)` on a block of `def.nodes` whose window
lies inside the statement array. The pass returns; the window of `b` afterwards
holds, in order, the result of each statement of the old window: a dead store
(ASSIGN, DIRECT target, `LINK_NONE`, not live after) is erased when its
expression has no side effects and otherwise kept with its kind changed to
`IR_EXPR` and its expression unchanged, every other statement is kept unchanged;
the statements outside the window are unchanged; the return value is the number
erased plus the number converted. -/
theorem dead_store_elimination_spec (env : Env) (d : Definition) (bi : Nat) (b : Block)
    (hb : d.nodes[bi]? = some b) (hw : window_inside d b)
    (fuel : Nat) (hf : b.count < fuel) :
    ∃ d' b', dead_store_elimination env fuel d bi
          = .ok (d',
              ((block_code d b).filter
                  (fun st => is_dead_store env st && !env.has_side_effects st.expr)).length
              + ((block_code d b).filter
                  (fun st => is_dead_store env st && env.has_side_effects st.expr)).length)
      ∧ d'.nodes[bi]? = some b' ∧ b'.head = b.head
      ∧ block_code d' b' = (block_code d b).filterMap (fun st =>
          if is_dead_store env st then
            if env.has_side_effects st.expr then
              some { st := IR_EXPR, t := st.t, expr := st.expr }
            else none
          else some st)
      ∧ d'.statements.take b.head.toNat = d.statements.take b.head.toNat
      ∧ d'.statements.drop (b'.head + b'.count).toNat
          = d.statements.drop (b.head + b.count).toNat := by
  obtain ⟨d', b', h1, h2, h3, _, h5, h6, h7⟩ :=
    dead_store_elimination_run env d bi b hb hw fuel hf
  have hpre : (d.statements.take b.head.toNat).length = b.head.toNat := by
    rw [List.length_take]; obtain ⟨_, _, _⟩ := hw; omega
  refine ⟨d', b', ?_, h2, h3, h6, ?_, ?_⟩
  · rw [h1, filter_dead_split]
  · rw [h7, List.append_assoc, List.take_left' hpre]
  · have e : (b'.head + b'.count).toNat
        = (d.statements.take b.head.toNat
            ++ (block_code d b).filterMap (dead_store_result env)).length := by
      rw [List.length_append, hpre, h3, h5]; obtain ⟨_, _, _⟩ := hw; omega
    rw [h7, e, List.drop_left]

/-- Witness for C2: the first block of the sample, whose first statement
`t = a + b` is a dead store without side effects. -/
theorem dead_store_elimination_spec_witness :
    ∃ d' b', dead_store_elimination sample_env 3 sample_def 0
          = .ok (d',
              ((block_code sample_def ⟨0, 0, 2⟩).filter
                  (fun st => is_dead_store sample_env st
                    && !sample_env.has_side_effects st.expr)).length
              + ((block_code sample_def ⟨0, 0, 2⟩).filter
                  (fun st => is_dead_store sample_env st
                    && sample_env.has_side_effects st.expr)).length)
      ∧ d'.nodes[0]? = some b' ∧ b'.head = (0 : Int)
      ∧ block_code d' b' = (block_code sample_def ⟨0, 0, 2⟩).filterMap (fun st =>
          if is_dead_store sample_env st then
            if sample_env.has_side_effects st.expr then
              some { st := IR_EXPR, t := st.t, expr := st.expr }
            else none
          else some st)
      ∧ d'.statements.take 0 = sample_def.statements.take 0
      ∧ d'.statements.drop (b'.head + b'.count).toNat
          = sample_def.statements.drop 2 :=
  dead_store_elimination_spec sample_env sample_def 0 ⟨0, 0, 2⟩ rfl
    ⟨by decide, by decide, by decide⟩ 3 (by decide)

/-- C5: postcondition of dead-store elimination. After the pass no statement in
the window of `b` is a dead store (an ASSIGN with DIRECT target of linkage
`LINK_NONE` that is not live after the statement); each dead store of the old
window is gone from the window when its expression has no side effects, and is
present there as an `IR_EXPR` statement when it has. -/
theorem dead_store_elimination_post (env : Env) (d : Definition) (bi : Nat) (b : Block)
    (hb : d.nodes[bi]? = some b) (hw : window_inside d b)
    (fuel : Nat) (hf : b.count < fuel) :
    ∃ d' b' c, dead_store_elimination env fuel d bi = .ok (d', c)
      ∧ d'.nodes[bi]? = some b'
      ∧ (∀ st ∈ block_code d' b', is_dead_store env st = false)
      ∧ (∀ st ∈ block_code d b, is_dead_store env st = true →
          if env.has_side_effects st.expr then
            { st := IR_EXPR, t := st.t, expr := st.expr } ∈ block_code d' b'
          else st ∉ block_code d' b') := by
  obtain ⟨d', b', h1, h2, _, _, _, h6, _⟩ :=
    dead_store_elimination_run env d bi b hb hw fuel hf
  have hmem : ∀ st, st ∈ block_code d' b' → is_dead_store env st = false := by
    intro st hst
    rw [h6, List.mem_filterMap] at hst
    obtain ⟨s, _, hs⟩ := hst
    unfold dead_store_result at hs
    split_ifs at hs with hd hse
    · simp only [Option.some.injEq] at hs
      subst hs
      simp [is_dead_store]
    · simp only [Option.some.injEq] at hs
      subst hs
      simpa using hd
  refine ⟨d', b', _, h1, h2, hmem, ?_⟩
  intro st hst hd
  split_ifs with hse
  · rw [h6, List.mem_filterMap]
    exact ⟨st, hst, by simp [dead_store_result, hd, hse]⟩
  · intro hin
    have := hmem st hin
    rw [hd] at this
    exact Bool.noConfusion this

/-- Witness for C5: the second block of the sample, whose first statement
`t = f()` is a dead store with side effects. -/
theorem dead_store_elimination_post_witness :
    ∃ d' b' c, dead_store_elimination sample_env 3 sample_def 1 = .ok (d', c)
      ∧ d'.nodes[1]? = some b'
      ∧ (∀ st ∈ block_code d' b', is_dead_store sample_env st = false)
      ∧ (∀ st ∈ block_code sample_def ⟨1, 2, 2⟩, is_dead_store sample_env st = true →
          if sample_env.has_side_effects st.expr then
            { st := IR_EXPR, t := st.t, expr := st.expr } ∈ block_code d' b'
          else st ∉ block_code d' b') :=
  dead_store_elimination_post sample_env sample_def 1 ⟨1, 2, 2⟩ rfl
    ⟨by decide, by decide, by decide⟩ 3 (by decide)

/-! ### Merging chained assignments -/

theorem can_merge_of_chain_link (env : Env) (s1 s2 : Statement)
    (h : chain_link env s1 s2) : can_merge env s1 s2 = .ok true := by
  obtain ⟨h1, h2, h3, h4, h5, h6, h7, h8, h9⟩ := h
  simp [can_merge, and_then, h1, h2, h3, h4, h5, h6, h7, h8, h9]

theorem chain_link_congr (env : Env) (s1 s1' s2 : Statement) (hst : s1'.st = s1.st)
    (ht : s1'.t = s1.t) (h : chain_link env s1 s2) : chain_link env s1' s2 := by
  unfold chain_link at h ⊢
  rw [hst, ht]
  exact h

theorem chain_congr (env : Env) (s1 s1' : Statement) (rest : List Statement)
    (hst : s1'.st = s1.st) (ht : s1'.t = s1.t)
    (h : List.Chain (chain_link env) s1 rest) : List.Chain (chain_link env) s1' rest := by
  cases h with
  | nil => exact List.Chain.nil
  | cons hl hr => exact List.Chain.cons (chain_link_congr env _ _ _ hst ht hl) hr

theorem merge_loop_chain (env : Env) (bi : Nat) :
    ∀ (rest : List Statement) (fuel : Nat) (d : Definition) (b : Block)
      (pre post : List Statement) (c : Int) (s1 : Statement),
      d.nodes[bi]? = some b →
      d.statements = pre ++ s1 :: (rest ++ post) →
      b.head = pre.length → b.count = 1 + rest.length →
      rest.length < fuel →
      List.Chain (chain_link env) s1 rest →
      ∃ d', merge_loop env bi fuel d 1 c s1 = .ok (d', c + rest.length)
        ∧ d'.statements = pre ++ { s1 with t := (rest.getLastD s1).t } :: post
        ∧ d'.nodes[bi]? = some { b with count := 1 } := by
  intro rest
  induction rest with
  | nil =>
    intro fuel d b pre post c s1 hb hs hh hc hf _
    obtain ⟨f, rfl⟩ : ∃ f, fuel = f + 1 := ⟨fuel - 1, by simp at hf; omega⟩
    refine ⟨d, ?_, by simpa using hs, ?_⟩
    · unfold merge_loop
      simp only [get_block, hb, bind, Except.bind]
      rw [if_neg (by simp at hc; omega)]
      simp
    · rw [hb]
      cases b
      simp at hc ⊢
      omega
  | cons s2 rest ih =>
    intro fuel d b pre post c s1 hb hs hh hc hf hch
    obtain ⟨f, rfl⟩ : ∃ f, fuel = f + 1 := ⟨fuel - 1, by simp at hf; omega⟩
    have hf' : rest.length < f := by simp at hf; omega
    cases hch with
    | cons hlink hrest =>
    simp only [List.length_cons, Nat.cast_add, Nat.cast_one] at hc
    have hs2 : d.statements = (pre ++ [s1]) ++ s2 :: (rest ++ post) := by
      rw [hs]; simp
    have hget : array_get d.statements (b.head + 1) = .ok s2 := by
      rw [hs2]; exact array_get_mid _ _ _ _ (by rw [hh]; simp)
    have hset : array_set d.statements (b.head + 1 - 1) { s1 with t := s2.t }
        = .ok (pre ++ { s1 with t := s2.t } :: (s2 :: rest ++ post)) := by
      rw [hs]; exact array_set_mid _ _ _ _ _ (by rw [hh]; omega)
    have hers := statement_array_erase_mid
      { d with statements := pre ++ { s1 with t := s2.t } :: (s2 :: rest ++ post) }
      (pre ++ [{ s1 with t := s2.t }]) s2 (rest ++ post) (b.head + 1) (by simp)
      (by rw [hh]; simp)
    have hb1 : (d.nodes.map (erase_adjust (b.head + 1)))[bi]?
        = some { b with count := b.count - 1 } := by
      rw [List.getElem?_map, hb]
      simp only [Option.map_some', Option.some.injEq]
      exact erase_adjust_inside _ _ (by omega) (by omega)
    have hget1 : array_get ((pre ++ [{ s1 with t := s2.t }]) ++ (rest ++ post))
        (b.head + 1 - 1) = .ok { s1 with t := s2.t } := by
      have e : (pre ++ [{ s1 with t := s2.t }]) ++ (rest ++ post)
          = pre ++ { s1 with t := s2.t } :: (rest ++ post) := by simp
      rw [e]; exact array_get_mid _ _ _ _ (by rw [hh]; omega)
    obtain ⟨d', h1, h2, h3⟩ := ih f
      { statements := (pre ++ [{ s1 with t := s2.t }]) ++ (rest ++ post),
        nodes := d.nodes.map (erase_adjust (b.head + 1)) }
      { b with count := b.count - 1 } pre post (c + 1) { s1 with t := s2.t } hb1
      (by simp) hh (by simp; omega) hf'
      (chain_congr env s2 _ rest (hlink.1.trans hlink.2.1.symm) rfl hrest)
    refine ⟨d', ?_, ?_, ?_⟩
    · unfold merge_loop
      simp only [get_block, hb, bind, Except.bind]
      rw [if_pos (by omega)]
      simp only [hget, can_merge_of_chain_link env s1 s2 hlink, if_true, hset, hers, hb1,
        hget1]
      rw [h1]
      simp only [List.length_cons, Nat.cast_add, Nat.cast_one]
      congr 2
      omega
    · rw [h2]
      cases rest <;> simp [List.getLastD]
    · rw [h3]

/-- C3: `merge_chained_assignment` fuses a whole chain. For every `k >= 1` and
every block of `def.nodes` consisting of exactly the `k + 1` statements
`s0 : t0 <- e`, `s1 : t1 <- t0`, ..., `sk : tk <- t(k-1)` in which every
consecutive pair satisfies the merge conditions, the pass returns `k` and the
block then consists of the single statement `tk <- e`. -/
theorem merge_chained_assignment_chain (env : Env) (d : Definition) (bi : Nat) (b : Block)
    (s0 : Statement) (rest : List Statement) (k : Nat)
    (hk : 1 ≤ k) (hlen : rest.length = k)
    (hb : d.nodes[bi]? = some b) (hw : window_inside d b)
    (hcode : block_code d b = s0 :: rest)
    (hchain : List.Chain (chain_link env) s0 rest)
    (fuel : Nat) (hf : k < fuel) :
    ∃ d' b', merge_chained_assignment env fuel d bi = .ok (d', (k : Int))
      ∧ d'.nodes[bi]? = some b'
      ∧ block_code d' b'
          = [{ st := IR_ASSIGN, t := (rest.getLastD s0).t, expr := s0.expr }] := by
  obtain ⟨hs, hh, hc⟩ := block_code_split d b hw
  rw [hcode] at hs hc
  simp only [List.append_nil, List.length_nil, Nat.cast_zero, zero_add, List.length_cons,
    Nat.cast_add, Nat.cast_one] at hs hc
  have hs' : d.statements = d.statements.take b.head.toNat
      ++ s0 :: (rest ++ d.statements.drop (b.head + b.count).toNat) := by
    conv_lhs => rw [hs]
    simp
  have hst : s0.st = IR_ASSIGN := by
    cases hchain with
    | nil => simp at hlen; omega
    | cons hl _ => exact hl.1
  obtain ⟨d', h1, h2, h3⟩ := merge_loop_chain env bi rest fuel d b _ _ 0 s0 hb hs' hh
    (by omega) (by omega) hchain
  refine ⟨d', _, ?_, h3, ?_⟩
  · unfold merge_chained_assignment
    simp only [get_block, hb, bind, Except.bind]
    rw [if_neg (by omega)]
    have hget : array_get d.statements b.head = .ok s0 := by
      conv_lhs => rw [hs']
      exact array_get_mid _ _ _ _ hh
    simp only [hget, h1, hlen, zero_add]
  · rw [← hst]
    exact block_code_of_split d' _ _ [_] (d.statements.drop (b.head + b.count).toNat)
      (by rw [h2]; simp) hh (by simp)

/-- Witness for C3: the case `k = 1`, the block `[t = a + b; x = t]` of the
sample becoming `[x = a + b]`. -/
theorem merge_chained_assignment_chain_witness :
    ∃ d' b', merge_chained_assignment sample_env 2 sample_def 0 = .ok (d', ((1 : Nat) : Int))
      ∧ d'.nodes[0]? = some b'
      ∧ block_code d' b' = [st_add sym_x sym_a sym_b] :=
  merge_chained_assignment_chain sample_env sample_def 0 ⟨0, 0, 2⟩
    (st_add sym_t sym_a sym_b) [st_copy sym_x sym_t] 1 (by decide) rfl rfl
    ⟨by decide, by decide, by decide⟩ rfl
    (List.Chain.cons
      ⟨rfl, rfl, rfl, rfl, rfl, rfl, rfl, rfl, rfl⟩ List.Chain.nil)
    2 (by decide)

/-- C4 fails on the code: on the block `[p = q + 8; *p = p]`, whose second
target is addressed through the first target `p`, `merge_chained_assignment`
performs one merge and leaves `[*p = q + 8]`. Executed from a store in which `q`
holds 100 and `p` holds 500, the block before the pass stores 108 at address 108,
the block after the pass stores it at address 500 and leaves address 108 at 0. -/
theorem merge_chained_assignment_deref_target :
    merge_chained_assignment deref_env 2 deref_def 0
        = .ok ({ statements := [{ st_p_gets_q_plus with t := st_store_through_p.t }],
                 nodes := [⟨0, 0, 1⟩] }, 1)
      ∧ exec_block deref_store deref_def.statements 108 = 108
      ∧ exec_block deref_store [{ st_p_gets_q_plus with t := st_store_through_p.t }] 108 = 0
      ∧ exec_block deref_store [{ st_p_gets_q_plus with t := st_store_through_p.t }] 500
          = 108 := by
  refine ⟨rfl, ?_, ?_, ?_⟩ <;> decide

/-! ### Type equality -/

theorem typetree_members_equal_iff (eq : CType → CType → Except Err Bool) (f : Bool) :
    ∀ (as bs : List member), as.length = bs.length →
      (typetree_members_equal eq f as bs = .ok true
        ↔ List.Forall₂ (member_equal eq f) as bs) := by
  intro as
  induction as with
  | nil =>
    intro bs hl
    cases bs with
    | nil => simp [typetree_members_equal]
    | cons mb bs => simp at hl
  | cons ma as ih =>
    intro bs hl
    cases bs with
    | nil => simp at hl
    | cons mb bs =>
      have hl' : as.length = bs.length := by simpa using hl
      rw [List.forall₂_cons, ← ih bs hl', typetree_members_equal]
      unfold member_equal
      cases he : eq ma.type mb.type with
      | error e => simp
      | ok v =>
        cases v with
        | false => simp
        | true =>
          dsimp only
          by_cases h1 : f = true
          · rw [if_pos h1]; simp [h1]
          · rw [if_neg h1]
            have hf : f = false := by simpa using h1
            by_cases h2 : ma.offset ≠ mb.offset
            · rw [if_pos h2]
              simp only [true_and, hf, forall_const]
              constructor
              · intro h; cases h
              · intro h; exact absurd h.1.1 h2
            · rw [if_neg h2]
              by_cases h3 : ma.name ≠ mb.name
              · rw [if_pos h3]
                simp only [true_and, hf, forall_const]
                constructor
                · intro h; cases h
                · intro h; exact absurd h.1.2 h3
              · rw [if_neg h3]
                simp only [ne_eq, not_not] at h2 h3
                simp [hf, h2, h3]

theorem typetree_equal_iff (eq : CType → CType → Except Err Bool) (a b : typetree) :
    typetree_equal eq a b = .ok true
      ↔ a.type = b.type ∧ a.size = b.size ∧ a.is_unsigned = b.is_unsigned
        ∧ a.is_vararg = b.is_vararg ∧ a.members.length = b.members.length
        ∧ List.Forall₂ (member_equal eq (a.type == T_FUNCTION)) a.members b.members := by
  unfold typetree_equal
  by_cases h1 : a.type ≠ b.type ∨ a.size ≠ b.size ∨ a.is_unsigned ≠ b.is_unsigned
      ∨ a.is_vararg ≠ b.is_vararg
  · rw [if_pos h1]
    constructor
    · intro h; cases h
    · rintro ⟨e1, e2, e3, e4, _⟩
      rcases h1 with h | h | h | h
      · exact absurd e1 h
      · exact absurd e2 h
      · exact absurd e3 h
      · exact absurd e4 h
  · rw [if_neg h1]
    simp only [not_or, ne_eq, not_not] at h1
    obtain ⟨e1, e2, e3, e4⟩ := h1
    by_cases h2 : a.members.length ≠ b.members.length
    · rw [if_pos h2]
      constructor
      · intro h; cases h
      · intro h; exact absurd h.2.2.2.2.1 h2
    · rw [if_neg h2]
      simp only [ne_eq, not_not] at h2
      rw [typetree_members_equal_iff eq _ _ _ h2]
      simp [e1, e2, e3, e4, h2]

theorem type_equal_iff (types : Types) (n : Nat) (a b : CType) :
    type_equal types (n + 1) a b = .ok true
      ↔ a = b ∨ (a.type = b.type ∧ a.is_unsigned = b.is_unsigned
          ∧ ((a.ref = 0 ∧ b.ref = 0)
            ∨ (a.ref ≠ 0 ∧ b.ref ≠ 0 ∧ entries_equal types (type_equal types n) a b))) := by
  unfold type_equal entries_equal
  by_cases h1 : a = b
  · rw [if_pos h1]; simp [h1]
  · rw [if_neg h1]
    by_cases h2 : a.type ≠ b.type ∨ a.is_unsigned ≠ b.is_unsigned
    · rw [if_pos h2]
      constructor
      · intro h; cases h
      · rintro (h | ⟨e1, e2, _⟩)
        · exact absurd h h1
        · rcases h2 with h | h
          · exact absurd e1 h
          · exact absurd e2 h
    · rw [if_neg h2]
      simp only [not_or, ne_eq, not_not] at h2
      obtain ⟨e1, e2⟩ := h2
      by_cases ha : a.ref = 0 <;> by_cases hb : b.ref = 0
      · simp [ha, hb, h1, e1, e2]
      · simp [ha, hb, h1, e1, e2]
      · simp [ha, hb, h1, e1, e2]
      · simp only [ha, hb, decide_False, ne_eq, not_true_eq_false, if_false, not_false_eq_true,
          and_self, if_true, h1, e1, e2, true_and, false_and, false_or]
        cases hta : get_typetree_handle types a.ref <;>
          cases htb : get_typetree_handle types b.ref <;> simp

theorem member_equal_imp (eq eq' : CType → CType → Except Err Bool) (f : Bool)
    (h : ∀ x y, eq x y = .ok true → eq' x y = .ok true) (ma mb : member)
    (hm : member_equal eq f ma mb) : member_equal eq' f ma mb :=
  ⟨h _ _ hm.1, hm.2⟩

theorem entries_equal_imp (types : Types) (eq eq' : CType → CType → Except Err Bool)
    (h : ∀ x y, eq x y = .ok true → eq' x y = .ok true) (a b : CType)
    (he : entries_equal types eq a b) : entries_equal types eq' a b := by
  obtain ⟨ta, tb, h1, h2, h3⟩ := he
  refine ⟨ta, tb, h1, h2, ?_⟩
  rw [typetree_equal_iff] at h3 ⊢
  obtain ⟨e1, e2, e3, e4, e5, e6⟩ := h3
  exact ⟨e1, e2, e3, e4, e5, e6.imp (member_equal_imp eq eq' _ h)⟩

theorem type_equal_mono (types : Types) :
    ∀ (fuel : Nat) (a b : CType),
      type_equal types fuel a b = .ok true → type_equal types (fuel + 1) a b = .ok true := by
  intro fuel
  induction fuel with
  | zero => intro a b h; simp [type_equal] at h
  | succ n ih =>
    intro a b h
    rw [type_equal_iff] at h ⊢
    rcases h with h | ⟨e1, e2, h | ⟨h1, h2, h3⟩⟩
    · exact Or.inl h
    · exact Or.inr ⟨e1, e2, Or.inl h⟩
    · exact Or.inr ⟨e1, e2, Or.inr ⟨h1, h2, entries_equal_imp types _ _ ih a b h3⟩⟩

theorem type_equal_mono_le (types : Types) (fuel fuel' : Nat) (hle : fuel ≤ fuel')
    (a b : CType) (h : type_equal types fuel a b = .ok true) :
    type_equal types fuel' a b = .ok true := by
  induction hle with
  | refl => exact h
  | step _ ih => exact type_equal_mono types _ a b ih

theorem type_equal_self (types : Types) (fuel : Nat) (a : CType) :
    type_equal types (fuel + 1) a a = .ok true := by
  unfold type_equal
  rw [if_pos rfl]

theorem type_equal_symm (types : Types) :
    ∀ (fuel : Nat) (a b : CType),
      type_equal types fuel a b = .ok true → type_equal types fuel b a = .ok true := by
  intro fuel
  induction fuel with
  | zero => intro a b h; simp [type_equal] at h
  | succ n ih =>
    intro a b h
    rw [type_equal_iff] at h ⊢
    rcases h with h | ⟨e1, e2, h | ⟨h1, h2, ta, tb, g1, g2, h3⟩⟩
    · exact Or.inl h.symm
    · exact Or.inr ⟨e1.symm, e2.symm, Or.inl ⟨h.2, h.1⟩⟩
    · refine Or.inr ⟨e1.symm, e2.symm, Or.inr ⟨h2, h1, tb, ta, g2, g1, ?_⟩⟩
      rw [typetree_equal_iff] at h3 ⊢
      obtain ⟨t1, t2, t3, t4, t5, t6⟩ := h3
      refine ⟨t1.symm, t2.symm, t3.symm, t4.symm, t5.symm, ?_⟩
      rw [← t1]
      exact t6.flip.imp (fun mb ma hm =>
        ⟨ih _ _ hm.1, fun hf => ⟨(hm.2 hf).1.symm, (hm.2 hf).2.symm⟩⟩)

theorem forall₂_member_equal_trans (eq : CType → CType → Except Err Bool) (f : Bool)
    (h : ∀ x y z, eq x y = .ok true → eq y z = .ok true → eq x z = .ok true) :
    ∀ (as bs cs : List member), List.Forall₂ (member_equal eq f) as bs →
      List.Forall₂ (member_equal eq f) bs cs → List.Forall₂ (member_equal eq f) as cs := by
  intro as bs cs h1
  induction h1 generalizing cs with
  | nil => intro h2; cases h2; exact List.Forall₂.nil
  | cons hab _ ih =>
    intro h2
    cases h2 with
    | cons hbc hrest =>
      exact List.Forall₂.cons
        ⟨h _ _ _ hab.1 hbc.1, fun hf =>
          ⟨(hab.2 hf).1.trans (hbc.2 hf).1, (hab.2 hf).2.trans (hbc.2 hf).2⟩⟩
        (ih _ hrest)

theorem type_equal_trans (types : Types) :
    ∀ (fuel : Nat) (a b c : CType),
      type_equal types fuel a b = .ok true → type_equal types fuel b c = .ok true →
      type_equal types fuel a c = .ok true := by
  intro fuel
  induction fuel with
  | zero => intro a b c h; simp [type_equal] at h
  | succ n ih =>
    intro a b c hab hbc
    have hab' := hab
    have hbc' := hbc
    rw [type_equal_iff] at hab' hbc' ⊢
    rcases hab' with h | ⟨e1, e2, hr⟩
    · subst h; rw [← type_equal_iff]; exact hbc
    rcases hbc' with h | ⟨f1, f2, hs⟩
    · subst h; rw [← type_equal_iff]; exact hab
    refine Or.inr ⟨e1.trans f1, e2.trans f2, ?_⟩
    rcases hr with hr | ⟨a1, a2, ta, tb, g1, g2, h3⟩
    · rcases hs with hs | ⟨b1, _, _⟩
      · exact Or.inl ⟨hr.1, hs.2⟩
      · exact absurd hr.2 b1
    · rcases hs with hs | ⟨_, b2, tb', tc, g3, g4, h4⟩
      · exact absurd hs.1 a2
      · refine Or.inr ⟨a1, b2, ta, tc, g1, g4, ?_⟩
        rw [g2] at g3
        cases g3
        rw [typetree_equal_iff] at h3 h4 ⊢
        obtain ⟨t1, t2, t3, t4, t5, t6⟩ := h3
        obtain ⟨u1, u2, u3, u4, u5, u6⟩ := h4
        refine ⟨t1.trans u1, t2.trans u2, t3.trans u3, t4.trans u4, t5.trans u5, ?_⟩
        rw [← t1] at u6
        exact forall₂_member_equal_trans _ _ ih _ _ _ t6 u6

/-- C6: `type_equal` is an equivalence relation on type handles, over every
repository: `type_equal(T, T)` returns true for every handle `T`; if
`type_equal(a, b)` returns true then so does `type_equal(b, a)`; and if
`type_equal(a, b)` and `type_equal(b, c)` return true then so does
`type_equal(a, c)`. -/
theorem type_equal_equivalence (types : Types) :
    (∀ (T : CType) (fuel : Nat), type_equal types (fuel + 1) T T = .ok true)
      ∧ (∀ a b : CType, type_equal_holds types a b → type_equal_holds types b a)
      ∧ (∀ a b c : CType, type_equal_holds types a b → type_equal_holds types b c →
          type_equal_holds types a c) := by
  refine ⟨fun T fuel => type_equal_self types fuel T, ?_, ?_⟩
  · rintro a b ⟨n, h⟩
    exact ⟨n, type_equal_symm types n a b h⟩
  · rintro a b c ⟨n, h1⟩ ⟨m, h2⟩
    exact ⟨max n m, type_equal_trans types _ a b c
      (type_equal_mono_le types n _ (le_max_left n m) a b h1)
      (type_equal_mono_le types m _ (le_max_right n m) b c h2)⟩

/-- Witness for C6: two separate entries of the same shape, and two qualified
versions of `int`. -/
theorem type_equal_equivalence_witness :
    type_equal_holds pair_types (struct_handle 1) (struct_handle 2)
      ∧ type_equal_holds pair_types (struct_handle 2) (struct_handle 1)
      ∧ type_equal_holds pair_types (type_set_const basic_type__int)
          (type_set_volatile basic_type__int) :=
  ⟨⟨2, rfl⟩,
   (type_equal_equivalence pair_types).2.1 _ _ ⟨2, rfl⟩,
   (type_equal_equivalence pair_types).2.2 _ basic_type__int _ ⟨1, rfl⟩ ⟨1, rfl⟩⟩

/-! ### Pointer construction -/

theorem get_typetree_handle_alloc (types : Types) (t : typetree) :
    get_typetree_handle (types ++ [t]) (types.length + 1) = .ok t := by
  unfold get_typetree_handle
  rw [if_neg (by omega)]
  simp

theorem get_typetree_handle_set_alloc (types : Types) (t t' : typetree) :
    get_typetree_handle (set_typetree (types ++ [t]) (types.length + 1) t')
      (types.length + 1) = .ok t' := by
  unfold get_typetree_handle set_typetree
  rw [if_neg (by omega)]
  simp

/-- The round trip through `type_create(T_POINTER, T)` and `type_deref` for a
handle whose pointer-of bit is set: everything comes back except the restrict
bit of the pointer. -/
theorem type_deref_create_of_pointer (types : Types) (fuel : Nat) (T : CType)
    (h : T.is_pointer = true) :
    ∃ types' P, type_create types fuel T_POINTER (.pointer T) = .ok (types', P)
      ∧ type_deref types' P = .ok { T with is_pointer_restrict := false } := by
  refine ⟨set_typetree (types ++ [{ typetree.zero with type := T_POINTER }])
      (types.length + 1)
      { typetree.zero with
        type := T_POINTER, is_const := is_const T, is_volatile := is_volatile T,
        next := { remove_qualifiers T with is_pointer := false } },
    { CType.zero with type := T_POINTER, ref := types.length + 1 }, ?_, ?_⟩
  · unfold type_create
    simp only [h, if_true, alloc_type, get_typetree_handle_alloc]
  · unfold type_deref get_type_handle
    simp only [get_typetree_handle_set_alloc]
    cases T
    simp_all [is_pointer, type_of, CType.zero, remove_qualifiers, is_const, is_volatile,
      typetree.zero]

/-- The round trip for a handle whose pointer-of bit is clear: no entry is
allocated, and `type_deref` gives the handle back (with the unused pointer-level
bits cleared), also after qualifiers were set on the pointer. -/
theorem type_deref_create_of_non_pointer (types : Types) (fuel : Nat) (T : CType)
    (h : T.is_pointer = false) :
    type_create types fuel T_POINTER (.pointer T) = .ok (types, { T with is_pointer := true })
      ∧ type_deref types { T with is_pointer := true }
          = .ok { T with is_pointer_const := false, is_pointer_volatile := false,
                         is_pointer_restrict := false }
      ∧ type_deref types (type_set_const { T with is_pointer := true })
          = .ok { T with is_pointer_const := false, is_pointer_volatile := false,
                         is_pointer_restrict := false }
      ∧ type_deref types (type_set_volatile { T with is_pointer := true })
          = .ok { T with is_pointer_const := false, is_pointer_volatile := false,
                         is_pointer_restrict := false }
      ∧ is_const { T with is_pointer_const := false, is_pointer_volatile := false,
                          is_pointer_restrict := false } = is_const T
      ∧ is_volatile { T with is_pointer_const := false, is_pointer_volatile := false,
                             is_pointer_restrict := false } = is_volatile T
      ∧ is_restrict { T with is_pointer_const := false, is_pointer_volatile := false,
                             is_pointer_restrict := false } = is_restrict T := by
  cases T
  simp_all [type_create, type_deref, type_set_const, type_set_volatile, is_pointer, type_of,
    remove_qualifiers, is_const, is_volatile, is_restrict]

/-- C7 fails on the code: for `T = int * restrict` the call
`type_create(T_POINTER, T)` allocates an entry that records the const and
volatile bits of `T` but not its restrict bit, and `type_deref` of the result
is `int *` without restrict, although it is `type_equal` to `T`. -/
theorem type_deref_create_drops_restrict :
    ∃ types' P R, type_create [] 1 T_POINTER (.pointer restrict_int_ptr) = .ok (types', P)
      ∧ type_deref types' P = .ok R
      ∧ type_equal types' 1 R restrict_int_ptr = .ok true
      ∧ is_restrict restrict_int_ptr = true
      ∧ is_restrict R = false
      ∧ type_set_restrict { basic_type__int with is_pointer := true } = .ok restrict_int_ptr :=
  ⟨_, _, _, rfl, rfl, rfl, rfl, rfl, rfl⟩

/-! ### Alignment -/

theorem size_of_body_mono (self self' : CType → Except Err Nat) (types : Types)
    (h : ∀ σ v, self σ = .ok v → self' σ = .ok v) (σ : CType) (v : Nat)
    (hv : size_of_body self types σ = .ok v) : size_of_body self' types σ = .ok v := by
  unfold size_of_body at hv ⊢
  cases hk : type_of σ <;> simp only [hk] at hv ⊢ <;> try exact hv
  cases ht : get_typetree_handle types σ.ref with
  | error e => simp [ht] at hv
  | ok t =>
    simp only [ht] at hv ⊢
    cases hs : self t.next with
    | error e => simp [hs] at hv
    | ok w =>
      rw [h _ _ hs]
      simpa [hs] using hv

theorem size_of_mono (types : Types) :
    ∀ (n : Nat) (σ : CType) (v : Nat),
      size_of types n σ = .ok v → size_of types (n + 1) σ = .ok v := by
  intro n
  induction n with
  | zero =>
    intro σ v h
    exact size_of_body_mono _ _ types (fun _ _ h => by cases h) σ v h
  | succ n ih =>
    intro σ v h
    exact size_of_body_mono _ _ types ih σ v h

theorem members_alignment_mono (al al' : CType → Except Err Nat)
    (h : ∀ σ v, al σ = .ok v → al' σ = .ok v) :
    ∀ (ms : List member) (m v : Nat),
      members_alignment al ms m = .ok v → members_alignment al' ms m = .ok v := by
  intro ms
  induction ms with
  | nil => intro m v hv; simpa [members_alignment] using hv
  | cons mb ms ih =>
    intro m v hv
    unfold members_alignment at hv ⊢
    cases hd : al mb.type with
    | error e => simp [hd] at hv
    | ok d =>
      rw [h _ _ hd]
      simp only [hd] at hv
      exact ih _ _ hv

theorem type_alignment_body_mono (self self' size size' : CType → Except Err Nat)
    (types : Types) (h : ∀ σ v, self σ = .ok v → self' σ = .ok v)
    (hs : ∀ σ v, size σ = .ok v → size' σ = .ok v) (σ : CType) (v : Nat)
    (hv : type_alignment_body self size types σ = .ok v) :
    type_alignment_body self' size' types σ = .ok v := by
  unfold type_alignment_body at hv ⊢
  by_cases ho : is_object σ = true
  · simp only [ho, Bool.not_true, Bool.false_eq_true, if_false] at hv ⊢
    cases hk : type_of σ <;> simp only [hk] at hv ⊢ <;> try exact hs _ _ hv
    · cases hn : type_next types σ with
      | error e => simp [hn] at hv
      | ok next =>
        simp only [hn] at hv ⊢
        exact h _ _ hv
    · cases ht : get_typetree_handle types σ.ref with
      | error e => simp [ht] at hv
      | ok t =>
        simp only [ht] at hv ⊢
        cases hm : members_alignment self t.members 0 with
        | error e => simp [hm] at hv
        | ok m =>
          rw [members_alignment_mono _ _ h _ _ _ hm]
          simpa [hm] using hv
    · cases ht : get_typetree_handle types σ.ref with
      | error e => simp [ht] at hv
      | ok t =>
        simp only [ht] at hv ⊢
        cases hm : members_alignment self t.members 0 with
        | error e => simp [hm] at hv
        | ok m =>
          rw [members_alignment_mono _ _ h _ _ _ hm]
          simpa [hm] using hv
  · simp [ho] at hv

theorem type_alignment_mono (types : Types) :
    ∀ (n : Nat) (σ : CType) (v : Nat),
      type_alignment types n σ = .ok v → type_alignment types (n + 1) σ = .ok v := by
  intro n
  induction n with
  | zero =>
    intro σ v h
    exact type_alignment_body_mono _ _ _ _ types (fun _ _ h => by cases h)
      (size_of_mono types 0) σ v h
  | succ n ih =>
    intro σ v h
    exact type_alignment_body_mono _ _ _ _ types ih (size_of_mono types (n + 1)) σ v h

theorem type_alignment_mono_le (types : Types) (n n' : Nat) (hle : n ≤ n')
    (σ : CType) (v : Nat) (h : type_alignment types n σ = .ok v) :
    type_alignment types n' σ = .ok v := by
  induction hle with
  | refl => exact h
  | step _ ih => exact type_alignment_mono types _ σ v ih

theorem size_of_scalar (types1 types2 : Types) (n n' : Nat) (σ : CType)
    (h1 : type_of σ ≠ T_ARRAY) (h2 : type_of σ ≠ T_STRUCT) (h3 : type_of σ ≠ T_UNION) :
    size_of types1 n σ = size_of types2 n' σ := by
  cases n <;> cases n' <;> unfold size_of size_of_body <;>
    cases hk : type_of σ <;> simp_all

theorem members_alignment_ok_mem (al : CType → Except Err Nat) :
    ∀ (ms : List member) (v0 v : Nat), members_alignment al ms v0 = .ok v →
      ∀ m ∈ ms, ∃ d, al m.type = .ok d := by
  intro ms
  induction ms with
  | nil => intro v0 v _ m hm; cases hm
  | cons mb ms ih =>
    intro v0 v hv m hm
    unfold members_alignment at hv
    cases hd : al mb.type with
    | error e => simp [hd] at hv
    | ok d =>
      simp only [hd] at hv
      rcases List.mem_cons.mp hm with rfl | hm'
      · exact ⟨d, hd⟩
      · exact ih _ _ hv m hm'

theorem members_alignment_transfer (self1 self2 : CType → Except Err Nat) (X : Prop)
    (h : ∀ σ a, self1 σ = .ok a → self2 σ = .ok a ∨ X) :
    ∀ (ms : List member) (v0 v : Nat), members_alignment self1 ms v0 = .ok v →
      members_alignment self2 ms v0 = .ok v ∨ X := by
  intro ms
  induction ms with
  | nil => intro v0 v hv; left; simpa [members_alignment] using hv
  | cons mb ms ih =>
    intro v0 v hv
    unfold members_alignment at hv ⊢
    cases hd : self1 mb.type with
    | error e => simp [hd] at hv
    | ok d =>
      simp only [hd] at hv
      rcases h _ _ hd with h2 | hx
      · rw [h2]
        exact ih _ _ hv
      · exact Or.inr hx

theorem type_next_array_transfer (types1 types2 : Types) (ref : Nat)
    (hso : same_outside types1 types2 ref) (σ next : CType) (hk : type_of σ = T_ARRAY)
    (hn : type_next types1 σ = .ok next) : type_next types2 σ = .ok next := by
  unfold type_next at hn ⊢
  have e1 : is_pointer σ = false := by simp [is_pointer, hk]
  have e2 : is_array σ = true := by simp [is_array, hk]
  simp only [e1, e2, Bool.or_true, Bool.not_true, Bool.false_eq_true, if_false] at hn ⊢
  by_cases hr : σ.ref = ref
  · cases ht : get_typetree_handle types1 σ.ref with
    | error e => simp [ht] at hn
    | ok t =>
      simp only [ht, Except.ok.injEq] at hn
      obtain ⟨e2, he2, hnx⟩ := hso.2 t (hr ▸ ht)
      rw [hr, he2]
      simp only [Except.ok.injEq]
      rw [← hnx]; exact hn
  · rw [← hso.1 _ hr]; exact hn

theorem type_alignment_body_transfer (types1 types2 : Types) (ref : Nat)
    (self1 self2 size1 size2 : CType → Except Err Nat) (X : Prop)
    (hso : same_outside types1 types2 ref)
    (hself : ∀ σ a, self1 σ = .ok a → self2 σ = .ok a ∨ X)
    (hsize : ∀ σ, type_of σ ≠ T_ARRAY → type_of σ ≠ T_STRUCT → type_of σ ≠ T_UNION →
      size1 σ = size2 σ)
    (hvisit : ∀ e1 v, get_typetree_handle types1 ref = .ok e1 →
      members_alignment self1 e1.members 0 = .ok v → X)
    (σ : CType) (a : Nat) (hv : type_alignment_body self1 size1 types1 σ = .ok a) :
    type_alignment_body self2 size2 types2 σ = .ok a ∨ X := by
  unfold type_alignment_body at hv ⊢
  by_cases ho : is_object σ = true
  · simp only [ho, Bool.not_true, Bool.false_eq_true, if_false] at hv ⊢
    have aggregate : (match get_typetree_handle types1 σ.ref with
          | .error e => .error e
          | .ok t =>
            match members_alignment self1 t.members 0 with
            | .error e => .error e
            | .ok m => if m = 0 then .error .assertion else .ok m) = Except.ok a →
        (match get_typetree_handle types2 σ.ref with
          | .error e => .error e
          | .ok t =>
            match members_alignment self2 t.members 0 with
            | .error e => .error e
            | .ok m => if m = 0 then .error .assertion else .ok m) = Except.ok a ∨ X := by
      intro hv
      cases ht : get_typetree_handle types1 σ.ref with
      | error e => simp [ht] at hv
      | ok t =>
        simp only [ht] at hv
        cases hm : members_alignment self1 t.members 0 with
        | error e => simp [hm] at hv
        | ok m =>
          by_cases hr : σ.ref = ref
          · exact Or.inr (hvisit t m (hr ▸ ht) hm)
          · rcases members_alignment_transfer self1 self2 X hself _ _ _ hm with h2 | hx
            · left
              rw [← hso.1 _ hr, ht]
              simp only [h2]
              simpa [hm] using hv
            · exact Or.inr hx
    cases hk : type_of σ <;> simp only [hk] at hv ⊢ <;>
      first
      | exact aggregate hv
      | (left; rw [← hsize σ (by simp [hk]) (by simp [hk]) (by simp [hk])]; exact hv)
      | skip
    cases hn : type_next types1 σ with
    | error e => simp [hn] at hv
    | ok next =>
      simp only [hn] at hv
      rw [type_next_array_transfer types1 types2 ref hso σ next hk hn]
      exact hself _ _ hv
  · simp [ho] at hv

theorem type_alignment_transfer_step (types1 types2 : Types) (ref : Nat) (τ : CType)
    (hso : same_outside types1 types2 ref)
    (hτ : ∀ e1, get_typetree_handle types1 ref = .ok e1 → ∃ m ∈ e1.members, m.type = τ) :
    ∀ (n : Nat) (σ : CType) (a : Nat), type_alignment types1 n σ = .ok a →
      type_alignment types2 n σ = .ok a
        ∨ ∃ k, k < n ∧ ∃ a', type_alignment types1 k τ = .ok a' := by
  intro n
  induction n with
  | zero =>
    intro σ a hv
    refine type_alignment_body_transfer types1 types2 ref _ _ _ _ _ hso
      (fun _ _ h => by cases h) (fun σ h1 h2 h3 => size_of_scalar _ _ _ _ σ h1 h2 h3)
      ?_ σ a hv
    intro e1 v he1 hm
    obtain ⟨m, hmem, _⟩ := hτ e1 he1
    obtain ⟨d, hd⟩ := members_alignment_ok_mem _ _ _ _ hm m hmem
    cases hd
  | succ n ih =>
    intro σ a hv
    refine type_alignment_body_transfer types1 types2 ref _ _ _ _ _ hso
      ?_ (fun σ h1 h2 h3 => size_of_scalar _ _ _ _ σ h1 h2 h3) ?_ σ a hv
    · intro σ' a' h'
      rcases ih σ' a' h' with h2 | ⟨k, hk, hx⟩
      · exact Or.inl h2
      · exact Or.inr ⟨k, by omega, hx⟩
    · intro e1 v he1 hm
      obtain ⟨m, hmem, hty⟩ := hτ e1 he1
      obtain ⟨d, hd⟩ := members_alignment_ok_mem _ _ _ _ hm m hmem
      exact ⟨n, by omega, d, hty ▸ hd⟩

/-- The alignment of the type of a member of entry `ref`, once it has been
computed, does not depend on entry `ref`. -/
theorem type_alignment_transfer (types1 types2 : Types) (ref : Nat) (τ : CType)
    (hso : same_outside types1 types2 ref)
    (hτ : ∀ e1, get_typetree_handle types1 ref = .ok e1 → ∃ m ∈ e1.members, m.type = τ) :
    ∀ (n : Nat) (a : Nat), type_alignment types1 n τ = .ok a →
      type_alignment types2 n τ = .ok a := by
  intro n
  induction n using Nat.strong_induction_on with
  | _ n ih =>
    intro a hv
    rcases type_alignment_transfer_step types1 types2 ref τ hso hτ n τ a hv with
      h2 | ⟨k, hk, a', hx⟩
    · exact h2
    · have h3 := type_alignment_mono_le types2 k n (by omega) τ a' (ih k hk a' hx)
      have h4 := type_alignment_mono_le types1 k n (by omega) τ a' hx
      rw [hv] at h4
      cases h4
      exact h3

/-! ### Reading and writing repository entries -/

theorem get_typetree_handle_ok (types : Types) (ref : Nat) (t : typetree)
    (h : get_typetree_handle types ref = .ok t) :
    ref ≠ 0 ∧ ref - 1 < types.length ∧ types[ref - 1]? = some t := by
  unfold get_typetree_handle at h
  by_cases h0 : ref = 0
  · simp [h0] at h
  · rw [if_neg h0] at h
    cases hg : types[ref - 1]? with
    | none => simp [hg] at h
    | some x =>
      simp only [hg, Except.ok.injEq] at h
      subst h
      exact ⟨h0, (List.getElem?_eq_some_iff.mp hg).1, rfl⟩

theorem get_set_same (types : Types) (ref : Nat) (t t' : typetree)
    (h : get_typetree_handle types ref = .ok t) :
    get_typetree_handle (set_typetree types ref t') ref = .ok t' := by
  obtain ⟨h0, hlt, _⟩ := get_typetree_handle_ok types ref t h
  unfold get_typetree_handle set_typetree
  rw [if_neg h0]
  simp [hlt]

theorem get_set_other (types : Types) (ref r : Nat) (t t' : typetree)
    (h : get_typetree_handle types ref = .ok t) (hr : r ≠ ref) :
    get_typetree_handle (set_typetree types ref t') r = get_typetree_handle types r := by
  obtain ⟨h0, _, _⟩ := get_typetree_handle_ok types ref t h
  unfold get_typetree_handle set_typetree
  by_cases hr0 : r = 0
  · simp [hr0]
  · rw [if_neg hr0, if_neg hr0, List.getElem?_set_ne (by omega)]

/-! ### Sealing -/

theorem take_eraseIdx_self {α : Type} (l : List α) :
    ∀ i : Nat, (l.eraseIdx i).take i = l.take i := by
  induction l with
  | nil => intro i; simp
  | cons x l ih =>
    intro i
    cases i with
    | zero => simp
    | succ i => simp [ih]

theorem drop_eraseIdx_self {α : Type} (l : List α) :
    ∀ i : Nat, (l.eraseIdx i).drop i = l.drop (i + 1) := by
  induction l with
  | nil => intro i; simp
  | cons x l ih =>
    intro i
    cases i with
    | zero => simp
    | succ i => simp [ih]

theorem members_alignment_append (al : CType → Except Err Nat) (x : member) (d : Nat)
    (hd : al x.type = .ok d) :
    ∀ (xs : List member) (v0 v : Nat), members_alignment al xs v0 = .ok v →
      members_alignment al (xs ++ [x]) v0 = .ok (if d > v then d else v) := by
  intro xs
  induction xs with
  | nil =>
    intro v0 v hv
    simp only [members_alignment, Except.ok.injEq] at hv
    subst hv
    simp [members_alignment, hd]
  | cons y ys ih =>
    intro v0 v hv
    simp only [List.cons_append]
    unfold members_alignment at hv ⊢
    cases hy : al y.type with
    | error e => simp [hy] at hv
    | ok w =>
      simp only [hy] at hv ⊢
      exact ih _ _ hv

theorem members_alignment_mono_mem (al al' : CType → Except Err Nat) :
    ∀ (ms : List member) (m v : Nat),
      (∀ x ∈ ms, ∀ w, al x.type = .ok w → al' x.type = .ok w) →
      members_alignment al ms m = .ok v → members_alignment al' ms m = .ok v := by
  intro ms
  induction ms with
  | nil => intro m v _ hv; simpa [members_alignment] using hv
  | cons mb ms ih =>
    intro m v h hv
    unfold members_alignment at hv ⊢
    cases hd : al mb.type with
    | error e => simp [hd] at hv
    | ok d =>
      rw [h mb (List.mem_cons_self _ _) _ hd]
      simp only [hd] at hv
      exact ih _ _ (fun x hx => h x (List.mem_cons_of_mem _ hx)) hv

theorem remove_anonymous_fields_loop_spec (fuel ref : Nat) :
    ∀ (i : Nat) (types : Types) (maxalign : Nat) (t : typetree) (types' : Types) (a : Nat),
      get_typetree_handle types ref = .ok t → i ≤ t.members.length →
      remove_anonymous_fields_loop fuel ref i types maxalign = .ok (types', a) →
      ∃ a0,
        get_typetree_handle types' ref
            = .ok { t with members := (t.members.take i).filter is_named ++ t.members.drop i }
        ∧ (∀ r, r ≠ ref → get_typetree_handle types r = get_typetree_handle types' r)
        ∧ members_alignment (type_alignment types' fuel)
            ((t.members.take i).filter is_named) 0 = .ok a0
        ∧ a = (if a0 > maxalign then a0 else maxalign) := by
  intro i
  induction i with
  | zero =>
    intro types maxalign t types' a ht _ h
    simp only [remove_anonymous_fields_loop, Except.ok.injEq, Prod.mk.injEq] at h
    obtain ⟨rfl, rfl⟩ := h
    refine ⟨0, ?_, fun _ _ => rfl, ?_, ?_⟩
    · rw [ht]; cases t; simp
    · simp [members_alignment]
    · simp
  | succ i ih =>
    intro types maxalign t types' a ht hi h
    unfold remove_anonymous_fields_loop at h
    simp only [ht] at h
    have hlt : i < t.members.length := by omega
    have hget : t.members[i]? = some (t.members[i]) := List.getElem?_eq_getElem hlt
    simp only [hget] at h
    have htake : t.members.take (i + 1) = t.members.take i ++ [t.members[i]] := by
      rw [List.take_succ, hget]; rfl
    have hdrop : t.members.drop i = t.members[i] :: t.members.drop (i + 1) :=
      List.drop_eq_getElem_cons hlt
    by_cases hn : (t.members[i]).name.length = 0
    · rw [if_pos hn] at h
      obtain ⟨a0, h1, h2, h3, h4⟩ := ih _ maxalign
        { t with members := t.members.eraseIdx i } types' a
        (get_set_same types ref t _ ht)
        (by simp only [List.length_eraseIdx, hlt, if_true]; omega) h
      have e1 : (t.members.eraseIdx i).take i = t.members.take i :=
        take_eraseIdx_self _ _
      have e2 : (t.members.eraseIdx i).drop i = t.members.drop (i + 1) :=
        drop_eraseIdx_self _ _
      have e3 : (t.members.take (i + 1)).filter is_named
          = (t.members.take i).filter is_named := by
        rw [htake, List.filter_append]
        simp [is_named, hn]
      simp only [e1, e2] at h1 h3
      refine ⟨a0, ?_, ?_, ?_, h4⟩
      · rw [h1, e3]
      · intro r hr
        rw [← h2 r hr, get_set_other types ref r t _ ht hr]
      · rw [e3]; exact h3
    · rw [if_neg hn] at h
      cases hal : type_alignment types fuel (t.members[i]).type with
      | error e => simp [hal] at h
      | ok al =>
        simp only [hal] at h
        obtain ⟨a0, h1, h2, h3, h4⟩ := ih types _ t types' a ht (by omega) h
        have hso : same_outside types types' ref := by
          refine ⟨h2, ?_⟩
          intro e1 he1
          rw [ht] at he1
          cases he1
          exact ⟨_, h1, rfl⟩
        have hal' := type_alignment_transfer types types' ref (t.members[i]).type hso
          (by
            intro e1 he1
            rw [ht] at he1
            cases he1
            exact ⟨_, List.getElem_mem hlt, rfl⟩) fuel al hal
        have e3 : (t.members.take (i + 1)).filter is_named
            = (t.members.take i).filter is_named ++ [t.members[i]] := by
          rw [htake, List.filter_append]
          simp [is_named, hn]
        refine ⟨if al > a0 then al else a0, ?_, h2, ?_, ?_⟩
        · rw [h1, e3, hdrop]
          simp
        · rw [e3]
          exact members_alignment_append _ _ _ hal' _ _ _ h3
        · rw [h4]
          split_ifs <;> omega

theorem size_of_scalar_values (types : Types) (n : Nat) (σ : CType) (v : Nat)
    (h1 : type_of σ ≠ T_ARRAY) (h2 : type_of σ ≠ T_STRUCT) (h3 : type_of σ ≠ T_UNION)
    (hv : size_of types n σ = .ok v) : v = 0 ∨ v ∣ 16 := by
  cases n <;> unfold size_of size_of_body at hv <;>
    cases hk : type_of σ <;> simp_all <;> subst hv <;> decide

theorem members_alignment_values (al : CType → Except Err Nat)
    (h : ∀ σ v, al σ = .ok v → v = 0 ∨ v ∣ 16) :
    ∀ (ms : List member) (v0 v : Nat), (v0 = 0 ∨ v0 ∣ 16) →
      members_alignment al ms v0 = .ok v → v = 0 ∨ v ∣ 16 := by
  intro ms
  induction ms with
  | nil =>
    intro v0 v h0 hv
    simp only [members_alignment, Except.ok.injEq] at hv
    subst hv; exact h0
  | cons mb ms ih =>
    intro v0 v h0 hv
    unfold members_alignment at hv
    cases hd : al mb.type with
    | error e => simp [hd] at hv
    | ok d =>
      simp only [hd] at hv
      refine ih _ _ ?_ hv
      split_ifs
      · exact h _ _ hd
      · exact h0

theorem type_alignment_body_values (self size : CType → Except Err Nat) (types : Types)
    (hself : ∀ σ v, self σ = .ok v → v = 0 ∨ v ∣ 16)
    (hsize : ∀ σ v, type_of σ ≠ T_ARRAY → type_of σ ≠ T_STRUCT → type_of σ ≠ T_UNION →
      size σ = .ok v → v = 0 ∨ v ∣ 16)
    (σ : CType) (v : Nat) (hv : type_alignment_body self size types σ = .ok v) :
    v = 0 ∨ v ∣ 16 := by
  unfold type_alignment_body at hv
  by_cases ho : is_object σ = true
  · simp only [ho, Bool.not_true, Bool.false_eq_true, if_false] at hv
    have aggregate : (match get_typetree_handle types σ.ref with
          | .error e => .error e
          | .ok t =>
            match members_alignment self t.members 0 with
            | .error e => .error e
            | .ok m => if m = 0 then .error .assertion else .ok m) = Except.ok v →
        v = 0 ∨ v ∣ 16 := by
      intro hv
      cases ht : get_typetree_handle types σ.ref with
      | error e => simp [ht] at hv
      | ok t =>
        simp only [ht] at hv
        cases hm : members_alignment self t.members 0 with
        | error e => simp [hm] at hv
        | ok m =>
          simp only [hm] at hv
          split_ifs at hv
          simp only [Except.ok.injEq] at hv
          subst hv
          exact members_alignment_values self hself _ _ _ (Or.inl rfl) hm
    cases hk : type_of σ <;> simp only [hk] at hv <;>
      first
      | exact aggregate hv
      | exact hsize σ v (by simp [hk]) (by simp [hk]) (by simp [hk]) hv
      | skip
    cases hn : type_next types σ with
    | error e => simp [hn] at hv
    | ok next =>
      simp only [hn] at hv
      exact hself _ _ hv
  · simp [ho] at hv

/-- Every alignment `type_alignment` returns is 0, 1, 2, 4, 8 or 16. -/
theorem type_alignment_values (types : Types) :
    ∀ (n : Nat) (σ : CType) (v : Nat), type_alignment types n σ = .ok v →
      v = 0 ∨ v ∣ 16 := by
  intro n
  induction n with
  | zero =>
    intro σ v hv
    exact type_alignment_body_values _ _ types (fun _ _ h => by cases h)
      (fun σ v h1 h2 h3 h => size_of_scalar_values types 0 σ v h1 h2 h3 h) σ v hv
  | succ n ih =>
    intro σ v hv
    exact type_alignment_body_values _ _ types ih
      (fun σ v h1 h2 h3 h => size_of_scalar_values types (n + 1) σ v h1 h2 h3 h) σ v hv

theorem round_up_size_mod (s a : Nat) (ha : a ≠ 0) (hd : a ∣ 16) :
    (s + (a - s % a)) % SIZE_MOD % a = 0 := by
  have h64 : a ∣ SIZE_MOD := Dvd.dvd.trans hd (by unfold SIZE_MOD; decide)
  rw [Nat.mod_mod_of_dvd _ h64]
  have hlt : s % a < a := Nat.mod_lt _ (Nat.pos_of_ne_zero ha)
  have e : s + (a - s % a) = a * (s / a + 1) := by
    have := Nat.div_add_mod s a
    rw [Nat.mul_add, Nat.mul_one]
    omega
  rw [e]
  exact Nat.mul_mod_right _ _

/-- What `type_seal` leaves behind when it returns. -/
theorem type_seal_ok (types : Types) (fuel : Nat) (S : CType) (types' : Types)
    (h : type_seal types fuel S = .ok types') :
    ∃ t a, is_struct_or_union S = true
      ∧ get_typetree_handle types S.ref = .ok t
      ∧ a ≠ 0
      ∧ get_typetree_handle types' S.ref
          = .ok { t with
              members := t.members.filter is_named,
              size := if t.size % a ≠ 0 then (t.size + (a - t.size % a)) % SIZE_MOD
                      else t.size }
      ∧ (∀ r, r ≠ S.ref → get_typetree_handle types r = get_typetree_handle types' r)
      ∧ members_alignment (type_alignment types' fuel) (t.members.filter is_named) 0
          = .ok a := by
  unfold type_seal at h
  by_cases hsu : is_struct_or_union S = true
  · simp only [hsu, Bool.not_true, Bool.false_eq_true, if_false, bind, Except.bind,
      pure, Except.pure] at h
    cases ht : get_typetree_handle types S.ref with
    | error e => simp [ht] at h
    | ok t =>
      simp only [ht] at h
      cases hr : remove_anonymous_fields types fuel S.ref with
      | error e => simp [hr] at h
      | ok r =>
        obtain ⟨types1, a⟩ := r
        simp only [hr] at h
        unfold remove_anonymous_fields at hr
        simp only [ht] at hr
        obtain ⟨a0, h1, h2, h3, h4⟩ := remove_anonymous_fields_loop_spec fuel S.ref _ types 0 t
          types1 a ht (le_refl _) hr
        simp only [List.take_length, List.drop_length, List.append_nil] at h1 h3
        have ha : a = a0 := by rw [h4]; split_ifs <;> omega
        subst ha
        by_cases ha0 : a = 0
        · simp [ha0, throw, throwThe, MonadExceptOf.throw] at h
        · simp only [ha0, if_false, h1] at h
          refine ⟨t, a, hsu, rfl, ha0, ?_, ?_, ?_⟩
          · by_cases hm : t.size % a ≠ 0
            · simp only [hm, ne_eq, not_false_eq_true, if_true, Except.ok.injEq] at h ⊢
              subst h
              rw [get_set_same _ _ _ _ h1]
            · simp only [hm, if_false, Except.ok.injEq] at h ⊢
              subst h
              rw [h1]
          · intro r hr'
            by_cases hm : t.size % a ≠ 0
            · simp only [hm, ne_eq, not_false_eq_true, if_true, Except.ok.injEq] at h
              subst h
              rw [get_set_other _ _ _ _ _ h1 hr', h2 r hr']
            · simp only [hm, if_false, Except.ok.injEq] at h
              subst h
              exact h2 r hr'
          · by_cases hm : t.size % a ≠ 0
            · simp only [hm, ne_eq, not_false_eq_true, if_true, Except.ok.injEq] at h
              subst h
              refine members_alignment_mono_mem _ _ _ _ _ ?_ h3
              intro x hx w hw
              refine type_alignment_transfer types1 _ S.ref x.type ?_ ?_ fuel w hw
              · refine ⟨fun r hr' => (get_set_other _ _ _ _ _ h1 hr').symm, ?_⟩
                intro e1 he1
                rw [h1] at he1
                cases he1
                exact ⟨_, get_set_same _ _ _ _ h1, rfl⟩
              · intro e1 he1
                rw [h1] at he1
                cases he1
                exact ⟨x, hx, rfl⟩
            · simp only [hm, if_false, Except.ok.injEq] at h
              subst h
              exact h3
  · simp [hsu, throw, throwThe, MonadExceptOf.throw, bind, Except.bind] at h

theorem type_of_struct_or_union (S : CType) (h : is_struct_or_union S = true) :
    type_of S = T_STRUCT ∨ type_of S = T_UNION := by
  simpa [is_struct_or_union, is_struct, is_union] using h

/-- C9: for every struct or union `S` on which `type_seal` returns, the sealed
entry has only named members, `type_alignment(S)` returns the maximum alignment
`a` of these members, `size_of(S)` returns the stored size, and that size is a
multiple of `a`. -/
theorem type_seal_size_multiple (types : Types) (fuel : Nat) (S : CType) (types' : Types)
    (h : type_seal types fuel S = .ok types') :
    ∃ t a, get_typetree_handle types' S.ref = .ok t
      ∧ (∀ m ∈ t.members, m.name.length ≠ 0)
      ∧ members_alignment (type_alignment types' fuel) t.members 0 = .ok a
      ∧ type_alignment types' (fuel + 1) S = .ok a
      ∧ size_of types' (fuel + 1) S = .ok t.size
      ∧ a ≠ 0
      ∧ t.size % a = 0 := by
  obtain ⟨t, a, hsu, _, ha, h1, _, h3⟩ := type_seal_ok types fuel S types' h
  have hdiv : a ∣ 16 := by
    rcases members_alignment_values _ (type_alignment_values types' fuel) _ _ _
      (Or.inl rfl) h3 with h0 | hd
    · exact absurd h0 ha
    · exact hd
  have hk := type_of_struct_or_union S hsu
  refine ⟨_, a, h1, ?_, h3, ?_, ?_, ha, ?_⟩
  · intro m hm
    have := (List.mem_filter.mp hm).2
    simpa [is_named] using this
  · have ho : is_object S = true := by
      rcases hk with hk | hk <;> simp [is_object, is_function, hk]
    unfold type_alignment type_alignment_body
    rcases hk with hk | hk <;> simp [ho, hk, h1, h3, ha]
  · unfold size_of size_of_body
    rcases hk with hk | hk <;> simp [hk, h1]
  · dsimp only
    split_ifs with hm
    · exact round_up_size_mod _ _ ha hdiv
    · simpa using hm

/-- Witness for C9: sealing `struct { char a; int b; char c; }`, whose size
grows from 9 to 12. -/
theorem type_seal_size_multiple_witness :
    ∃ t a, get_typetree_handle abc_sealed 1 = .ok t
      ∧ (∀ m ∈ t.members, m.name.length ≠ 0)
      ∧ members_alignment (type_alignment abc_sealed 1) t.members 0 = .ok a
      ∧ type_alignment abc_sealed (1 + 1) (struct_handle 1) = .ok a
      ∧ size_of abc_sealed (1 + 1) (struct_handle 1) = .ok t.size
      ∧ a ≠ 0
      ∧ t.size % a = 0 :=
  type_seal_size_multiple abc_unsealed 1 (struct_handle 1) abc_sealed rfl

/-! ### Adding members and bit-fields -/

theorem round_up_eq (s a : Nat) (ha : a ≠ 0) :
    round_up s a = if s % a = 0 then s else s + (a - s % a) := by
  unfold round_up
  have hpos : 0 < a := Nat.pos_of_ne_zero ha
  have hdm := Nat.div_add_mod s a
  have hlt : s % a < a := Nat.mod_lt _ hpos
  split_ifs with h0
  · have e : s + a - 1 = (a - 1) + s / a * a := by
      rw [h0] at hdm
      have : s / a * a = s := by rw [Nat.mul_comm]; omega
      omega
    rw [e, Nat.add_mul_div_right _ _ hpos, Nat.div_eq_of_lt (by omega), Nat.zero_add]
    rw [h0] at hdm
    rw [Nat.mul_comm]; omega
  · have e : s + a - 1 = (s % a - 1) + (s / a + 1) * a := by
      rw [Nat.add_mul, Nat.one_mul]
      have : s / a * a = a * (s / a) := Nat.mul_comm _ _
      omega
    rw [e, Nat.add_mul_div_right _ _ hpos, Nat.div_eq_of_lt (by omega), Nat.zero_add,
      Nat.add_mul, Nat.one_mul]
    have : s / a * a = a * (s / a) := Nat.mul_comm _ _
    omega

theorem bind_eq_ok {α β : Type} (x : Except Err α) (f : α → Except Err β) (b : β)
    (h : (x >>= f) = .ok b) : ∃ a, x = .ok a ∧ f a = .ok b := by
  cases x with
  | error e => cases h
  | ok a => exact ⟨a, rfl, h⟩

theorem check_incomplete_ok (sz : Nat) (m : member) (t t' : typetree)
    (h : check_incomplete sz m t = .ok t') :
    t'.members = t.members ∧ t'.size = t.size := by
  unfold check_incomplete at h
  split_ifs at h <;> cases h <;> exact ⟨rfl, rfl⟩

theorem check_flexible_ok (fl : Bool) (parent : CType) (t t' : typetree)
    (h : check_flexible fl parent t = .ok t') :
    t'.members = t.members ∧ t'.size = t.size := by
  unfold check_flexible at h
  split_ifs at h <;> cases h <;> exact ⟨rfl, rfl⟩

theorem grow_size_ok (m : member) (sz : Nat) (t t' : typetree)
    (h : grow_size m sz t = .ok t') :
    t'.members = t.members
      ∧ t'.size = (if t.size < (m.offset + sz) % SIZE_MOD then (m.offset + sz) % SIZE_MOD
                   else t.size) := by
  unfold grow_size at h
  split_ifs at h with h1 h2 <;> cases h
  · exact ⟨rfl, by simp [h2]⟩
  · exact ⟨rfl, by simp [h2]⟩

theorem add_member_aggregate_ok (types : Types) (fuel : Nat) (parent : CType)
    (m : member) (t t' : typetree) (h : add_member_aggregate types fuel parent m t = .ok t') :
    t'.members = t.members
      ∧ ∃ sz, t'.size = (if t.size < (m.offset + sz) % SIZE_MOD then (m.offset + sz) % SIZE_MOD
                         else t.size) := by
  unfold add_member_aggregate at h
  obtain ⟨sz, _, h⟩ := bind_eq_ok _ _ _ h
  obtain ⟨t1, h1, h⟩ := bind_eq_ok _ _ _ h
  obtain ⟨fl, _, h⟩ := bind_eq_ok _ _ _ h
  obtain ⟨t2, h2, h⟩ := bind_eq_ok _ _ _ h
  obtain ⟨sz2, _, h⟩ := bind_eq_ok _ _ _ h
  obtain ⟨e1, e2⟩ := check_incomplete_ok _ _ _ _ h1
  obtain ⟨e3, e4⟩ := check_flexible_ok _ _ _ _ h2
  obtain ⟨e5, e6⟩ := grow_size_ok _ _ _ _ h
  refine ⟨by rw [e5, e3, e1], sz2, ?_⟩
  rw [e6, e4, e2]

theorem add_member_aggregate_members (types : Types) (fuel : Nat) (parent : CType)
    (m : member) (t t' : typetree) (h : add_member_aggregate types fuel parent m t = .ok t') :
    t'.members = t.members :=
  (add_member_aggregate_ok types fuel parent m t t' h).1

theorem add_member_ok (types : Types) (fuel : Nat) (parent : CType) (m : member)
    (types' : Types) (t : typetree) (hsu : is_struct_or_union parent = true)
    (ht : get_typetree_handle types parent.ref = .ok t)
    (h : add_member types fuel parent m = .ok types') :
    ∃ t', get_typetree_handle types' parent.ref = .ok t'
      ∧ t'.members = t.members ++ [m] := by
  have hnf : is_function parent = false := by
    rcases type_of_struct_or_union parent hsu with hk | hk <;> simp [is_function, hk]
  unfold add_member at h
  simp only [hsu, Bool.true_or, Bool.not_true, Bool.false_eq_true, if_false, ht, hnf,
    Bool.not_false, if_true] at h
  by_cases hdots : m.name = "..."
  · simp only [hdots, if_true] at h
    split_ifs at h
  · simp only [hdots, if_false] at h
    split at h
    · cases h
    · cases h
    · cases h3 : add_member_aggregate types fuel parent m
          { t with members := t.members ++ [m] } with
      | error e => simp [h3] at h
      | ok t' =>
        simp only [h3, Except.ok.injEq] at h
        subst h
        exact ⟨t', get_set_same _ _ _ _ ht,
          add_member_aggregate_members _ _ _ _ _ _ h3⟩

theorem adjust_member_alignment_ok (types : Types) (fuel : Nat) (parent type : CType)
    (r : Types × Nat) (t : typetree) (hs : is_struct parent = true)
    (ht : get_typetree_handle types parent.ref = .ok t) (hsz : t.size < SIZE_MOD)
    (h : adjust_member_alignment types fuel parent type = .ok r) :
    ∃ al, type_alignment types fuel type = .ok al ∧ al ≠ 0
      ∧ r.2 = round_up t.size al % SIZE_MOD
      ∧ get_typetree_handle r.1 parent.ref = .ok { t with size := r.2 } := by
  have hsu : is_struct_or_union parent = true := by simp [is_struct_or_union, hs]
  unfold adjust_member_alignment at h
  simp only [hsu, Bool.not_true, Bool.false_eq_true, if_false, hs, if_true, ht] at h
  cases hal : type_alignment types fuel type with
  | error e => simp [hal] at h
  | ok al =>
    simp only [hal] at h
    by_cases h0 : al = 0
    · simp [h0] at h
    · simp only [h0, if_false] at h
      refine ⟨al, rfl, h0, ?_⟩
      rw [round_up_eq _ _ h0]
      by_cases hm : t.size % al = 0
      · simp only [hm, ne_eq, not_true_eq_false, if_false, Except.ok.injEq] at h
        subst h
        simp only [hm, if_true, Nat.mod_eq_of_lt hsz, true_and]
        rw [ht]
      · simp only [hm, ne_eq, not_false_eq_true, if_true] at h
        split_ifs at h
        simp only [Except.ok.injEq] at h
        subst h
        simp only [hm, if_false, true_and]
        exact get_set_same _ _ _ _ ht

theorem size_of_int (types : Types) (fuel : Nat) :
    size_of types fuel basic_type__int = .ok 4 := by
  cases fuel <;> rfl

theorem is_struct_facts (parent : CType) (hs : is_struct parent = true) :
    is_struct_or_union parent = true ∧ is_union parent = false
      ∧ is_function parent = false := by
  have hk : type_of parent = T_STRUCT := by simpa [is_struct] using hs
  simp [is_struct_or_union, is_struct, is_union, is_function, hk]

/-- Where `place_field` puts a new field of a struct. -/
theorem place_field_ok (types : Types) (fuel : Nat) (parent type : CType) (m : member)
    (r : Types × member) (t : typetree) (hs : is_struct parent = true)
    (ht : get_typetree_handle types parent.ref = .ok t) (hsz : t.size < SIZE_MOD)
    (h : place_field types fuel parent type m = .ok r) :
    (∃ t1, get_typetree_handle r.1 parent.ref = .ok t1 ∧ t1.members = t.members)
      ∧ r.2.name = m.name ∧ r.2.type = m.type ∧ r.2.field_width = m.field_width
      ∧ (∀ prev, t.members.getLast? = some prev → prev.field_width ≠ 0 →
          (prev.field_offset + prev.field_width + m.field_width ≤ 32 →
              r.2.offset = prev.offset
                ∧ r.2.field_offset = prev.field_offset + prev.field_width)
            ∧ (32 < prev.field_offset + prev.field_width + m.field_width →
              r.2.field_offset = 0
                ∧ ∃ al, type_alignment types fuel type = .ok al
                  ∧ r.2.offset = round_up t.size al % SIZE_MOD))
      ∧ ((t.members.getLast? = none
            ∨ ∃ prev, t.members.getLast? = some prev ∧ prev.field_width = 0) →
          r.2.field_offset = 0) := by
  unfold place_field at h
  simp only [hs, if_true, ht] at h
  have unpacked : ∀ r', adjust_member_alignment types fuel parent type = .ok r' →
      (∃ t1, get_typetree_handle r'.1 parent.ref = .ok t1 ∧ t1.members = t.members)
        ∧ ∃ al, type_alignment types fuel type = .ok al
          ∧ r'.2 = round_up t.size al % SIZE_MOD := by
    intro r' hr'
    obtain ⟨al, h1, _, h3, h4⟩ := adjust_member_alignment_ok types fuel parent type r' t hs ht
      hsz hr'
    exact ⟨⟨_, h4, rfl⟩, al, h1, h3⟩
  cases hl : t.members.getLast? with
  | none =>
    simp only [get_last_field_member, hl] at h
    cases ha : adjust_member_alignment types fuel parent type with
    | error e => simp [ha] at h
    | ok r' =>
      simp only [ha, Except.ok.injEq] at h
      subst h
      obtain ⟨h1, _⟩ := unpacked r' ha
      refine ⟨h1, rfl, rfl, rfl, ?_, fun _ => rfl⟩
      intro prev hp
      cases hp
  | some last =>
    by_cases hfw : last.field_width = 0
    · simp only [get_last_field_member, hl, hfw, ne_eq, not_true_eq_false, if_false] at h
      cases ha : adjust_member_alignment types fuel parent type with
      | error e => simp [ha] at h
      | ok r' =>
        simp only [ha, Except.ok.injEq] at h
        subst h
        obtain ⟨h1, _⟩ := unpacked r' ha
        refine ⟨h1, rfl, rfl, rfl, ?_, fun _ => rfl⟩
        intro prev hp hw
        simp only [Option.some.injEq] at hp
        subst hp
        exact absurd hfw hw
    · simp only [get_last_field_member, hl, hfw, ne_eq, not_false_eq_true, if_true,
        pack_field, size_of_int] at h
      by_cases hfit : last.field_offset + last.field_width + m.field_width ≤ 4 * 8
      · simp only [hfit, if_true, Except.ok.injEq] at h
        subst h
        refine ⟨⟨t, ht, rfl⟩, rfl, rfl, rfl, ?_, ?_⟩
        · intro prev hp _
          simp only [Option.some.injEq] at hp
          subst hp
          exact ⟨fun _ => ⟨rfl, rfl⟩, fun hgt => by omega⟩
        · rintro (hnone | ⟨prev, hp, hw⟩)
          · cases hnone
          · simp only [Option.some.injEq] at hp
            subst hp
            exact absurd hw hfw
      · simp only [hfit, if_false] at h
        cases ha : adjust_member_alignment types fuel parent type with
        | error e => simp [ha] at h
        | ok r' =>
          simp only [ha, Except.ok.injEq] at h
          subst h
          obtain ⟨h1, al, h2, h3⟩ := unpacked r' ha
          refine ⟨h1, rfl, rfl, rfl, ?_, fun _ => rfl⟩
          intro prev hp _
          simp only [Option.some.injEq] at hp
          subst hp
          exact ⟨fun hle => by omega, fun _ => ⟨rfl, al, h2, h3⟩⟩

/-- C10: bit-field packing in a struct. When `type_add_field` adds a field of
width `w > 0` to a struct and returns, the field is appended as the last member
with the given name, type and width. If the previous last member `prev` is a
bit-field: when `prev.field_offset + prev.field_width + w <= 32` the new field
gets the byte offset of `prev` and `field_offset = prev.field_offset +
prev.field_width`; otherwise it gets `field_offset` 0 at the byte offset that is
the current size of the struct rounded up to the alignment of the field type (a
`size_t`, hence taken modulo `2 ^ 64`). A field that does not follow a bit-field
gets `field_offset` 0. For `struct { int a:3; int b:5; int c:1; }` the three
fields share byte offset 0 with field offsets 0, 3, 8 and the sealed size is 4. -/
theorem type_add_field_packing :
    (∀ (fuel : Nat) (types : Types) (parent : CType) (name : String) (type : CType)
        (w : Nat) (types' : Types) (t : typetree),
        is_struct parent = true → 0 < w →
        get_typetree_handle types parent.ref = .ok t → t.size < SIZE_MOD →
        type_add_field (fuel + 1) types parent name type w = .ok types' →
        ∃ t' m, get_typetree_handle types' parent.ref = .ok t'
          ∧ t'.members = t.members ++ [m]
          ∧ m.name = name ∧ m.type = type ∧ m.field_width = w
          ∧ (∀ prev, t.members.getLast? = some prev → prev.field_width ≠ 0 →
              (prev.field_offset + prev.field_width + w ≤ 32 →
                  m.offset = prev.offset
                    ∧ m.field_offset = prev.field_offset + prev.field_width)
                ∧ (32 < prev.field_offset + prev.field_width + w →
                  m.field_offset = 0
                    ∧ ∃ al, type_alignment types (fuel + 1) type = .ok al
                      ∧ m.offset = round_up t.size al % SIZE_MOD))
          ∧ ((t.members.getLast? = none
                ∨ ∃ prev, t.members.getLast? = some prev ∧ prev.field_width = 0) →
              m.field_offset = 0))
      ∧ (type_add_field 2 empty_struct (struct_handle 1) "a" basic_type__int 3 = .ok bits_a
          ∧ type_add_field 2 bits_a (struct_handle 1) "b" basic_type__int 5 = .ok bits_ab
          ∧ type_add_field 2 bits_ab (struct_handle 1) "c" basic_type__int 1 = .ok bits_abc
          ∧ type_seal bits_abc 1 (struct_handle 1) = .ok bits_abc) := by
  refine ⟨?_, rfl, rfl, rfl, rfl⟩
  intro fuel types parent name type w types' t hs hw ht hsz h
  obtain ⟨hsu, hu, _⟩ := is_struct_facts parent hs
  unfold type_add_field at h
  simp only [hsu, Bool.not_true, Bool.false_eq_true, if_false, hu, false_and] at h
  have hw0 : w ≠ 0 := by omega
  split at h
  · cases h
  · cases h
  · split at h
    · cases h
    · split_ifs at h with h1 h2
      split at h
      · cases h
      · rename_i r hr
        obtain ⟨⟨t1, g1, g2⟩, e1, e2, e3, hfollow, hfirst⟩ :=
          place_field_ok types (fuel + 1) parent type _ r t hs ht hsz hr
        obtain ⟨t', k1, k2⟩ := add_member_ok r.1 (fuel + 1) parent r.2 types' t1 hsu g1 h
        exact ⟨t', r.2, k1, by rw [k2, g2], e1, e2, e3, hfollow, hfirst⟩

/-- Witness for C10: adding `b:5` behind `a:3`. -/
theorem type_add_field_packing_witness :
    ∃ t' m, get_typetree_handle bits_ab 1 = .ok t'
      ∧ t'.members = [int_field "a" 0 3] ++ [m]
      ∧ m.name = "b" ∧ m.type = basic_type__int ∧ m.field_width = 5
      ∧ (∀ prev, [int_field "a" 0 3].getLast? = some prev → prev.field_width ≠ 0 →
          (prev.field_offset + prev.field_width + 5 ≤ 32 →
              m.offset = prev.offset
                ∧ m.field_offset = prev.field_offset + prev.field_width)
            ∧ (32 < prev.field_offset + prev.field_width + 5 →
              m.field_offset = 0
                ∧ ∃ al, type_alignment bits_a (1 + 1) basic_type__int = .ok al
                  ∧ m.offset = round_up 4 al % SIZE_MOD))
      ∧ (([int_field "a" 0 3].getLast? = none
            ∨ ∃ prev, [int_field "a" 0 3].getLast? = some prev ∧ prev.field_width = 0) →
          m.field_offset = 0) :=
  type_add_field_packing.1 1 bits_a (struct_handle 1) "b" basic_type__int 5 bits_ab
    { typetree.zero with type := T_STRUCT, size := 4, members := [int_field "a" 0 3] }
    rfl (by decide) rfl (by unfold SIZE_MOD; decide) rfl

/-! ### Struct layout -/

theorem set_typetree_twice (types : Types) (ref : Nat) (a b : typetree) :
    set_typetree (set_typetree types ref a) ref b = set_typetree types ref b := by
  unfold set_typetree
  exact List.set_set _ _ _ _

theorem list_set_self {α : Type} (l : List α) :
    ∀ (i : Nat) (a : α), l[i]? = some a → l.set i a = l := by
  induction l with
  | nil => intro i a h; simp at h
  | cons x l ih =>
    intro i a h
    cases i with
    | zero => simp at h; simp [h]
    | succ i => simp at h; simp [ih i a h]

theorem set_typetree_self (types : Types) (ref : Nat) (t : typetree)
    (h : get_typetree_handle types ref = .ok t) : set_typetree types ref t = types := by
  obtain ⟨_, hlt, hg⟩ := get_typetree_handle_ok types ref t h
  unfold set_typetree
  exact list_set_self types (ref - 1) t hg

theorem round_up_ge (s a : Nat) (ha : a ≠ 0) : s ≤ round_up s a := by
  rw [round_up_eq s a ha]
  split_ifs <;> omega

/-- The repository `adjust_member_alignment` leaves for a struct. -/
theorem adjust_member_alignment_state (types : Types) (fuel : Nat) (parent type : CType)
    (r : Types × Nat) (t : typetree) (al : Nat) (hs : is_struct parent = true)
    (ht : get_typetree_handle types parent.ref = .ok t)
    (hal : type_alignment types fuel type = .ok al) (ha : al ≠ 0)
    (hb : round_up t.size al < SIZE_MOD)
    (h : adjust_member_alignment types fuel parent type = .ok r) :
    r.2 = round_up t.size al
      ∧ r.1 = set_typetree types parent.ref { t with size := round_up t.size al } := by
  have hsu : is_struct_or_union parent = true := by simp [is_struct_or_union, hs]
  unfold adjust_member_alignment at h
  simp only [hsu, Bool.not_true, Bool.false_eq_true, if_false, hs, if_true, ht, hal, ha] at h
  have hr := round_up_eq t.size al ha
  by_cases hm : t.size % al = 0
  · simp only [hm, ne_eq, not_true_eq_false, if_false, Except.ok.injEq] at h
    subst h
    simp only [hm, if_true] at hr
    rw [hr]
    exact ⟨rfl, (set_typetree_self types parent.ref t ht).symm⟩
  · simp only [hm, if_false] at hr
    have hmod : (t.size + (al - t.size % al)) % SIZE_MOD = round_up t.size al := by
      rw [hr]; exact Nat.mod_eq_of_lt (hr ▸ hb)
    simp only [hm, ne_eq, not_false_eq_true, if_true, hmod] at h
    split_ifs at h
    simp only [Except.ok.injEq] at h
    subst h
    exact ⟨rfl, rfl⟩

/-- One `type_add_member` on a struct whose entry is `t`, for a complete member
type, when the member ends at or below `LONG_MAX`. -/
theorem type_add_member_struct_step (types0 : Types) (fuel : Nat) (S : CType)
    (name : String) (τ : CType) (sz al : Nat) (t t0 : typetree) (types' : Types)
    (hs : is_struct S = true)
    (h0 : get_typetree_handle types0 S.ref = .ok t0)
    (hc : complete_type types0 fuel S.ref τ sz al)
    (hb : round_up t.size al + sz ≤ LONG_MAX)
    (h : type_add_member (set_typetree types0 S.ref t) fuel S name τ = .ok types') :
    types' = set_typetree types0 S.ref
      { t with
        size := round_up t.size al + sz,
        members := t.members ++ [⟨name, τ, round_up t.size al, 0, 0, none⟩] } := by
  obtain ⟨hsz0, hal0, hall⟩ := hc
  obtain ⟨hsu, _, hnf⟩ := is_struct_facts S hs
  have hLM : LONG_MAX < SIZE_MOD := by unfold LONG_MAX SIZE_MOD; decide
  have ht : get_typetree_handle (set_typetree types0 S.ref t) S.ref = .ok t :=
    get_set_same _ _ _ _ h0
  unfold type_add_member at h
  simp only [hsu, Bool.true_or, Bool.not_true, Bool.false_eq_true, if_false, hnf,
    Bool.not_false, if_true] at h
  cases hadj : adjust_member_alignment (set_typetree types0 S.ref t) fuel S τ with
  | error e => simp [hadj] at h
  | ok r =>
    simp only [hadj] at h
    obtain ⟨hoff, hst⟩ := adjust_member_alignment_state _ fuel S τ r t al hs ht
      (hall t).2.1 hal0 (by omega) hadj
    rw [set_typetree_twice] at hst
    have ht1 : get_typetree_handle r.1 S.ref
        = .ok { t with size := round_up t.size al } := by
      rw [hst]; exact get_set_same _ _ _ _ h0
    unfold add_member at h
    simp only [hsu, Bool.true_or, Bool.not_true, Bool.false_eq_true, if_false, ht1, hnf,
      Bool.not_false, if_true] at h
    by_cases hdots : name = "..."
    · simp [member.zero, hdots] at h
    · simp only [member.zero, hdots, if_false] at h
      split at h
      · cases h
      · cases h
      · split at h
        · cases h
        · rename_i t' hagg
          simp only [Except.ok.injEq] at h
          subst h
          rw [hst, set_typetree_twice]
          congr 1
          unfold add_member_aggregate at hagg
          simp only [hst, set_typetree_twice, (hall _).1, (hall _).2.2, bind, Except.bind,
            check_incomplete, hsz0, if_false, check_flexible, Bool.false_eq_true,
            grow_size, hoff] at hagg
          have hg : ¬ (LONG_MAX + SIZE_MOD - round_up t.size al) % SIZE_MOD < sz := by
            have e : LONG_MAX + SIZE_MOD - round_up t.size al
                = (LONG_MAX - round_up t.size al) + SIZE_MOD := by omega
            rw [e, Nat.add_mod_right, Nat.mod_eq_of_lt (by omega)]
            omega
          have hlt : round_up t.size al < (round_up t.size al + sz) % SIZE_MOD := by
            rw [Nat.mod_eq_of_lt (by omega)]; omega
          simp only [hg, if_false, hlt, if_true, Except.ok.injEq] at hagg
          rw [← hagg, Nat.mod_eq_of_lt (by omega)]

theorem layout_end_ge :
    ∀ (dims : List (Nat × Nat)) (s : Nat), (∀ d ∈ dims, d.2 ≠ 0) → s ≤ layout_end s dims := by
  intro dims
  induction dims with
  | nil => intro s _; exact le_refl _
  | cons d dims ih =>
    intro s h
    obtain ⟨sz, al⟩ := d
    unfold layout_end
    have h1 := round_up_ge s al (h (sz, al) (List.mem_cons_self _ _))
    have h2 := ih (round_up s al + sz) (fun d hd => h d (List.mem_cons_of_mem _ hd))
    omega

theorem complete_dims_ne_zero (types0 : Types) (fuel ref : Nat) :
    ∀ (ms : List (String × CType)) (dims : List (Nat × Nat)),
      List.Forall₂ (fun m d => complete_type types0 fuel ref m.2 d.1 d.2) ms dims →
      ∀ d ∈ dims, d.2 ≠ 0 := by
  intro ms dims hf
  induction hf with
  | nil => intro d hd; cases hd
  | cons h _ ih =>
    intro d hd
    rcases List.mem_cons.mp hd with rfl | hd'
    · exact h.2.1
    · exact ih d hd'

/-- The layout of a struct built by `type_add_member` from complete member
types, as long as no member ends above `LONG_MAX`: the members are stored in
order, each at the end of the previous one rounded up to its own alignment, and
the size is the end of the last member. -/
theorem add_members_layout (types0 : Types) (fuel : Nat) (S : CType) (t0 : typetree)
    (hs : is_struct S = true) (h0 : get_typetree_handle types0 S.ref = .ok t0) :
    ∀ (ms : List (String × CType)) (dims : List (Nat × Nat)) (t : typetree)
      (types' : Types),
      List.Forall₂ (fun m d => complete_type types0 fuel S.ref m.2 d.1 d.2) ms dims →
      layout_end t.size dims ≤ LONG_MAX →
      add_members fuel S (set_typetree types0 S.ref t) ms = .ok types' →
      types' = set_typetree types0 S.ref
        { t with
          size := layout_end t.size dims,
          members := t.members ++ List.zipWith
            (fun m off => (⟨m.1, m.2, off, 0, 0, none⟩ : member)) ms
            (layout_offsets t.size dims) } := by
  intro ms
  induction ms with
  | nil =>
    intro dims t types' hf _ h
    cases hf
    simp only [add_members, Except.ok.injEq] at h
    subst h
    simp [layout_end]
  | cons m ms ih =>
    intro dims t types' hf hb h
    cases hf with
    | cons hd hrest =>
    rename_i d dims
    obtain ⟨name, τ⟩ := m
    obtain ⟨sz, al⟩ := d
    simp only [layout_end] at hb
    have hstep : round_up t.size al + sz ≤ LONG_MAX :=
      le_trans (layout_end_ge dims _ (complete_dims_ne_zero types0 fuel S.ref ms dims hrest)) hb
    unfold add_members at h
    cases h1 : type_add_member (set_typetree types0 S.ref t) fuel S name τ with
    | error e => simp [h1] at h
    | ok types1 =>
      simp only [h1] at h
      have e1 := type_add_member_struct_step types0 fuel S name τ sz al t t0 types1 hs h0 hd
        hstep h1
      rw [e1] at h
      have e2 := ih dims _ types' hrest hb h
      rw [e2]
      simp [layout_end, layout_offsets]

/-- C8 on the code. `struct { char a; int b; char c; }` is laid out as the
claim says: offsets 0, 4, 8, alignment 4, sealed size 12. The claim fails for
`struct { char a[LONG_MAX]; short b; char c[LONG_MAX - 1]; }`: both arrays are
accepted by `type_create`, all three `type_add_member` calls and `type_seal`
return, `b` is placed at offset `2 ^ 63` (above `LONG_MAX`), `c` at
`2 ^ 63 + 2`, and the sealed size is `2 ^ 63 + 2`, the start of `c`, although
`c` is `2 ^ 63 - 2` bytes long. -/
theorem struct_layout_overflow :
    (type_add_member empty_struct 1 (struct_handle 1) "a" basic_type__char = .ok abc_a
        ∧ type_add_member abc_a 1 (struct_handle 1) "b" basic_type__int = .ok abc_ab
        ∧ type_add_member abc_ab 1 (struct_handle 1) "c" basic_type__char = .ok abc_unsealed
        ∧ type_seal abc_unsealed 1 (struct_handle 1) = .ok abc_sealed
        ∧ type_alignment abc_sealed 1 (struct_handle 1) = .ok 4
        ∧ size_of abc_sealed 1 (struct_handle 1) = .ok 12)
      ∧ (type_create empty_struct 1 T_ARRAY (.array basic_type__char LONG_MAX none)
            = .ok (huge_types.take 2, array_handle 2)
          ∧ type_create (huge_types.take 2) 1 T_ARRAY
              (.array basic_type__char (LONG_MAX - 1) none)
            = .ok (huge_types, array_handle 3))
      ∧ (type_add_member huge_types 1 (struct_handle 1) "a" (array_handle 2) = .ok huge_a
          ∧ type_add_member huge_a 1 (struct_handle 1) "b" basic_type__short = .ok huge_ab
          ∧ type_add_member huge_ab 1 (struct_handle 1) "c" (array_handle 3)
              = .ok huge_sealed
          ∧ type_seal huge_sealed 1 (struct_handle 1) = .ok huge_sealed)
      ∧ size_of huge_sealed 1 (array_handle 3) = .ok (2 ^ 63 - 2)
      ∧ size_of huge_sealed 1 (struct_handle 1) = .ok (2 ^ 63 + 2)
      ∧ LONG_MAX < 2 ^ 63 :=
  ⟨⟨rfl, rfl, rfl, rfl, rfl, rfl⟩, ⟨rfl, rfl⟩, ⟨rfl, rfl, rfl, rfl⟩, rfl, rfl,
    by unfold LONG_MAX; decide⟩

/-! ### Zero-width fields -/

/-- C11 on the code. `struct { int a:3; int :0; int b:4; }` comes out as the
claim says: `a` at bit 0 of offset 0, a padding field of 29 bits fills the unit,
`b` at bit 0 of offset 4, and sealing removes the padding and leaves size 8. The
claim fails for a unit made of `_Bool` fields: 32 fields `_Bool b:1` are packed
into the unit at byte offset 0 while the struct grows to 1 byte only; the
`int :0` then changes nothing (the unit is full), and the next field
`_Bool c:1` is placed at bit 0 of byte offset 1, below `prev.offset + 4 = 4`
and on the bit of the ninth field. -/
theorem zero_width_flush_after_bool_fields :
    (type_add_field 2 empty_struct (struct_handle 1) "a" basic_type__int 3 = .ok bits_a
        ∧ type_add_field 2 bits_a (struct_handle 1) "" basic_type__int 0 = .ok flush_a
        ∧ type_add_field 2 flush_a (struct_handle 1) "b" basic_type__int 4 = .ok flush_ab
        ∧ type_seal flush_ab 1 (struct_handle 1) = .ok flush_sealed)
      ∧ (∀ k, k < 32 →
          type_add_field 2 (bools k) (struct_handle 1) (bool_name k) basic_type__bool 1
            = .ok (bools (k + 1)))
      ∧ type_add_field 2 (bools 32) (struct_handle 1) "" basic_type__int 0 = .ok (bools 32)
      ∧ type_add_field 2 (bools 32) (struct_handle 1) "c" basic_type__bool 1 = .ok bools_c
      ∧ (bool_field 31).offset + 4 = 4
      ∧ (bool_field 8).offset * 8 + (bool_field 8).field_offset = 1 * 8 + 0 := by
  refine ⟨⟨rfl, rfl, rfl, rfl⟩, ?_, rfl, rfl, rfl, rfl⟩
  intro k hk
  interval_cases k <;> rfl

/-- C12 fails on the code. After `char a` the struct is 1 byte long; an unnamed
zero-width field of type `int` or `unsigned int` rounds the size up to 4, but
one of type `_Bool` leaves it at 2: `reset_field_alignment` adds `size % 4`
instead of the distance to the next multiple of 4. From size 3 the result is 6,
from size 2 it is 4. -/
theorem zero_width_flush_bool_size :
    type_add_member empty_struct 1 (struct_handle 1) "a" basic_type__char = .ok (char_a 1)
      ∧ type_add_field 2 (char_a 1) (struct_handle 1) "" basic_type__int 0 = .ok (char_a 4)
      ∧ type_add_field 2 (char_a 1) (struct_handle 1) "" basic_type__unsigned_int 0
          = .ok (char_a 4)
      ∧ type_add_field 2 (char_a 1) (struct_handle 1) "" basic_type__bool 0 = .ok (char_a 2)
      ∧ type_add_field 2 (char_a 2) (struct_handle 1) "" basic_type__bool 0 = .ok (char_a 4)
      ∧ type_add_field 2 (char_a 3) (struct_handle 1) "" basic_type__bool 0 = .ok (char_a 6)
      ∧ round_up 1 4 = 4 ∧ round_up 3 4 = 4 :=
  ⟨rfl, rfl, rfl, rfl, rfl, rfl, rfl, rfl⟩

/-! ### Equality and compatibility -/

theorem typetree_equal_self (eq : CType → CType → Except Err Bool) (t : typetree)
    (h : ∀ σ, eq σ σ = .ok true) : typetree_equal eq t t = .ok true := by
  rw [typetree_equal_iff]
  refine ⟨rfl, rfl, rfl, rfl, rfl, ?_⟩
  rw [List.forall₂_same]
  intro m _
  exact ⟨h m.type, fun _ => ⟨rfl, rfl⟩⟩

/-- Two handles that differ in qualifier bits only are equal for `type_equal`. -/
theorem type_equal_of_same_entry (types : Types) (fuel : Nat) (a b : CType)
    (hty : a.type = b.type) (hu : a.is_unsigned = b.is_unsigned) (href : a.ref = b.ref)
    (hv : b.ref = 0 ∨ ∃ t, get_typetree_handle types b.ref = .ok t) :
    type_equal types (fuel + 2) a b = .ok true := by
  rw [type_equal_iff]
  right
  refine ⟨hty, hu, ?_⟩
  by_cases h0 : b.ref = 0
  · exact Or.inl ⟨href.trans h0, h0⟩
  · rcases hv with h0' | ⟨t, ht⟩
    · exact absurd h0' h0
    · refine Or.inr ⟨by rw [href]; exact h0, h0, t, t, by rw [href]; exact ht, ht, ?_⟩
      exact typetree_equal_self _ t (fun σ => type_equal_self types fuel σ)

/-- The first test of `is_compatible`: handles whose outermost qualifiers differ
are not compatible. -/
theorem is_compatible_qualifier_mismatch (types : Types) (fuel : Nat) (l r : CType)
    (h : is_const l ≠ is_const r ∨ is_volatile l ≠ is_volatile r
      ∨ is_restrict l ≠ is_restrict r) :
    is_compatible types (fuel + 1) l r = .ok false := by
  unfold is_compatible is_compatible_body
  rw [if_pos (Or.inr h)]

/-- C13. For every handle `T` whose reference is null or valid: when `T` is not
const-qualified at top level, `type_equal(type_set_const(T), T)` returns true
(recursion depth 2 suffices) and `is_compatible(type_set_const(T), T)` returns
false; likewise for volatile and `type_set_volatile`. -/
theorem type_equal_ignores_qualifiers (types : Types) (fuel : Nat) (T : CType)
    (hv : T.ref = 0 ∨ ∃ t, get_typetree_handle types T.ref = .ok t) :
    (is_const T = false →
        type_equal types (fuel + 2) (type_set_const T) T = .ok true
          ∧ is_compatible types (fuel + 1) (type_set_const T) T = .ok false)
      ∧ (is_volatile T = false →
        type_equal types (fuel + 2) (type_set_volatile T) T = .ok true
          ∧ is_compatible types (fuel + 1) (type_set_volatile T) T = .ok false) := by
  constructor
  · intro hc
    constructor
    · apply type_equal_of_same_entry _ _ _ _ _ _ _ hv <;>
        (unfold type_set_const; split_ifs <;> rfl)
    · apply is_compatible_qualifier_mismatch
      left
      rw [hc]
      unfold type_set_const is_const
      split_ifs <;> simp_all
  · intro hc
    constructor
    · apply type_equal_of_same_entry _ _ _ _ _ _ _ hv <;>
        (unfold type_set_volatile; split_ifs <;> rfl)
    · apply is_compatible_qualifier_mismatch
      right; left
      rw [hc]
      unfold type_set_volatile is_volatile
      split_ifs <;> simp_all

/-- Witness for C13: `const int` and `volatile int` against `int`, in the empty
repository and already at recursion depth 1. -/
theorem type_equal_ignores_qualifiers_witness :
    is_const basic_type__int = false
      ∧ is_volatile basic_type__int = false
      ∧ (type_equal [] (0 + 2) (type_set_const basic_type__int) basic_type__int = .ok true
        ∧ is_compatible [] (0 + 1) (type_set_const basic_type__int) basic_type__int
            = .ok false)
      ∧ (type_equal [] (0 + 2) (type_set_volatile basic_type__int) basic_type__int = .ok true
        ∧ is_compatible [] (0 + 1) (type_set_volatile basic_type__int) basic_type__int
            = .ok false)
      ∧ type_equal [] 1 (type_set_const basic_type__int) basic_type__int = .ok true :=
  ⟨rfl, rfl,
   (type_equal_ignores_qualifiers [] 0 basic_type__int (Or.inl rfl)).1 rfl,
   (type_equal_ignores_qualifiers [] 0 basic_type__int (Or.inl rfl)).2 rfl,
   rfl⟩

/-- What `type_equal` does separate: handles whose `type` fields or signedness
differ. -/
theorem type_equal_false_of_field_ne (types : Types) (fuel : Nat) (a b : CType)
    (h : a.type ≠ b.type ∨ a.is_unsigned ≠ b.is_unsigned) :
    type_equal types (fuel + 1) a b = .ok false := by
  unfold type_equal
  have hne : a ≠ b := by
    rintro rfl
    rcases h with h | h <;> exact h rfl
  rw [if_neg hne, if_pos h]

/-- C14 fails on the code. `int *` is the handle of `int` with the pointer-of
bit set; its kind is pointer, the kind of `int` is int, and the signedness is the
same. `type_equal` compares the `type` fields of the handles, not their kinds,
and returns true at every recursion depth. Handles of different signedness are
told apart. -/
theorem type_equal_pointer_against_pointee :
    type_of int_ptr = T_POINTER
      ∧ type_of basic_type__int = T_INT
      ∧ type_of int_ptr ≠ type_of basic_type__int
      ∧ (∀ fuel, type_equal [] (fuel + 1) int_ptr basic_type__int = .ok true)
      ∧ (∀ fuel, type_equal [] (fuel + 1) basic_type__int int_ptr = .ok true)
      ∧ (∀ fuel, type_equal [] (fuel + 1) basic_type__unsigned_int basic_type__int
          = .ok false) :=
  ⟨rfl, rfl, by decide, fun _ => rfl, fun _ => rfl, fun _ => rfl⟩

theorem is_arithmetic_kind (a : CType) (h : is_arithmetic a = true) :
    type_of a = T_BOOL ∨ type_of a = T_CHAR ∨ type_of a = T_SHORT ∨ type_of a = T_INT
      ∨ type_of a = T_LONG ∨ type_of a = T_FLOAT ∨ type_of a = T_DOUBLE
      ∨ type_of a = T_LDOUBLE := by
  simp only [is_arithmetic, is_integer, is_float, is_double, is_long_double, Bool.or_eq_true,
    beq_iff_eq] at h
  tauto

theorem is_arithmetic_type_field (a : CType) (h : is_arithmetic a = true) :
    type_of a = a.type := by
  have hk := is_arithmetic_kind a h
  unfold type_of at hk ⊢
  split_ifs at hk ⊢ with hp
  · simp at hk
  · rfl

/-- On scalar arithmetic handles with identical qualifiers `is_compatible`
compares the kinds and nothing else. -/
theorem is_compatible_arithmetic (types : Types) (fuel : Nat) (a b : CType)
    (ha : is_arithmetic a = true)
    (hq : is_const a = is_const b ∧ is_volatile a = is_volatile b
      ∧ is_restrict a = is_restrict b) :
    is_compatible types (fuel + 1) a b = .ok (decide (type_of a = type_of b)) := by
  unfold is_compatible is_compatible_body
  by_cases hk : type_of a = type_of b
  · have hc : ¬ (type_of a ≠ type_of b ∨ is_const a ≠ is_const b
        ∨ is_volatile a ≠ is_volatile b ∨ is_restrict a ≠ is_restrict b) := by
      simp [hk, hq.1, hq.2.1, hq.2.2]
    rw [if_neg hc]
    rcases is_arithmetic_kind a ha with h | h | h | h | h | h | h | h <;>
      simp [← hk, h]
  · rw [if_pos (Or.inl hk)]
    simp [hk]

/-- On handles without a repository entry `type_equal` compares the `type`
fields and the signedness. -/
theorem type_equal_no_entry (types : Types) (fuel : Nat) (a b : CType)
    (h0a : a.ref = 0) (h0b : b.ref = 0) :
    type_equal types (fuel + 1) a b
      = .ok (decide (a.type = b.type ∧ a.is_unsigned = b.is_unsigned)) := by
  unfold type_equal
  by_cases h1 : a = b
  · subst h1
    simp
  · rw [if_neg h1]
    by_cases h2 : a.type ≠ b.type ∨ a.is_unsigned ≠ b.is_unsigned
    · rw [if_pos h2]
      have : ¬ (a.type = b.type ∧ a.is_unsigned = b.is_unsigned) := by tauto
      simp [this]
    · rw [if_neg h2]
      have : a.type = b.type ∧ a.is_unsigned = b.is_unsigned := by tauto
      simp [h0a, h0b, this]

/-- C15 fails on the code: `unsigned int` and `int` are scalar arithmetic
handles with identical (no) qualifiers; `is_compatible` returns true for them
and `type_equal` returns false. -/
theorem is_compatible_scalar_counterexample :
    is_arithmetic basic_type__unsigned_int = true
      ∧ is_arithmetic basic_type__int = true
      ∧ is_const basic_type__unsigned_int = is_const basic_type__int
      ∧ is_volatile basic_type__unsigned_int = is_volatile basic_type__int
      ∧ is_restrict basic_type__unsigned_int = is_restrict basic_type__int
      ∧ is_compatible [] 1 basic_type__unsigned_int basic_type__int = .ok true
      ∧ type_equal [] 1 basic_type__unsigned_int basic_type__int = .ok false
      ∧ ¬ (is_compatible [] 1 basic_type__unsigned_int basic_type__int = .ok true
            ↔ type_equal [] 1 basic_type__unsigned_int basic_type__int = .ok true) := by
  refine ⟨rfl, rfl, rfl, rfl, rfl, rfl, rfl, ?_⟩
  intro h
  have h2 : (Except.ok false : Except Err Bool) = .ok true := h.mp rfl
  cases h2

/-- C15 as amended. For scalar arithmetic handles `a` and `b` with identical
qualifiers: `is_compatible(a, b)` returns true exactly when the kinds are the
same, whatever the signedness; `type_equal(a, b)` true implies
`is_compatible(a, b)` true; and for handles without a repository entry
`type_equal(a, b)` is true exactly when the kinds and the signedness are the
same, so that the two coincide when `a` and `b` have the same signedness. -/
theorem is_compatible_scalar (types : Types) (fuel : Nat) (a b : CType)
    (ha : is_arithmetic a = true) (hb : is_arithmetic b = true)
    (hq : is_const a = is_const b ∧ is_volatile a = is_volatile b
      ∧ is_restrict a = is_restrict b) :
    (is_compatible types (fuel + 1) a b = .ok true ↔ type_of a = type_of b)
      ∧ (is_compatible types (fuel + 1) a b = .ok false ↔ type_of a ≠ type_of b)
      ∧ (type_equal types (fuel + 1) a b = .ok true →
          is_compatible types (fuel + 1) a b = .ok true)
      ∧ (a.ref = 0 → b.ref = 0 →
          (type_equal types (fuel + 1) a b = .ok true
            ↔ type_of a = type_of b ∧ a.is_unsigned = b.is_unsigned))
      ∧ (a.ref = 0 → b.ref = 0 → a.is_unsigned = b.is_unsigned →
          (is_compatible types (fuel + 1) a b = .ok true
            ↔ type_equal types (fuel + 1) a b = .ok true)) := by
  have hc := is_compatible_arithmetic types fuel a b ha hq
  have hta := is_arithmetic_type_field a ha
  have htb := is_arithmetic_type_field b hb
  have h1 : is_compatible types (fuel + 1) a b = .ok true ↔ type_of a = type_of b := by
    rw [hc]; simp
  have h4 : a.ref = 0 → b.ref = 0 →
      (type_equal types (fuel + 1) a b = .ok true
        ↔ type_of a = type_of b ∧ a.is_unsigned = b.is_unsigned) := by
    intro h0a h0b
    rw [type_equal_no_entry types fuel a b h0a h0b, hta, htb]
    simp
  refine ⟨h1, ?_, ?_, h4, ?_⟩
  · rw [hc]; simp
  · intro he
    rw [h1, hta, htb]
    rcases (type_equal_iff types fuel a b).mp he with h | h
    · rw [h]
    · exact h.1
  · intro h0a h0b hu
    rw [h1, h4 h0a h0b]
    tauto

/-- Witness for C15 as amended: `unsigned long` against `long`, and `long`
against `int`. -/
theorem is_compatible_scalar_witness :
    is_compatible [] (0 + 1) basic_type__unsigned_long basic_type__long = .ok true
      ∧ (is_compatible [] (0 + 1) basic_type__long basic_type__int = .ok false
          ↔ type_of basic_type__long ≠ type_of basic_type__int)
      ∧ type_equal [] 1 basic_type__unsigned_long basic_type__long = .ok false :=
  ⟨(is_compatible_scalar [] 0 basic_type__unsigned_long basic_type__long rfl rfl
      ⟨rfl, rfl, rfl⟩).1.mpr rfl,
   (is_compatible_scalar [] 0 basic_type__long basic_type__int rfl rfl
      ⟨rfl, rfl, rfl⟩).2.1,
   rfl⟩

/-! ### Creating arrays and pointers -/

/-- C16 fails on the code. `int [2^62]` has the exact size `2^62 * 4 = 2^64`,
above `LONG_MAX`, and the count fits `size_t`; the product is taken in `size_t`,
wraps to 0, and `type_create` allocates the array, whose `size_of` is then 0.
`int [2^61]`, of exact size `2^63`, is refused, and `int [3]` is created with
element count 3. -/
theorem type_create_array_wraps :
    size_of [] 1 basic_type__int = .ok 4
      ∧ 2 ^ 62 < SIZE_MOD
      ∧ LONG_MAX < 2 ^ 62 * 4
      ∧ type_create [] 1 T_ARRAY (.array basic_type__int (2 ^ 62) none)
          = .ok (wrapped_array_types, array_handle 1)
      ∧ type_array_len wrapped_array_types (array_handle 1) = .ok (2 ^ 62)
      ∧ size_of wrapped_array_types 1 (array_handle 1) = .ok 0
      ∧ type_create [] 1 T_ARRAY (.array basic_type__int (2 ^ 61) none)
          = .error .array_too_large
      ∧ type_create [] 1 T_ARRAY (.array basic_type__int 3 none)
          = .ok (int3_types, array_handle 1) := by
  refine ⟨rfl, ?_, ?_, rfl, rfl, rfl, rfl, rfl⟩
  · norm_num [SIZE_MOD]
  · norm_num [LONG_MAX]

theorem get_typetree_handle_append (types : Types) (e : typetree) (r : Nat)
    (hr : r ≤ types.length) :
    get_typetree_handle (types ++ [e]) r = get_typetree_handle types r := by
  unfold get_typetree_handle
  by_cases h0 : r = 0
  · simp [h0]
  · rw [if_neg h0, if_neg h0, List.getElem?_append_left (by omega)]

/-- C17. `type_create(T_POINTER, T)` for a handle whose pointer-of bit is clear
returns the repository as it was and `T` with the pointer-of bit set. For a
handle whose pointer-of bit is set the repository becomes the old one followed
by one entry `e` of kind pointer whose `next` is `T` without its pointer level;
the handle returned has kind pointer and refers to `e`, the entry number
`length + 1`, and every reference up to the old length reads the same entry as
before. -/
theorem type_create_pointer_allocation (types : Types) (fuel : Nat) (T : CType) :
    (T.is_pointer = false →
        type_create types fuel T_POINTER (.pointer T)
          = .ok (types, { T with is_pointer := true }))
      ∧ (T.is_pointer = true →
        ∃ e P, type_create types fuel T_POINTER (.pointer T) = .ok (types ++ [e], P)
          ∧ e.type = T_POINTER
          ∧ e.next = { remove_qualifiers T with is_pointer := false }
          ∧ P = { CType.zero with type := T_POINTER, ref := types.length + 1 }
          ∧ get_typetree_handle (types ++ [e]) P.ref = .ok e
          ∧ ∀ r, r ≤ types.length →
              get_typetree_handle (types ++ [e]) r = get_typetree_handle types r) := by
  constructor
  · intro h
    unfold type_create
    simp [h]
  · intro h
    refine ⟨{ typetree.zero with
        type := T_POINTER, is_const := is_const T, is_volatile := is_volatile T,
        next := { remove_qualifiers T with is_pointer := false } },
      { CType.zero with type := T_POINTER, ref := types.length + 1 }, ?_, rfl, rfl, rfl,
      get_typetree_handle_alloc _ _, fun r hr => get_typetree_handle_append _ _ r hr⟩
    unfold type_create
    simp only [h, if_true, alloc_type, get_typetree_handle_alloc]
    simp [set_typetree, typetree.zero]

/-- Witness for C17: `int *` is made from `int` without an entry, `int **` from
`int *` with the first entry of the repository. -/
theorem type_create_pointer_allocation_witness :
    type_create [] 1 T_POINTER (.pointer basic_type__int) = .ok ([], int_ptr)
      ∧ ∃ e P, type_create [] 1 T_POINTER (.pointer int_ptr) = .ok ([] ++ [e], P)
          ∧ e.type = T_POINTER
          ∧ e.next = { remove_qualifiers int_ptr with is_pointer := false }
          ∧ P = { CType.zero with type := T_POINTER, ref := ([] : Types).length + 1 }
          ∧ get_typetree_handle ([] ++ [e]) P.ref = .ok e
          ∧ ∀ r, r ≤ ([] : Types).length →
              get_typetree_handle ([] ++ [e]) r = get_typetree_handle [] r :=
  ⟨(type_create_pointer_allocation [] 1 basic_type__int).1 rfl,
   (type_create_pointer_allocation [] 1 int_ptr).2 rfl⟩

/-! ### Sizes and arithmetic conversion -/

theorem size_of_scalar_kind (types : Types) (fuel : Nat) (T : CType)
    (h1 : type_of T ≠ T_ARRAY) (h2 : type_of T ≠ T_STRUCT) (h3 : type_of T ≠ T_UNION) :
    size_of types fuel T = .ok (scalar_size (type_of T)) := by
  cases fuel <;> unfold size_of size_of_body <;>
    cases hk : type_of T <;> simp_all [scalar_size]

/-- C18. `size_of` for a handle `T`, by the kind `type_of(T)` and whatever the
signedness and qualifier bits of `T`: 1 for bool and char, 2 for short, 4 for int
and float, 8 for long, double and pointer, 16 for long double, 0 for void and
function; for a struct or union with entry `t` the stored `t.size`; for an array
with entry `t` whose element type has size `n` the product `t.size * n` taken in
`size_t`, which is the exact product when this fits `size_t`. -/
theorem size_of_values (types : Types) (fuel : Nat) (T : CType) :
    ((type_of T = T_BOOL ∨ type_of T = T_CHAR) → size_of types fuel T = .ok 1)
      ∧ (type_of T = T_SHORT → size_of types fuel T = .ok 2)
      ∧ ((type_of T = T_INT ∨ type_of T = T_FLOAT) → size_of types fuel T = .ok 4)
      ∧ ((type_of T = T_LONG ∨ type_of T = T_DOUBLE ∨ type_of T = T_POINTER) →
          size_of types fuel T = .ok 8)
      ∧ (type_of T = T_LDOUBLE → size_of types fuel T = .ok 16)
      ∧ ((type_of T = T_VOID ∨ type_of T = T_FUNCTION) → size_of types fuel T = .ok 0)
      ∧ ((type_of T = T_STRUCT ∨ type_of T = T_UNION) →
          ∀ t, get_typetree_handle types T.ref = .ok t → size_of types fuel T = .ok t.size)
      ∧ (type_of T = T_ARRAY →
          ∀ t n, get_typetree_handle types T.ref = .ok t →
            size_of types fuel t.next = .ok n →
              size_of types (fuel + 1) T = .ok (t.size * n % SIZE_MOD)
                ∧ (t.size * n < SIZE_MOD → size_of types (fuel + 1) T = .ok (t.size * n))) := by
  refine ⟨?_, ?_, ?_, ?_, ?_, ?_, ?_, ?_⟩
  · rintro (h | h) <;> rw [size_of_scalar_kind _ _ _ (by simp [h]) (by simp [h]) (by simp [h]), h] <;> rfl
  · intro h
    rw [size_of_scalar_kind _ _ _ (by simp [h]) (by simp [h]) (by simp [h]), h]; rfl
  · rintro (h | h) <;> rw [size_of_scalar_kind _ _ _ (by simp [h]) (by simp [h]) (by simp [h]), h] <;> rfl
  · rintro (h | h | h) <;>
      rw [size_of_scalar_kind _ _ _ (by simp [h]) (by simp [h]) (by simp [h]), h] <;> rfl
  · intro h
    rw [size_of_scalar_kind _ _ _ (by simp [h]) (by simp [h]) (by simp [h]), h]; rfl
  · rintro (h | h) <;> rw [size_of_scalar_kind _ _ _ (by simp [h]) (by simp [h]) (by simp [h]), h] <;> rfl
  · rintro (h | h) t ht <;> cases fuel <;> unfold size_of size_of_body <;> simp [h, ht]
  · intro h t n ht hn
    have hmain : size_of types (fuel + 1) T = .ok (t.size * n % SIZE_MOD) := by
      rw [size_of]
      unfold size_of_body
      simp [h, ht, hn]
    exact ⟨hmain, fun hlt => by rw [hmain, Nat.mod_eq_of_lt hlt]⟩

/-- Witness for C18: `const unsigned long` has size 8, the sealed
`struct { char a; int b; char c; }` has its stored size 12, and `int [3]` has
size `3 * 4`. -/
theorem size_of_values_witness :
    size_of [] 0 const_unsigned_long = .ok 8
      ∧ size_of abc_sealed 0 (struct_handle 1) = .ok 12
      ∧ size_of int3_types (0 + 1) (array_handle 1) = .ok (3 * 4) :=
  ⟨(size_of_values [] 0 const_unsigned_long).2.2.2.1 (Or.inl rfl),
   (size_of_values abc_sealed 0 (struct_handle 1)).2.2.2.2.2.2.1 (Or.inl rfl) _ rfl,
   ((size_of_values int3_types 0 (array_handle 1)).2.2.2.2.2.2.2 rfl _ 4 rfl rfl).2
     (by show 3 * 4 < 2 ^ 64; norm_num)⟩

theorem remove_qualifiers_facts (p : CType) :
    type_of (remove_qualifiers p) = type_of p
      ∧ is_unsigned (remove_qualifiers p) = is_unsigned p
      ∧ is_const (remove_qualifiers p) = false
      ∧ is_volatile (remove_qualifiers p) = false
      ∧ is_restrict (remove_qualifiers p) = false := by
  unfold remove_qualifiers
  split_ifs with h <;> simp [type_of, is_unsigned, is_const, is_volatile, is_restrict, h]

theorem is_integer_kind (t : CType) (h : is_integer t = true) :
    type_of t = T_BOOL ∨ type_of t = T_CHAR ∨ type_of t = T_SHORT ∨ type_of t = T_INT
      ∨ type_of t = T_LONG := by
  simp only [is_integer, Bool.or_eq_true, beq_iff_eq] at h
  tauto

theorem size_of_integer (types : Types) (fuel : Nat) (t : CType) (h : is_integer t = true) :
    size_of types fuel t = .ok (scalar_size (type_of t)) := by
  rcases is_integer_kind t h with hk | hk | hk | hk | hk <;>
    exact size_of_scalar_kind types fuel t (by simp [hk]) (by simp [hk]) (by simp [hk])

theorem promoted_facts (t : CType) (h : is_integer t = true) :
    is_integer (promoted t) = true
      ∧ scalar_size (type_of (promoted t)) = max 4 (scalar_size (type_of t))
      ∧ is_unsigned (promoted t) = (decide (4 ≤ scalar_size (type_of t)) && is_unsigned t) := by
  have hint : type_of basic_type__int = T_INT := rfl
  have huns : is_unsigned basic_type__int = false := rfl
  rcases is_integer_kind t h with hk | hk | hk | hk | hk <;>
    simp [promoted, hk, scalar_size, hint, huns, is_integer]

theorem promote_integer_eq (types : Types) (fuel : Nat) (t : CType) (h : is_integer t = true) :
    promote_integer types fuel t = .ok (promoted t) := by
  unfold promote_integer promoted
  simp only [h, Bool.not_true, Bool.false_eq_true, if_false, size_of_integer types fuel t h]
  split_ifs <;> rfl

theorem integer_conversion_eq (types : Types) (fuel : Nat) (t1 t2 : CType)
    (h1 : is_integer t1 = true) (h2 : is_integer t2 = true) :
    integer_conversion types fuel t1 t2 = .ok (integer_conversion_value t1 t2) := by
  unfold integer_conversion integer_conversion_value
  simp only [promote_integer_eq types fuel _ h1, promote_integer_eq types fuel _ h2,
    size_of_integer types fuel _ (promoted_facts t1 h1).1,
    size_of_integer types fuel _ (promoted_facts t2 h2).1]
  split_ifs <;> rfl

theorem integer_conversion_value_facts (t1 t2 : CType)
    (h1 : is_integer t1 = true) (h2 : is_integer t2 = true) :
    is_integer (integer_conversion_value t1 t2) = true
      ∧ (integer_conversion_value t1 t2 = promoted t1
          ∨ integer_conversion_value t1 t2 = promoted t2)
      ∧ scalar_size (type_of (integer_conversion_value t1 t2))
          = max 4 (max (scalar_size (type_of t1)) (scalar_size (type_of t2)))
      ∧ is_unsigned (integer_conversion_value t1 t2)
          = (if max 4 (scalar_size (type_of t1)) > max 4 (scalar_size (type_of t2)) then
              decide (4 ≤ scalar_size (type_of t1)) && is_unsigned t1
            else if max 4 (scalar_size (type_of t2)) > max 4 (scalar_size (type_of t1)) then
              decide (4 ≤ scalar_size (type_of t2)) && is_unsigned t2
            else (decide (4 ≤ scalar_size (type_of t1)) && is_unsigned t1)
              || (decide (4 ≤ scalar_size (type_of t2)) && is_unsigned t2)) := by
  obtain ⟨hi1, hs1, hu1⟩ := promoted_facts t1 h1
  obtain ⟨hi2, hs2, hu2⟩ := promoted_facts t2 h2
  unfold integer_conversion_value
  rw [← hs1, ← hs2, ← hu1, ← hu2]
  split_ifs with c1 c2 c3
  · exact ⟨hi1, Or.inl rfl, by rw [hs1, hs2] at *; omega, rfl⟩
  · exact ⟨hi2, Or.inr rfl, by rw [hs1, hs2] at *; omega, rfl⟩
  · exact ⟨hi1, Or.inl rfl, by rw [hs1, hs2] at *; omega, by simp [c3]⟩
  · exact ⟨hi2, Or.inr rfl, by rw [hs1, hs2] at *; omega, by simp [c3]⟩

theorem is_integer_not_float (t : CType) (h : is_integer t = true) :
    is_float t = false ∧ is_double t = false ∧ is_long_double t = false := by
  rcases is_integer_kind t h with hk | hk | hk | hk | hk <;>
    simp [is_float, is_double, is_long_double, hk]

/-- C19. For arithmetic operands `usual_arithmetic_conversion` returns a handle
`res` without const, volatile or restrict: `long double` if either operand is
`long double`, else `double` if either is `double`, else `float` if either is
`float`. For two integer operands of sizes `w1` and `w2`, `promote_integer` turns
each operand narrower than 4 bytes into `int` and leaves the others as they are,
`res` is one of the promoted operands without its qualifiers, an integer handle
whose size is the larger of the promoted sizes `max 4 w1` and `max 4 w2`, with
the signedness of the wider promoted operand, and unsigned on a tie exactly when
one of the promoted operands is unsigned. -/
theorem usual_arithmetic_conversion_spec (types : Types) (fuel : Nat) (t1 t2 : CType)
    (h1 : is_arithmetic t1 = true) (h2 : is_arithmetic t2 = true) :
    ∃ res, usual_arithmetic_conversion types fuel t1 t2 = .ok res
      ∧ is_const res = false ∧ is_volatile res = false ∧ is_restrict res = false
      ∧ ((is_long_double t1 = true ∨ is_long_double t2 = true) →
          res = basic_type__long_double)
      ∧ (is_long_double t1 = false → is_long_double t2 = false →
          (is_double t1 = true ∨ is_double t2 = true) → res = basic_type__double)
      ∧ (is_long_double t1 = false → is_long_double t2 = false →
          is_double t1 = false → is_double t2 = false →
          (is_float t1 = true ∨ is_float t2 = true) → res = basic_type__float)
      ∧ (is_integer t1 = true → is_integer t2 = true →
          ∃ w1 w2 p1 p2, size_of types fuel t1 = .ok w1 ∧ size_of types fuel t2 = .ok w2
            ∧ promote_integer types fuel t1 = .ok p1
            ∧ promote_integer types fuel t2 = .ok p2
            ∧ p1 = (if w1 < 4 then basic_type__int else t1)
            ∧ p2 = (if w2 < 4 then basic_type__int else t2)
            ∧ (res = remove_qualifiers p1 ∨ res = remove_qualifiers p2)
            ∧ is_integer res = true
            ∧ size_of types fuel res = .ok (max 4 (max w1 w2))
            ∧ is_unsigned res
                = (if max 4 w1 > max 4 w2 then decide (4 ≤ w1) && is_unsigned t1
                  else if max 4 w2 > max 4 w1 then decide (4 ≤ w2) && is_unsigned t2
                  else (decide (4 ≤ w1) && is_unsigned t1)
                    || (decide (4 ≤ w2) && is_unsigned t2))) := by
  have hq := remove_qualifiers_facts
  have hnf := is_integer_not_float
  by_cases hl : is_long_double t1 = true ∨ is_long_double t2 = true
  · refine ⟨remove_qualifiers basic_type__long_double, ?_, (hq _).2.2.1, (hq _).2.2.2.1,
      (hq _).2.2.2.2, fun _ => rfl, ?_, ?_, ?_⟩
    · unfold usual_arithmetic_conversion
      rcases hl with hl | hl <;> simp [h1, h2, hl]
    · intro a b; rcases hl with hl | hl <;> simp [hl] at a b
    · intro a b; rcases hl with hl | hl <;> simp [hl] at a b
    · intro a b
      exfalso
      rcases hl with hl | hl
      · have h := (hnf t1 a).2.2; rw [hl] at h; cases h
      · have h := (hnf t2 b).2.2; rw [hl] at h; cases h
  · have hl1 : is_long_double t1 = false := by
      cases h : is_long_double t1 <;> simp_all
    have hl2 : is_long_double t2 = false := by
      cases h : is_long_double t2 <;> simp_all
    by_cases hd : is_double t1 = true ∨ is_double t2 = true
    · refine ⟨remove_qualifiers basic_type__double, ?_, (hq _).2.2.1, (hq _).2.2.2.1,
        (hq _).2.2.2.2, fun h => absurd h hl, fun _ _ _ => rfl, ?_, ?_⟩
      · unfold usual_arithmetic_conversion
        rcases hd with hd | hd <;> simp [h1, h2, hl1, hl2, hd]
      · intro _ _ a b; rcases hd with hd | hd <;> simp [hd] at a b
      · intro a b
        exfalso
        rcases hd with hd | hd
        · have h := (hnf t1 a).2.1; rw [hd] at h; cases h
        · have h := (hnf t2 b).2.1; rw [hd] at h; cases h
    · have hd1 : is_double t1 = false := by
        cases h : is_double t1 <;> simp_all
      have hd2 : is_double t2 = false := by
        cases h : is_double t2 <;> simp_all
      by_cases hf : is_float t1 = true ∨ is_float t2 = true
      · refine ⟨remove_qualifiers basic_type__float, ?_, (hq _).2.2.1, (hq _).2.2.2.1,
          (hq _).2.2.2.2, fun h => absurd h hl, fun _ _ h => absurd h hd,
          fun _ _ _ _ _ => rfl, ?_⟩
        · unfold usual_arithmetic_conversion
          rcases hf with hf | hf <;> simp [h1, h2, hl1, hl2, hd1, hd2, hf]
        · intro a b
          exfalso
          rcases hf with hf | hf
          · have h := (hnf t1 a).1; rw [hf] at h; cases h
          · have h := (hnf t2 b).1; rw [hf] at h; cases h
      · have hf1 : is_float t1 = false := by
          cases h : is_float t1 <;> simp_all
        have hf2 : is_float t2 = false := by
          cases h : is_float t2 <;> simp_all
        have hi1 : is_integer t1 = true := by
          simpa [is_arithmetic, hl1, hd1, hf1] using h1
        have hi2 : is_integer t2 = true := by
          simpa [is_arithmetic, hl2, hd2, hf2] using h2
        obtain ⟨hv1, hv2, hv3, hv4⟩ := integer_conversion_value_facts t1 t2 hi1 hi2
        refine ⟨remove_qualifiers (integer_conversion_value t1 t2), ?_, (hq _).2.2.1,
          (hq _).2.2.2.1, (hq _).2.2.2.2, fun h => absurd h hl, fun _ _ h => absurd h hd,
          fun _ _ _ _ h => absurd h hf, ?_⟩
        · unfold usual_arithmetic_conversion
          simp [h1, h2, hl1, hl2, hd1, hd2, hf1, hf2,
            integer_conversion_eq types fuel t1 t2 hi1 hi2]
        · intro _ _
          have hir : is_integer (remove_qualifiers (integer_conversion_value t1 t2)) = true := by
            unfold is_integer at hv1 ⊢
            rw [(hq _).1]
            exact hv1
          refine ⟨_, _, _, _, size_of_integer types fuel t1 hi1,
            size_of_integer types fuel t2 hi2, promote_integer_eq types fuel t1 hi1,
            promote_integer_eq types fuel t2 hi2, rfl, rfl, ?_, hir, ?_, ?_⟩
          · rcases hv2 with h | h
            · exact Or.inl (by rw [h])
            · exact Or.inr (by rw [h])
          · rw [size_of_integer types fuel _ hir, (hq _).1, hv3]
          · rw [(hq _).2.1, hv4]

/-- Witness for C19: `unsigned char` with `short` gives `int`, `unsigned int`
with `long` gives `long`, `int` with `const unsigned int` gives `unsigned int`,
and `float` with `long` gives `float`. -/
theorem usual_arithmetic_conversion_spec_witness :
    (∃ res, usual_arithmetic_conversion [] 0 basic_type__float basic_type__long = .ok res
      ∧ is_const res = false ∧ is_volatile res = false ∧ is_restrict res = false)
      ∧ usual_arithmetic_conversion [] 0 basic_type__unsigned_char basic_type__short
          = .ok basic_type__int
      ∧ usual_arithmetic_conversion [] 0 basic_type__unsigned_int basic_type__long
          = .ok basic_type__long
      ∧ usual_arithmetic_conversion [] 0 basic_type__int
          (type_set_const basic_type__unsigned_int) = .ok basic_type__unsigned_int
      ∧ usual_arithmetic_conversion [] 0 basic_type__float basic_type__long
          = .ok basic_type__float :=
  ⟨(usual_arithmetic_conversion_spec [] 0 basic_type__float basic_type__long rfl rfl).imp
      (fun _ h => ⟨h.1, h.2.1, h.2.2.1, h.2.2.2.1⟩),
   rfl, rfl, rfl, rfl⟩

/-! ### Sealing and named members -/

theorem drop_eraseIdx_le {α : Type} :
    ∀ (l : List α) (h i : Nat), h ≤ i → (l.eraseIdx i).drop h = (l.drop h).eraseIdx (i - h) := by
  intro l
  induction l with
  | nil => intro h i _; simp
  | cons x l ih =>
    intro h i hle
    cases h with
    | zero => simp
    | succ h =>
      cases i with
      | zero => omega
      | succ i =>
        simp only [List.eraseIdx_cons_succ, List.drop_succ_cons]
        rw [ih h i (by omega)]
        congr 1
        omega

theorem take_eraseIdx_lt {α : Type} :
    ∀ (l : List α) (j c : Nat), j < c → (l.eraseIdx j).take (c - 1) = (l.take c).eraseIdx j := by
  intro l
  induction l with
  | nil => intro j c _; simp
  | cons x l ih =>
    intro j c hlt
    cases c with
    | zero => omega
    | succ c =>
      cases j with
      | zero => simp
      | succ j =>
        have hc : c = (c - 1) + 1 := by omega
        simp only [List.eraseIdx_cons_succ, List.take_succ_cons, Nat.add_sub_cancel]
        rw [hc, List.take_succ_cons, ← hc, ih j c (by omega)]

theorem take_eraseIdx_ge {α : Type} :
    ∀ (l : List α) (j c : Nat), c ≤ j → (l.eraseIdx j).take c = l.take c := by
  intro l
  induction l with
  | nil => intro j c _; simp
  | cons x l ih =>
    intro j c hle
    cases c with
    | zero => simp
    | succ c =>
      cases j with
      | zero => omega
      | succ j =>
        simp only [List.eraseIdx_cons_succ, List.take_succ_cons]
        rw [ih j c (by omega)]

theorem drop_eraseIdx_gt {α : Type} :
    ∀ (l : List α) (h i : Nat), i < h → i < l.length →
      (l.eraseIdx i).drop (h - 1) = l.drop h := by
  intro l
  induction l with
  | nil => intro h i _ hl; simp at hl
  | cons x l ih =>
    intro h i hlt hl
    cases h with
    | zero => omega
    | succ h =>
      cases i with
      | zero => simp
      | succ i =>
        have hh : h = (h - 1) + 1 := by omega
        simp only [List.eraseIdx_cons_succ, Nat.add_sub_cancel, List.drop_succ_cons]
        rw [hh, List.drop_succ_cons, ← hh]
        exact ih h i (by omega) (by simpa using hl)

/-- C28. For a definition whose block windows lie inside the statement array
and a valid index `i`, `statement_array_erase(def, i)` returns; the statement
array is the old one without element `i`; a block whose window contains `i`
keeps its head, loses one from its count, and its window holds the old
statements without the erased one; a block whose head is greater than `i` has
its head decreased by one, keeps its count, and its window holds the same
statements; every other block is unchanged and its window holds the same
statements; every window still lies inside the statement array. -/
theorem statement_array_erase_blocks (d : Definition) (i : Int)
    (hw : ∀ b ∈ d.nodes, window_inside d b)
    (h0 : 0 ≤ i) (hlt : i < d.statements.length) :
    ∃ d', statement_array_erase d i = .ok d'
      ∧ d'.statements = d.statements.eraseIdx i.toNat
      ∧ d'.nodes.length = d.nodes.length
      ∧ ∀ (k : Nat) (b : Block), d.nodes[k]? = some b →
          ∃ b', d'.nodes[k]? = some b' ∧ b'.label = b.label
            ∧ window_inside d' b'
            ∧ (b.head ≤ i ∧ i < b.head + b.count →
                b'.head = b.head ∧ b'.count = b.count - 1
                  ∧ block_code d' b' = (block_code d b).eraseIdx (i - b.head).toNat)
            ∧ (i < b.head →
                b'.head = b.head - 1 ∧ b'.count = b.count
                  ∧ block_code d' b' = block_code d b)
            ∧ (b.head + b.count ≤ i → b' = b ∧ block_code d' b' = block_code d b) := by
  refine ⟨_, statement_array_erase_ok d i h0 hlt, rfl, by simp, ?_⟩
  intro k b hb
  obtain ⟨w0, wc, win⟩ := hw b (List.getElem?_mem hb)
  have hi : i.toNat < d.statements.length := by omega
  have hlen : (d.statements.eraseIdx i.toNat).length = d.statements.length - 1 := by
    simp only [List.length_eraseIdx, hi, if_true]
  refine ⟨erase_adjust i b, by simp [hb], ?_, ?_, ?_, ?_, ?_⟩
  · unfold erase_adjust
    split_ifs <;> rfl
  · unfold window_inside
    dsimp only
    rw [hlen]
    unfold erase_adjust
    split_ifs <;> (try dsimp only) <;> omega
  · rintro ⟨h1, h2⟩
    have e : erase_adjust i b = { b with count := b.count - 1 } :=
      erase_adjust_inside i b h1 h2
    rw [e]
    refine ⟨rfl, rfl, ?_⟩
    unfold block_code
    dsimp only
    rw [drop_eraseIdx_le _ _ _ (by omega)]
    have e1 : (b.count - 1).toNat = b.count.toNat - 1 := by omega
    have e2 : i.toNat - b.head.toNat = (i - b.head).toNat := by omega
    rw [e1, e2, take_eraseIdx_lt _ _ _ (by omega)]
  · intro h1
    have e : erase_adjust i b = { b with head := b.head - 1 } := by
      unfold erase_adjust
      rw [if_neg (by omega), if_neg (by omega), if_pos h1]
    rw [e]
    refine ⟨rfl, rfl, ?_⟩
    unfold block_code
    dsimp only
    have e1 : (b.head - 1).toNat = b.head.toNat - 1 := by omega
    rw [e1, drop_eraseIdx_gt _ _ _ (by omega) hi]
  · intro h1
    have e : erase_adjust i b = b := by
      unfold erase_adjust
      split_ifs with c1 c2 c3
      · rfl
      · omega
      · omega
      · rfl
    rw [e]
    refine ⟨rfl, ?_⟩
    unfold block_code
    dsimp only
    rw [drop_eraseIdx_le _ _ _ (by omega), take_eraseIdx_ge _ _ _ (by omega)]

/-- Witness for C28: erasing statement 1 of the two-block sample; the first
block loses its second statement, the second block moves down by one. -/
theorem statement_array_erase_blocks_witness :
    ∃ d', statement_array_erase sample_def 1 = .ok d'
      ∧ d'.statements = sample_def.statements.eraseIdx 1
      ∧ d'.nodes = [⟨0, 0, 1⟩, ⟨1, 1, 2⟩] := by
  obtain ⟨d', h1, h2, _, _⟩ := statement_array_erase_blocks sample_def 1
    (by
      intro b hb
      have hb' : b ∈ [(⟨0, 0, 2⟩ : Block), ⟨1, 2, 2⟩] := hb
      simp only [List.mem_cons, List.mem_singleton, List.not_mem_nil, or_false] at hb'
      rcases hb' with rfl | rfl <;> exact ⟨by decide, by decide, by decide⟩)
    (by decide) (by decide)
  refine ⟨d', h1, h2, ?_⟩
  have h3 : statement_array_erase sample_def 1
      = .ok { statements := sample_def.statements.eraseIdx 1,
              nodes := [⟨0, 0, 1⟩, ⟨1, 1, 2⟩] } := rfl
  rw [h3] at h1
  cases h1
  rfl

/-! ### Pointers to pointers -/

/-- C29 fails on the code: for `T = int *`, whose pointer-of bit is set,
`type_create(T_POINTER, T)` returns a handle of kind pointer with the pointer-of
bit clear that refers to an entry of kind pointer, but the `next` handle of that
entry is `int` with the pointer-of bit clear, not set. -/
theorem type_create_pointer_next_counterexample :
    int_ptr.is_pointer = true
      ∧ type_create [] 1 T_POINTER (.pointer int_ptr) = .ok ([int_ptr_entry], int_ptr_ptr)
      ∧ type_of int_ptr_ptr = T_POINTER
      ∧ int_ptr_ptr.is_pointer = false
      ∧ get_typetree_handle [int_ptr_entry] int_ptr_ptr.ref = .ok int_ptr_entry
      ∧ int_ptr_entry.type = T_POINTER
      ∧ ¬ (int_ptr_entry.next.is_pointer = true) := by
  refine ⟨rfl, rfl, rfl, rfl, rfl, rfl, ?_⟩
  decide

/-- C29 as amended. For every handle `T` whose pointer-of bit is set,
`type_create(T_POINTER, T)` returns a handle `P` of kind pointer whose own
pointer-of bit is clear and which refers to a new entry `e` of kind pointer; the
`next` handle of `e` is `T` without its pointer layer, with the pointer-of bit
clear and the base qualifiers of `T`, and `e` holds the const and volatile bits
of the pointer layer of `T`; `get_type_handle` on that entry gives back a handle
with the pointer-of bit set, which is what `type_deref(P)` returns. -/
theorem type_create_pointer_to_pointer (types : Types) (fuel : Nat) (T : CType)
    (h : T.is_pointer = true) :
    ∃ e P, type_create types fuel T_POINTER (.pointer T) = .ok (types ++ [e], P)
      ∧ type_of P = T_POINTER
      ∧ P.is_pointer = false
      ∧ get_typetree_handle (types ++ [e]) P.ref = .ok e
      ∧ e.type = T_POINTER
      ∧ e.next.is_pointer = false
      ∧ e.next = { T with is_pointer := false, is_pointer_const := false,
                          is_pointer_volatile := false, is_pointer_restrict := false }
      ∧ e.is_const = T.is_pointer_const
      ∧ e.is_volatile = T.is_pointer_volatile
      ∧ (∃ D, get_type_handle (types ++ [e]) P.ref = .ok D ∧ D.is_pointer = true
          ∧ type_deref (types ++ [e]) P = .ok D
          ∧ D = { T with is_pointer_restrict := false }) := by
  refine ⟨{ typetree.zero with
      type := T_POINTER, is_const := is_const T, is_volatile := is_volatile T,
      next := { remove_qualifiers T with is_pointer := false } },
    { CType.zero with type := T_POINTER, ref := types.length + 1 }, ?_, rfl, rfl,
    get_typetree_handle_alloc _ _, rfl, rfl, ?_, ?_, ?_, ?_⟩
  · unfold type_create
    simp only [h, if_true, alloc_type, get_typetree_handle_alloc]
    simp [set_typetree, typetree.zero]
  · simp [remove_qualifiers, h]
  · simp [is_const, h]
  · simp [is_volatile, h]
  · refine ⟨{ T with is_pointer_restrict := false }, ?_, h, ?_, rfl⟩
    · unfold get_type_handle
      simp only [get_typetree_handle_alloc]
      cases T
      simp_all [CType.zero, remove_qualifiers, is_const, is_volatile, typetree.zero]
    · unfold type_deref get_type_handle
      simp only [get_typetree_handle_alloc]
      cases T
      simp_all [is_pointer, type_of, CType.zero, remove_qualifiers, is_const, is_volatile,
        typetree.zero]

/-- Witness for C29 as amended: `int **` made from `int *`. -/
theorem type_create_pointer_to_pointer_witness :
    ∃ e P, type_create [] 1 T_POINTER (.pointer int_ptr) = .ok ([] ++ [e], P)
      ∧ type_of P = T_POINTER
      ∧ P.is_pointer = false
      ∧ get_typetree_handle ([] ++ [e]) P.ref = .ok e
      ∧ e.type = T_POINTER
      ∧ e.next.is_pointer = false :=
  (type_create_pointer_to_pointer [] 1 int_ptr rfl).imp
    (fun _ h => h.imp (fun _ g => ⟨g.1, g.2.1, g.2.2.1, g.2.2.2.1, g.2.2.2.2.1, g.2.2.2.2.2.1⟩))

/-! ### Dead stores with side effects -/

/-- C24 fails on the code: in the block `[x = t + a; t = f()]`, where only `x` is
live, `t = f()` is a dead store whose call has side effects. The pass turns it
into the EXPR statement `f()` and returns 1; the first statement is not a dead
store, stays as it is and still references `t`. -/
theorem dead_store_side_effect_counterexample :
    is_dead_store sample_env (st_call sym_t sym_f) = true
      ∧ sample_env.has_side_effects (st_call sym_t sym_f).expr = true
      ∧ dead_store_elimination sample_env 3 reads_def 0 = .ok (reads_def_after, 1)
      ∧ statement_references (st_add sym_x sym_t sym_a) sym_t = true
      ∧ ¬ (∀ st ∈ block_code reads_def_after ⟨0, 0, 2⟩,
            statement_references st sym_t = false) := by
  refine ⟨rfl, rfl, rfl, rfl, ?_⟩
  intro h
  have h1 := h (st_add sym_x sym_t sym_a) (List.mem_cons_self _ _)
  have h2 : statement_references (st_add sym_x sym_t sym_a) sym_t = true := rfl
  rw [h2] at h1
  cases h1

/-- C24 as amended. When the window of the block holds `pre ++ st :: post`,
where `st` is a dead store (ASSIGN, DIRECT target `t` of linkage `LINK_NONE`, not
live after `st`) whose expression has side effects, the pass returns and the
window then holds the results of `pre`, the statement `st` turned into an EXPR
statement with the same expression, and the results of `post`, in this order.
The EXPR statement has no target and references a symbol exactly when an operand
of its expression does. Every other statement of the window that is not a dead
store is still in the window, unchanged, with the references it had. -/
theorem dead_store_side_effect (env : Env) (d : Definition) (bi : Nat) (b : Block)
    (pre post : List Statement) (st : Statement)
    (hb : d.nodes[bi]? = some b) (hw : window_inside d b)
    (hcode : block_code d b = pre ++ st :: post)
    (hdead : is_dead_store env st = true) (hse : env.has_side_effects st.expr = true)
    (fuel : Nat) (hf : b.count < fuel) :
    ∃ d' b' c, dead_store_elimination env fuel d bi = .ok (d', c)
      ∧ d'.nodes[bi]? = some b'
      ∧ block_code d' b'
          = pre.filterMap (dead_store_result env)
            ++ { st := IR_EXPR, t := st.t, expr := st.expr }
              :: post.filterMap (dead_store_result env)
      ∧ statement_target { st := IR_EXPR, t := st.t, expr := st.expr } = none
      ∧ (∀ s, statement_references { st := IR_EXPR, t := st.t, expr := st.expr } s
          = (var_references st.expr.l s || var_references st.expr.r s))
      ∧ (∀ o ∈ pre ++ post, is_dead_store env o = false → o ∈ block_code d' b') := by
  obtain ⟨d', b', h1, h2, _, _, _, h6, _⟩ :=
    dead_store_elimination_run env d bi b hb hw fuel hf
  have hst : dead_store_result env st = some { st := IR_EXPR, t := st.t, expr := st.expr } := by
    simp [dead_store_result, hdead, hse]
  have hcode' : block_code d' b'
      = pre.filterMap (dead_store_result env)
        ++ { st := IR_EXPR, t := st.t, expr := st.expr }
          :: post.filterMap (dead_store_result env) := by
    rw [h6, hcode, List.filterMap_append, List.filterMap_cons, hst]
  refine ⟨d', b', _, h1, h2, hcode', ?_, ?_, ?_⟩
  · simp [statement_target]
  · intro s
    simp [statement_references, statement_target]
  · intro o ho hnd
    have hres : dead_store_result env o = some o := by
      simp [dead_store_result, hnd]
    rw [hcode']
    rcases List.mem_append.mp ho with hin | hin
    · exact List.mem_append_left _ (List.mem_filterMap.mpr ⟨o, hin, hres⟩)
    · exact List.mem_append_right _
        (List.mem_cons_of_mem _ (List.mem_filterMap.mpr ⟨o, hin, hres⟩))

/-- Witness for C24 as amended: the second block `[t = f(); x = a + b]` of the
sample. -/
theorem dead_store_side_effect_witness :
    ∃ d' b' c, dead_store_elimination sample_env 3 sample_def 1 = .ok (d', c)
      ∧ d'.nodes[1]? = some b'
      ∧ block_code d' b'
          = [{ st := IR_EXPR, t := int_var sym_t, expr := (st_call sym_t sym_f).expr },
             st_add sym_x sym_a sym_b] := by
  obtain ⟨d', b', c, h1, h2, h3, _⟩ := dead_store_side_effect sample_env sample_def 1
    ⟨1, 2, 2⟩ [] [st_add sym_x sym_a sym_b] (st_call sym_t sym_f) rfl
    ⟨by decide, by decide, by decide⟩ rfl rfl rfl 3 (by decide)
  exact ⟨d', b', c, h1, h2, h3⟩

/-! ### Error gating in the driver -/

theorem main_loop_trace {W Def : Type} (drv : Driver W Def) :
    ∀ (fuel : Nat) (w : W),
      ∃ ds tail, (main_loop drv fuel w).1 = handled_events ds ++ tail
        ∧ (tail = [] ∧ (main_loop drv fuel w).2.2 = false
          ∨ tail = [.end_of_input]
          ∨ ∃ d e, e ≠ 0 ∧ tail = [.parsed d e, .aborted]) := by
  intro fuel
  induction fuel with
  | zero =>
    intro w
    exact ⟨[], [], rfl, Or.inl ⟨rfl, rfl⟩⟩
  | succ fuel ih =>
    intro w
    unfold main_loop
    cases hp : drv.parse w with
    | mk od w1 =>
      cases od with
      | none => exact ⟨[], [.end_of_input], rfl, Or.inr (Or.inl rfl)⟩
      | some d =>
        dsimp only
        by_cases he : drv.errors w1 ≠ 0
        · rw [if_pos he]
          exact ⟨[], _, rfl, Or.inr (Or.inr ⟨d, _, he, rfl⟩)⟩
        · rw [if_neg he]
          obtain ⟨ds, tail, h1, h2⟩ := ih (drv.compile d (drv.optimize d w1))
          have h0 : drv.errors w1 = 0 := by
            by_contra hne
            exact he hne
          refine ⟨d :: ds, tail, ?_, ?_⟩
          · dsimp only
            rw [h1, h0]
            rfl
          · exact h2

theorem handled_events_parsed {Def : Type} (ds : List Def) (d : Def) (e : Int)
    (h : DriverEvent.parsed d e ∈ handled_events ds) : e = 0 := by
  induction ds with
  | nil => cases h
  | cons x ds ih =>
    simp only [handled_events, List.mem_cons] at h
    rcases h with h | h | h | h
    · cases h; rfl
    · cases h
    · cases h
    · exact ih h

theorem handled_events_mem {Def : Type} (ds : List Def) (d : Def)
    (h : DriverEvent.optimized d ∈ handled_events ds ∨ DriverEvent.compiled d ∈ handled_events ds) :
    d ∈ ds := by
  induction ds with
  | nil => rcases h with h | h <;> cases h
  | cons x ds ih =>
    simp only [handled_events, List.mem_cons] at h
    rcases h with (h | h | h | h) | (h | h | h | h)
    · cases h
    · cases h; exact List.mem_cons_self _ _
    · cases h
    · exact List.mem_cons_of_mem _ (ih (Or.inl h))
    · cases h
    · cases h
    · cases h; exact List.mem_cons_self _ _
    · exact List.mem_cons_of_mem _ (ih (Or.inr h))

/-- C27. The events of the loop of `main`, for every choice of the abstract
steps, every start state and every number of iterations run: first the
definitions `ds` that went through the loop body, each as "parsed with
`context.errors` equal to 0, optimized, compiled"; then nothing more (the run is
still inside the loop), or the end of the input, or one definition parsed with a
nonzero counter followed by the abort. So a definition is optimized or compiled
only when it is one of `ds`, and after a parse that leaves the counter nonzero
nothing is optimized, compiled or parsed any more. -/
theorem main_error_gating {W Def : Type} (drv : Driver W Def) (fuel : Nat) (w : W) :
    ∃ ds tail, (main_loop drv fuel w).1 = handled_events ds ++ tail
      ∧ (tail = [] ∧ (main_loop drv fuel w).2.2 = false
        ∨ tail = [.end_of_input]
        ∨ ∃ d e, e ≠ 0 ∧ tail = [.parsed d e, .aborted])
      ∧ (∀ d, DriverEvent.optimized d ∈ (main_loop drv fuel w).1 → d ∈ ds)
      ∧ (∀ d, DriverEvent.compiled d ∈ (main_loop drv fuel w).1 → d ∈ ds)
      ∧ (∀ d e, DriverEvent.parsed d e ∈ (main_loop drv fuel w).1 → e ≠ 0 →
          tail = [.parsed d e, .aborted]) := by
  obtain ⟨ds, tail, h1, h2⟩ := main_loop_trace drv fuel w
  refine ⟨ds, tail, h1, h2, ?_, ?_, ?_⟩
  · intro d hd
    rw [h1, List.mem_append] at hd
    rcases hd with hd | hd
    · exact handled_events_mem ds d (Or.inl hd)
    · rcases h2 with ⟨rfl, _⟩ | rfl | ⟨d', e', _, rfl⟩ <;> simp at hd
  · intro d hd
    rw [h1, List.mem_append] at hd
    rcases hd with hd | hd
    · exact handled_events_mem ds d (Or.inr hd)
    · rcases h2 with ⟨rfl, _⟩ | rfl | ⟨d', e', _, rfl⟩ <;> simp at hd
  · intro d e hd hne
    rw [h1, List.mem_append] at hd
    rcases hd with hd | hd
    · exact absurd (handled_events_parsed ds d e hd) hne
    · rcases h2 with ⟨rfl, _⟩ | rfl | ⟨d', e', _, rfl⟩
      · simp at hd
      · simp at hd
      · simp only [List.mem_cons, DriverEvent.parsed.injEq, List.mem_singleton,
          List.not_mem_nil, or_false] at hd
        rcases hd with ⟨rfl, rfl⟩ | hd
        · rfl
        · cases hd

/-- Witness for C27: the input `2, 4, 3, 6` with a clean counter. Definitions 2
and 4 are optimized and compiled; parsing 3 leaves the counter at 1, the loop
aborts, and 6 is never parsed. -/
theorem main_error_gating_witness :
    (main_loop sample_driver 10 (0, [2, 4, 3, 6])).1
        = handled_events [2, 4] ++ [.parsed 3 1, .aborted]
      ∧ (∀ d, DriverEvent.optimized d ∈ (main_loop sample_driver 10 (0, [2, 4, 3, 6])).1 →
          d ∈ [2, 4]) := by
  obtain ⟨ds, tail, h1, _, h3, _, h5⟩ := main_error_gating sample_driver 10 (0, [2, 4, 3, 6])
  have htrace : (main_loop sample_driver 10 (0, [2, 4, 3, 6])).1
      = handled_events [2, 4] ++ [.parsed 3 1, .aborted] := by decide
  refine ⟨htrace, ?_⟩
  intro d hd
  rw [htrace] at hd
  simp [handled_events] at hd
  rcases hd with rfl | rfl <;> simp

/-! ### The general run of `merge_chained_assignment` -/

theorem merge_list_length_le (env : Env) :
    ∀ (rest : List Statement) (s1 : Statement),
      1 ≤ (merge_list env s1 rest).length
        ∧ (merge_list env s1 rest).length ≤ rest.length + 1 := by
  intro rest
  induction rest with
  | nil => intro s1; simp [merge_list]
  | cons s2 rest ih =>
    intro s1
    unfold merge_list
    split
    · have := ih { s1 with t := s2.t }
      simp only [List.length_cons]
      omega
    · have := ih s2
      simp only [List.length_cons]
      omega

theorem merge_loop_spec (env : Env) (bi : Nat) :
    ∀ (rest : List Statement) (fuel : Nat) (d : Definition) (b : Block)
      (pre done post : List Statement) (c : Int) (s1 : Statement),
      d.nodes[bi]? = some b →
      d.statements = pre ++ done ++ s1 :: (rest ++ post) →
      b.head = pre.length → b.count = (done.length : Int) + 1 + rest.length →
      rest.length < fuel →
      merge_defined env s1 rest = true →
      ∃ d', merge_loop env bi fuel d ((done.length : Int) + 1) c s1
            = .ok (d', c + ((rest.length : Int) + 1 - (merge_list env s1 rest).length))
        ∧ d'.statements = pre ++ done ++ merge_list env s1 rest ++ post
        ∧ d'.nodes[bi]? = some { b with
            count := (done.length : Int) + (merge_list env s1 rest).length }
        ∧ ((merge_list env s1 rest).length = rest.length + 1 → d' = d) := by
  intro rest
  induction rest with
  | nil =>
    intro fuel d b pre done post c s1 hb hs hh hc hf _
    obtain ⟨f, rfl⟩ : ∃ f, fuel = f + 1 := ⟨fuel - 1, by simp at hf; omega⟩
    refine ⟨d, ?_, by simpa [merge_list] using hs, ?_, fun _ => rfl⟩
    · unfold merge_loop
      simp only [get_block, hb, bind, Except.bind]
      rw [if_neg (by simp at hc; omega)]
      simp [merge_list]
    · rw [hb]
      cases b
      simp [merge_list] at hc ⊢
      omega
  | cons s2 rest ih =>
    intro fuel d b pre done post c s1 hb hs hh hc hf hdef
    obtain ⟨f, rfl⟩ : ∃ f, fuel = f + 1 := ⟨fuel - 1, by simp at hf; omega⟩
    have hf' : rest.length < f := by simp at hf; omega
    simp only [List.length_cons, Nat.cast_add, Nat.cast_one] at hc
    have hs2 : d.statements = (pre ++ done ++ [s1]) ++ s2 :: (rest ++ post) := by
      rw [hs]; simp
    have hget : array_get d.statements (b.head + ((done.length : Int) + 1)) = .ok s2 := by
      rw [hs2]; exact array_get_mid _ _ _ _ (by rw [hh]; simp; try omega)
    cases hcm : can_merge env s1 s2 with
    | error e => simp [merge_defined, hcm] at hdef
    | ok r =>
      cases r with
      | true =>
        have hdef' : merge_defined env { s1 with t := s2.t } rest = true := by
          simpa [merge_defined, hcm] using hdef
        have hml : merge_list env s1 (s2 :: rest) = merge_list env { s1 with t := s2.t } rest := by
          simp [merge_list, hcm]
        have hset : array_set d.statements (b.head + ((done.length : Int) + 1) - 1)
            { s1 with t := s2.t }
            = .ok ((pre ++ done) ++ { s1 with t := s2.t } :: (s2 :: rest ++ post)) := by
          rw [hs]; exact array_set_mid _ _ _ _ _ (by rw [hh]; simp; try omega)
        have hers := statement_array_erase_mid
          { d with statements := (pre ++ done) ++ { s1 with t := s2.t } :: (s2 :: rest ++ post) }
          ((pre ++ done) ++ [{ s1 with t := s2.t }]) s2 (rest ++ post)
          (b.head + ((done.length : Int) + 1)) (by simp)
          (by rw [hh]; simp; try omega)
        have hb1 : (d.nodes.map (erase_adjust (b.head + ((done.length : Int) + 1))))[bi]?
            = some { b with count := b.count - 1 } := by
          rw [List.getElem?_map, hb]
          simp only [Option.map_some', Option.some.injEq]
          exact erase_adjust_inside _ _ (by omega) (by omega)
        have hget1 : array_get (((pre ++ done) ++ [{ s1 with t := s2.t }]) ++ (rest ++ post))
            (b.head + ((done.length : Int) + 1) - 1) = .ok { s1 with t := s2.t } := by
          have e : ((pre ++ done) ++ [{ s1 with t := s2.t }]) ++ (rest ++ post)
              = (pre ++ done) ++ { s1 with t := s2.t } :: (rest ++ post) := by simp
          rw [e]; exact array_get_mid _ _ _ _ (by rw [hh]; simp; try omega)
        obtain ⟨d', h1, h2, h3, _⟩ := ih f
          { statements := ((pre ++ done) ++ [{ s1 with t := s2.t }]) ++ (rest ++ post),
            nodes := d.nodes.map (erase_adjust (b.head + ((done.length : Int) + 1))) }
          { b with count := b.count - 1 } pre done post (c + 1) { s1 with t := s2.t } hb1
          (by simp) hh (by simp; omega) hf' hdef'
        have hlen := merge_list_length_le env rest { s1 with t := s2.t }
        refine ⟨d', ?_, ?_, ?_, ?_⟩
        · unfold merge_loop
          simp only [get_block, hb, bind, Except.bind]
          rw [if_pos (by omega)]
          simp only [hget, hcm, if_true, hset, hers, hb1, hget1]
          rw [h1, hml]
          simp only [List.length_cons, Nat.cast_add, Nat.cast_one]
          congr 2
          omega
        · rw [h2, hml]
        · rw [h3, hml]
        · intro hfull
          rw [hml] at hfull
          simp only [List.length_cons] at hfull
          omega
      | false =>
        have hdef' : merge_defined env s2 rest = true := by
          simpa [merge_defined, hcm] using hdef
        have hml : merge_list env s1 (s2 :: rest) = s1 :: merge_list env s2 rest := by
          simp [merge_list, hcm]
        obtain ⟨d', h1, h2, h3, h4⟩ := ih f d b pre (done ++ [s1]) post c s2 hb
          (by rw [hs]; simp) hh (by simp; omega) hf' hdef'
        have hlen := merge_list_length_le env rest s2
        refine ⟨d', ?_, ?_, ?_, ?_⟩
        · unfold merge_loop
          simp only [get_block, hb, bind, Except.bind]
          rw [if_pos (by omega)]
          simp only [hget, hcm, Bool.false_eq_true, if_false]
          simp only [List.length_append, List.length_singleton, Nat.cast_add,
            Nat.cast_one] at h1
          rw [h1, hml]
          simp only [List.length_cons, Nat.cast_add, Nat.cast_one]
          congr 2
          omega
        · rw [h2, hml]; simp
        · rw [h3, hml]
          have e : (((done ++ [s1]).length : Nat) : Int) + (merge_list env s2 rest).length
              = (done.length : Int) + ((s1 :: merge_list env s2 rest).length : Nat) := by
            simp only [List.length_append, List.length_singleton, List.length_cons,
              List.length_nil, Nat.cast_add, Nat.cast_one, Nat.cast_zero]
            omega
          rw [e]
        · intro hfull
          rw [hml] at hfull
          simp only [List.length_cons] at hfull
          exact h4 (by omega)

theorem and_then_eq_true (a b : Except Err Bool) :
    and_then a b = .ok true ↔ a = .ok true ∧ b = .ok true := by
  unfold and_then
  cases a with
  | error e => simp
  | ok r => cases r <;> simp

theorem can_merge_iff_chain_link (env : Env) (s1 s2 : Statement) :
    can_merge env s1 s2 = .ok true ↔ chain_link env s1 s2 := by
  constructor
  · intro h
    simp only [can_merge, and_then_eq_true, Except.ok.injEq, Bool.and_eq_true, beq_iff_eq,
      Bool.not_eq_true'] at h
    obtain ⟨h1, h2, h3, h4, h5, ⟨⟨h6, h7⟩, h8⟩, h9⟩ := h
    exact ⟨h1, h2, h3, h4, h5, h6, h8, h7, h9⟩
  · exact can_merge_of_chain_link env s1 s2

theorem merge_code_of_no_link (env : Env) :
    ∀ (code : List Statement),
      List.Chain' (fun s1 s2 => ¬ chain_link env s1 s2) code → merge_code env code = code := by
  intro code
  cases code with
  | nil => intro _; rfl
  | cons s rest =>
    intro h
    show merge_list env s rest = s :: rest
    induction rest generalizing s with
    | nil => rfl
    | cons s2 rest ih =>
      rw [List.chain'_cons] at h
      have hne : can_merge env s s2 ≠ .ok true :=
        fun hc => h.1 ((can_merge_iff_chain_link env s s2).mp hc)
      unfold merge_list
      split
      · rename_i heq
        exact absurd heq hne
      · rw [ih s2 h.2]

/-- The run of `merge_chained_assignment` on a block whose window lies inside
the statement array, when every call of `can_merge` returns. -/
theorem merge_chained_assignment_run (env : Env) (d : Definition) (bi : Nat) (b : Block)
    (hb : d.nodes[bi]? = some b) (hw : window_inside d b)
    (hdef : merge_code_defined env (block_code d b) = true)
    (fuel : Nat) (hf : b.count ≤ fuel) :
    ∃ d' b', merge_chained_assignment env fuel d bi
          = .ok (d', ((block_code d b).length : Int)
                      - (merge_code env (block_code d b)).length)
      ∧ d'.nodes[bi]? = some b' ∧ b'.head = b.head ∧ b'.label = b.label
      ∧ b'.count = (merge_code env (block_code d b)).length
      ∧ block_code d' b' = merge_code env (block_code d b)
      ∧ d'.statements = d.statements.take b.head.toNat
          ++ merge_code env (block_code d b)
          ++ d.statements.drop (b.head + b.count).toNat
      ∧ ((merge_code env (block_code d b)).length = (block_code d b).length → d' = d) := by
  obtain ⟨hs, hh, hc⟩ := block_code_split d b hw
  simp only [List.append_nil, List.length_nil, Nat.cast_zero, zero_add] at hs hc
  cases hcode : block_code d b with
  | nil =>
    rw [hcode] at hs hc
    have hcount : b.count = 0 := by simpa using hc
    refine ⟨d, b, ?_, hb, rfl, rfl, by simp [merge_code, hcount], ?_, ?_, fun _ => rfl⟩
    · unfold merge_chained_assignment
      simp only [get_block, hb, bind, Except.bind]
      rw [if_pos (by omega)]
      simp [merge_code]
    · rw [hcode]; rfl
    · simpa [merge_code] using hs
  | cons s0 rest =>
    rw [hcode] at hs hc hdef
    simp only [List.length_cons, Nat.cast_add, Nat.cast_one] at hc
    cases rest with
    | nil =>
      have hcount : b.count = 1 := by simpa using hc
      refine ⟨d, b, ?_, hb, rfl, rfl, by simp [merge_code, merge_list, hcount], ?_, ?_,
        fun _ => rfl⟩
      · unfold merge_chained_assignment
        simp only [get_block, hb, bind, Except.bind]
        rw [if_pos (by omega)]
        simp [merge_code, merge_list]
      · rw [hcode]; rfl
      · simpa [merge_code, merge_list] using hs
    | cons s1 rest =>
      have hs' : d.statements = d.statements.take b.head.toNat ++ []
          ++ s0 :: ((s1 :: rest) ++ d.statements.drop (b.head + b.count).toNat) := by
        conv_lhs => rw [hs]
        simp
      obtain ⟨d', h1, h2, h3, h4⟩ := merge_loop_spec env bi (s1 :: rest) fuel d b _ [] _ 0 s0
        hb hs' hh (by simp only [List.length_nil, Nat.cast_zero]; omega)
        (by simp only [List.length_cons] at hc ⊢; omega) hdef
      simp only [List.length_nil, Nat.cast_zero, zero_add, List.append_nil] at h1 h2 h3
      refine ⟨d', _, ?_, h3, rfl, rfl, rfl, ?_, ?_, ?_⟩
      · unfold merge_chained_assignment
        simp only [get_block, hb, bind, Except.bind]
        rw [if_neg (by simp only [List.length_cons, Nat.cast_add, Nat.cast_one] at hc; omega)]
        have hget : array_get d.statements b.head = .ok s0 := by
          conv_lhs => rw [hs']
          exact array_get_mid _ _ _ _ (by simpa using hh)
        simp only [hget, h1, merge_code, List.length_cons, Nat.cast_add, Nat.cast_one]
      · exact block_code_of_split d' _ _ (merge_code env (s0 :: s1 :: rest))
          (d.statements.drop (b.head + b.count).toNat)
          (by rw [h2]; simp [merge_code]) hh (by simp [merge_code])
      · rw [h2]; simp [merge_code]
      · intro hfull
        exact h4 (by simpa [merge_code] using hfull)

/-- The count of merges. On a block of `def.nodes` whose window lies inside the
statement array, when every call of `can_merge` returns,
`merge_chained_assignment` returns a count `c >= 0`; the statement array is
then shorter by `c`, the block keeps its
head and its count is smaller by `c`, and `c` is the number of statements that
were merged into their predecessor. When the block has at most one statement, or
no two adjacent statements of the block satisfy the merge conditions, the count
is 0 and the definition (statement array and blocks) is unchanged. -/
theorem merge_chained_assignment_count (env : Env) (d : Definition) (bi : Nat) (b : Block)
    (hb : d.nodes[bi]? = some b) (hw : window_inside d b)
    (hdef : merge_code_defined env (block_code d b) = true)
    (fuel : Nat) (hf : b.count ≤ fuel) :
    ∃ d' b' c, merge_chained_assignment env fuel d bi = .ok (d', c)
      ∧ 0 ≤ c
      ∧ (d'.statements.length : Int) = d.statements.length - c
      ∧ d'.nodes[bi]? = some b' ∧ b'.head = b.head
      ∧ b'.count = b.count - c
      ∧ block_code d' b' = merge_code env (block_code d b)
      ∧ c = ((block_code d b).length : Int) - (block_code d' b').length
      ∧ (b.count ≤ 1 → c = 0 ∧ d' = d)
      ∧ (List.Chain' (fun s1 s2 => ¬ chain_link env s1 s2) (block_code d b) →
          c = 0 ∧ d' = d) := by
  obtain ⟨d', b', h1, h2, h3, _, h5, h6, h7, h8⟩ :=
    merge_chained_assignment_run env d bi b hb hw hdef fuel hf
  obtain ⟨hs, hh, hc⟩ := block_code_split d b hw
  simp only [List.append_nil, List.length_nil, Nat.cast_zero, zero_add] at hs hc
  have hle : (merge_code env (block_code d b)).length ≤ (block_code d b).length := by
    cases hcode : block_code d b with
    | nil => simp [merge_code]
    | cons s rest =>
      have := (merge_list_length_le env rest s).2
      simpa [merge_code] using this
  have hlen : (d.statements.length : Int)
      = (d.statements.take b.head.toNat).length + (block_code d b).length
        + (d.statements.drop (b.head + b.count).toNat).length := by
    conv_lhs => rw [hs]
    simp only [List.length_append, Nat.cast_add]
  have hunchanged : merge_code env (block_code d b) = block_code d b →
      ((block_code d b).length : Int) - (merge_code env (block_code d b)).length = 0
        ∧ d' = d := by
    intro e
    exact ⟨by rw [e]; omega, h8 (by rw [e])⟩
  refine ⟨d', b', _, h1, by omega, ?_, h2, h3, by rw [h5]; omega, h6, by rw [h6], ?_, ?_⟩
  · rw [h7, hlen]
    simp only [List.length_append, Nat.cast_add]
    omega
  · intro hcount
    apply hunchanged
    cases hcode : block_code d b with
    | nil => rfl
    | cons s rest =>
      cases rest with
      | nil => rfl
      | cons s2 rest =>
        rw [hcode] at hc
        simp only [List.length_cons, Nat.cast_add, Nat.cast_one] at hc
        omega
  · intro hno
    exact hunchanged (merge_code_of_no_link env _ hno)

/-- The count of merges in the sample: the block `[t = a + b; x = t]` gives one
merge and the block `[t = f(); x = a + b]`, whose second statement is not an
identity, gives none. -/
theorem merge_chained_assignment_count_witness :
    (∃ d' b' c, merge_chained_assignment sample_env 2 sample_def 0 = .ok (d', c)
        ∧ 0 ≤ c
        ∧ (d'.statements.length : Int) = sample_def.statements.length - c
        ∧ d'.nodes[0]? = some b' ∧ b'.head = (0 : Int)
        ∧ b'.count = 2 - c)
      ∧ merge_chained_assignment sample_env 2 sample_def 0
          = .ok ({ statements := [st_add sym_x sym_a sym_b, st_call sym_t sym_f,
                                  st_add sym_x sym_a sym_b],
                   nodes := [⟨0, 0, 1⟩, ⟨1, 1, 2⟩] }, 1)
      ∧ merge_chained_assignment sample_env 2 sample_def 1 = .ok (sample_def, 0) := by
  obtain ⟨d', b', c, h1, h2, h3, h4, h5, h6, _⟩ :=
    merge_chained_assignment_count sample_env sample_def 0 ⟨0, 0, 2⟩ rfl
      ⟨by decide, by decide, by decide⟩ rfl 2 (by decide)
  exact ⟨⟨d', b', c, h1, h2, h3, h4, h5, h6⟩, rfl, rfl⟩

/-! ### The passes keep the order of the statements -/

theorem merge_list_expr_sublist (env : Env) :
    ∀ (rest : List Statement) (s1 : Statement),
      List.Sublist ((merge_list env s1 rest).map (fun s => s.expr))
        ((s1 :: rest).map (fun s => s.expr)) := by
  intro rest
  induction rest with
  | nil => intro s1; simp [merge_list]
  | cons s2 rest ih =>
    intro s1
    unfold merge_list
    split
    · have h := ih { s1 with t := s2.t }
      simp only [List.map_cons] at h ⊢
      exact h.trans (List.Sublist.cons₂ _ (List.sublist_cons_self _ _))
    · simp only [List.map_cons]
      exact List.Sublist.cons₂ _ (by simpa using ih s2)

theorem merge_code_expr_sublist (env : Env) (code : List Statement) :
    List.Sublist ((merge_code env code).map (fun s => s.expr))
      (code.map (fun s => s.expr)) := by
  cases code with
  | nil => simp [merge_code]
  | cons s rest => exact merge_list_expr_sublist env rest s

theorem dead_store_expr_sublist (env : Env) (code : List Statement) :
    List.Sublist ((code.filterMap (dead_store_result env)).map (fun s => s.expr))
      (code.map (fun s => s.expr)) := by
  induction code with
  | nil => simp
  | cons s rest ih =>
    rw [List.filterMap_cons]
    unfold dead_store_result
    split_ifs
    · simp only [List.map_cons]
      exact List.Sublist.cons₂ _ ih
    · simp only [List.map_cons]
      exact List.Sublist.cons _ ih
    · simp only [List.map_cons]
      exact List.Sublist.cons₂ _ ih

/-- C26. On a block of `def.nodes` whose window lies inside the statement array
both passes return (for `merge_chained_assignment`: when every call of
`can_merge` returns), and the sequence of the expressions of the statement array
after the pass is a subsequence of the sequence before the pass: statements are
erased or have their target or kind rewritten, none is moved or duplicated. -/
theorem passes_keep_statement_order (env : Env) (d : Definition) (bi : Nat) (b : Block)
    (hb : d.nodes[bi]? = some b) (hw : window_inside d b) (fuel : Nat) (hf : b.count < fuel) :
    (merge_code_defined env (block_code d b) = true →
        ∃ d' c, merge_chained_assignment env fuel d bi = .ok (d', c)
          ∧ List.Sublist (d'.statements.map (fun s => s.expr))
              (d.statements.map (fun s => s.expr)))
      ∧ ∃ d' c, dead_store_elimination env fuel d bi = .ok (d', c)
          ∧ List.Sublist (d'.statements.map (fun s => s.expr))
              (d.statements.map (fun s => s.expr)) := by
  obtain ⟨hs, _, _⟩ := block_code_split d b hw
  simp only [List.append_nil] at hs
  constructor
  · intro hdef
    obtain ⟨d', b', h1, _, _, _, _, _, h7, _⟩ :=
      merge_chained_assignment_run env d bi b hb hw hdef fuel (by omega)
    refine ⟨d', _, h1, ?_⟩
    rw [h7]
    conv_rhs => rw [hs]
    simp only [List.map_append]
    exact List.Sublist.append
      (List.Sublist.append (List.Sublist.refl _) (merge_code_expr_sublist env _))
      (List.Sublist.refl _)
  · obtain ⟨d', b', h1, _, _, _, _, _, h7⟩ :=
      dead_store_elimination_run env d bi b hb hw fuel hf
    refine ⟨d', _, h1, ?_⟩
    rw [h7]
    conv_rhs => rw [hs]
    simp only [List.map_append]
    exact List.Sublist.append
      (List.Sublist.append (List.Sublist.refl _) (dead_store_expr_sublist env _))
      (List.Sublist.refl _)

/-- Witness for C26: both passes on the first block of the sample. -/
theorem passes_keep_statement_order_witness :
    (∃ d' c, merge_chained_assignment sample_env 3 sample_def 0 = .ok (d', c)
        ∧ List.Sublist (d'.statements.map (fun s => s.expr))
            (sample_def.statements.map (fun s => s.expr)))
      ∧ ∃ d' c, dead_store_elimination sample_env 3 sample_def 0 = .ok (d', c)
          ∧ List.Sublist (d'.statements.map (fun s => s.expr))
              (sample_def.statements.map (fun s => s.expr)) :=
  ⟨(passes_keep_statement_order sample_env sample_def 0 ⟨0, 0, 2⟩ rfl
      ⟨by decide, by decide, by decide⟩ 3 (by decide)).1 rfl,
   (passes_keep_statement_order sample_env sample_def 0 ⟨0, 0, 2⟩ rfl
      ⟨by decide, by decide, by decide⟩ 3 (by decide)).2⟩

/-! ### Flexible array members -/

/-- What `adjust_member_alignment` returns on an aggregate: for a struct whose
new member type has a computed, non-zero alignment the entry with its size
padded, and the padded size; for a union the repository as it was, and 0. -/
theorem adjust_member_alignment_forward (types : Types) (fuel : Nat) (parent type : CType)
    (t : typetree) (hsu : is_struct_or_union parent = true)
    (ht : get_typetree_handle types parent.ref = .ok t)
    (hal : is_struct parent = true →
      ∃ al, al ≠ 0 ∧ type_alignment types fuel type = .ok al) :
    ∃ r s, adjust_member_alignment types fuel parent type = .ok r
      ∧ r.1 = set_typetree types parent.ref { t with size := s }
      ∧ (is_struct parent = false → s = t.size ∧ r.2 = 0)
      ∧ (is_struct parent = true → r.2 = s) := by
  have hself : set_typetree types parent.ref { t with size := t.size } = types :=
    set_typetree_self types parent.ref _ (by rw [ht])
  unfold adjust_member_alignment
  simp only [hsu, Bool.not_true, Bool.false_eq_true, if_false]
  by_cases hs : is_struct parent = true
  · obtain ⟨al, ha, hv⟩ := hal hs
    have hd : al ∣ 16 := by
      rcases type_alignment_values types fuel type al hv with h0 | hd
      · exact absurd h0 ha
      · exact hd
    simp only [hs, if_true, ht, hv, ha, if_false]
    by_cases hm : t.size % al = 0
    · refine ⟨(types, t.size), t.size, by simp [hm], hself.symm, ?_, fun _ => rfl⟩
      intro hn; cases hn
    · refine ⟨(_, (t.size + (al - t.size % al)) % SIZE_MOD),
        (t.size + (al - t.size % al)) % SIZE_MOD, ?_, rfl, ?_, fun _ => rfl⟩
      · simp [hm, round_up_size_mod t.size al ha hd, set_typetree]
      · intro hn; cases hn
  · have hs' : is_struct parent = false := by
      cases h : is_struct parent
      · rfl
      · exact absurd h hs
    refine ⟨(types, 0), t.size, by simp [hs'], hself.symm, fun _ => ⟨rfl, rfl⟩, ?_⟩
    intro h; rw [hs'] at h; cases h

/-- `add_member` on a struct or union, for a member not called `...`: the
duplicate test, then the block for aggregates on the entry with the member
pushed. -/
theorem add_member_unfold (types : Types) (fuel : Nat) (parent : CType) (m : member)
    (t : typetree) (hsu : is_struct_or_union parent = true)
    (ht : get_typetree_handle types parent.ref = .ok t) (hname : m.name ≠ "...") :
    add_member types fuel parent m
      = if m.name.length ≠ 0 ∧ (t.members.find? (fun x => m.name == x.name)).isSome = true
        then .error .member_exists
        else
          match add_member_aggregate types fuel parent m
              { t with members := t.members ++ [m] } with
          | .error e => .error e
          | .ok t' => .ok (set_typetree types parent.ref t') := by
  have hnf : is_function parent = false := by
    rcases type_of_struct_or_union parent hsu with hk | hk <;> simp [is_function, hk]
  unfold add_member
  simp only [hsu, Bool.true_or, Bool.not_true, Bool.false_eq_true, if_false, ht, hname,
    find_type_member]
  by_cases hl : m.name.length ≠ 0
  · simp only [hl, ne_eq, not_false_eq_true, if_true, true_and]
    cases hf : (t.members.find? (fun x => m.name == x.name)) with
    | none => simp
    | some x => simp
  · simp [hl]

theorem add_member_aggregate_unfold (types : Types) (fuel : Nat) (parent : CType)
    (m : member) (t : typetree) (sz : Nat)
    (hsz : ∀ e, size_of (set_typetree types parent.ref e) fuel m.type = .ok sz) :
    add_member_aggregate types fuel parent m t
      = match check_incomplete sz m t with
        | .error e => .error e
        | .ok t1 =>
          match is_flexible (set_typetree types parent.ref t1) m.type with
          | .error e => .error e
          | .ok fl =>
            match check_flexible fl parent t1 with
            | .error e => .error e
            | .ok t2 => grow_size m sz t2 := by
  unfold add_member_aggregate
  simp only [hsz, bind, Except.bind]
  cases check_incomplete sz m t with
  | error e => rfl
  | ok t1 =>
    dsimp only
    cases is_flexible (set_typetree types parent.ref t1) m.type with
    | error e => rfl
    | ok fl =>
      dsimp only
      cases check_flexible fl parent t1 with
      | error e => rfl
      | ok t2 => rfl

theorem grow_size_cases (m : member) (sz : Nat) (t : typetree) :
    (∃ t', grow_size m sz t = .ok t') ∨ grow_size m sz t = .error .object_too_large := by
  unfold grow_size
  split_ifs
  · exact Or.inr rfl
  · exact Or.inl ⟨_, rfl⟩
  · exact Or.inl ⟨_, rfl⟩

theorem field_kind_facts (type : CType)
    (hk : type_of type = T_INT ∨ type_of type = T_BOOL) :
    type_of type ≠ T_ARRAY ∧ type_of type ≠ T_STRUCT ∧ type_of type ≠ T_UNION
      ∧ type_of type ≠ T_FUNCTION
      ∧ scalar_size (type_of type) ≠ 0
      ∧ scalar_size (type_of type) ≤ 4
      ∧ (is_bool type = true → scalar_size (type_of type) = 1)
      ∧ (is_bool type = false → scalar_size (type_of type) = 4)
      ∧ type.is_pointer = false := by
  have hp : type.is_pointer = false := by
    cases h : type.is_pointer
    · rfl
    · simp [type_of, h] at hk
  rcases hk with hk | hk <;> simp [hk, scalar_size, is_bool, hp]

theorem type_alignment_field_kind (types : Types) (fuel : Nat) (type : CType)
    (hk : type_of type = T_INT ∨ type_of type = T_BOOL) :
    type_alignment types fuel type = .ok (scalar_size (type_of type)) := by
  obtain ⟨h1, h2, h3, h4, _⟩ := field_kind_facts type hk
  have ho : is_object type = true := by simp [is_object, is_function, h4]
  cases fuel <;>
    (unfold type_alignment type_alignment_body
     rcases hk with hk | hk <;>
       simp [ho, hk, size_of_scalar_kind _ _ type h1 h2 h3])

theorem is_flexible_field_kind (types : Types) (type : CType)
    (hk : type_of type = T_INT ∨ type_of type = T_BOOL) :
    is_flexible types type = .ok false := by
  rcases hk with hk | hk <;> simp [is_flexible, is_struct_or_union, is_struct, is_union, hk]

/-- `add_member` of a member of type `int`, `unsigned int` or `_Bool` to a
struct or union either returns or ends with one of its two fatal errors. -/
theorem add_member_field_kind (types : Types) (fuel : Nat) (parent : CType) (m : member)
    (t : typetree) (hsu : is_struct_or_union parent = true)
    (ht : get_typetree_handle types parent.ref = .ok t) (hname : m.name ≠ "...")
    (hk : type_of m.type = T_INT ∨ type_of m.type = T_BOOL) :
    (∃ types', add_member types fuel parent m = .ok types')
      ∨ add_member types fuel parent m = .error .member_exists
      ∨ add_member types fuel parent m = .error .object_too_large := by
  obtain ⟨h1, h2, h3, _, h5, _⟩ := field_kind_facts m.type hk
  rw [add_member_unfold types fuel parent m t hsu ht hname]
  split_ifs
  · exact Or.inr (Or.inl rfl)
  · rw [add_member_aggregate_unfold types fuel parent m _ (scalar_size (type_of m.type))
      (fun e => size_of_scalar_kind _ _ _ h1 h2 h3)]
    simp only [check_incomplete, h5, if_false, is_flexible_field_kind _ _ hk, check_flexible,
      Bool.false_eq_true]
    rcases grow_size_cases m (scalar_size (type_of m.type))
        { t with members := t.members ++ [m] } with ⟨t', h⟩ | h
    · rw [h]; exact Or.inl ⟨_, rfl⟩
    · rw [h]; exact Or.inr (Or.inr rfl)

/-- `place_field` returns on a struct or union with a valid entry, for a field of
type `int`, `unsigned int` or `_Bool`; it leaves the member list as it was and
changes nothing of the new member but its position. -/
theorem place_field_returns (types : Types) (fuel : Nat) (parent type : CType) (m : member)
    (t : typetree) (hsu : is_struct_or_union parent = true)
    (ht : get_typetree_handle types parent.ref = .ok t)
    (hk : type_of type = T_INT ∨ type_of type = T_BOOL) :
    ∃ r t1, place_field types fuel parent type m = .ok r
      ∧ get_typetree_handle r.1 parent.ref = .ok t1
      ∧ t1.members = t.members
      ∧ r.2.name = m.name ∧ r.2.type = m.type ∧ r.2.field_width = m.field_width := by
  unfold place_field
  by_cases hs : is_struct parent = true
  · simp only [hs, if_true, ht]
    have hal : is_struct parent = true →
        ∃ al, al ≠ 0 ∧ type_alignment types fuel type = .ok al :=
      fun _ => ⟨_, (field_kind_facts type hk).2.2.2.2.1, type_alignment_field_kind types fuel type hk⟩
    obtain ⟨r, s, hadj, hr1, _, _⟩ :=
      adjust_member_alignment_forward types fuel parent type t hsu ht hal
    have hg : get_typetree_handle r.1 parent.ref = .ok { t with size := s } := by
      rw [hr1]; exact get_set_same _ _ _ _ ht
    cases hl : get_last_field_member t with
    | none =>
      simp only [hadj]
      exact ⟨_, _, rfl, hg, rfl, rfl, rfl, rfl⟩
    | some prev =>
      simp only [pack_field, size_of_int]
      split_ifs
      · exact ⟨_, _, rfl, ht, rfl, rfl, rfl, rfl⟩
      · simp only [hadj]
        exact ⟨_, _, rfl, hg, rfl, rfl, rfl, rfl⟩
  · simp only [hs, Bool.false_eq_true, if_false]
    exact ⟨_, _, rfl, ht, rfl, rfl, rfl, rfl⟩

theorem field_type_allowed_field_kind (types : Types) (fuel : Nat) (type : CType)
    (hk : type_of type = T_INT ∨ type_of type = T_BOOL) (href : type.ref = 0) :
    field_type_allowed types (fuel + 1) type = .ok true := by
  have hp := (field_kind_facts type hk).2.2.2.2.2.2.2.2
  have hty : type_of type = type.type := by simp [type_of, hp]
  unfold field_type_allowed
  rw [type_equal_no_entry types fuel type basic_type__int href rfl,
    type_equal_no_entry types fuel type basic_type__unsigned_int href rfl]
  rcases hk with hk | hk
  · rw [hty] at hk
    cases hu : type.is_unsigned <;>
      simp [hk, hu, basic_type__int, basic_type__unsigned_int, CType.zero]
  · have hb : is_bool type = true := by simp [is_bool, hk]
    rw [hty] at hk
    simp [hk, hb, basic_type__int, basic_type__unsigned_int, CType.zero]

/-- A field of non-zero width that passes the validation is placed and handed to
`add_member`. -/
theorem type_add_field_nonzero (fuel : Nat) (types : Types) (parent : CType) (name : String)
    (type : CType) (width : Nat) (t : typetree)
    (hsu : is_struct_or_union parent = true)
    (ht : get_typetree_handle types parent.ref = .ok t)
    (hk : type_of type = T_INT ∨ type_of type = T_BOOL) (href : type.ref = 0)
    (hname : name ≠ "...")
    (hw : ¬ (width > 8 * scalar_size (type_of type) ∨ (is_bool type = true ∧ width > 1)))
    (hw0 : width ≠ 0) (hnamed : ¬ (is_union parent = true ∧ name.length = 0)) :
    placed_outcome (type_add_field (fuel + 1) types parent name type width) := by
  obtain ⟨h1, h2, h3, _, _, h6, _⟩ := field_kind_facts type hk
  have hw' : ¬ (width > scalar_size (type_of type) * 8 % SIZE_MOD
      ∨ (is_bool type = true ∧ width > 1)) := by
    have e : scalar_size (type_of type) * 8 % SIZE_MOD = 8 * scalar_size (type_of type) := by
      rw [Nat.mod_eq_of_lt (by unfold SIZE_MOD; omega)]
      omega
    rw [e]
    exact hw
  obtain ⟨r, t1, hpl, hg, _, hn, hty, _⟩ := place_field_returns types (fuel + 1) parent type
    { member.zero with name := name, type := type, field_width := width } t hsu ht hk
  unfold type_add_field
  simp only [hsu, Bool.not_true, Bool.false_eq_true, if_false,
    field_type_allowed_field_kind types fuel type hk href,
    size_of_scalar_kind types (fuel + 1) type h1 h2 h3, hw', hw0, and_false, hnamed, hpl]
  exact add_member_field_kind r.1 (fuel + 1) parent r.2 t1 hsu hg (by rw [hn]; exact hname)
    (by rw [hty]; exact hk)

/-- `reset_field_alignment` on a struct with a valid entry returns, unless the
padding field it adds makes the object too large. -/
theorem reset_field_alignment_outcome (fuel : Nat) (types : Types) (parent : CType)
    (t : typetree) (hs : is_struct parent = true)
    (ht : get_typetree_handle types parent.ref = .ok t) :
    placed_outcome (reset_field_alignment (type_add_field (fuel + 1)) types parent) := by
  obtain ⟨hsu, hu, _⟩ := is_struct_facts parent hs
  unfold reset_field_alignment
  simp only [hs, Bool.not_true, Bool.false_eq_true, if_false, ht, bind, Except.bind, pure,
    Except.pure]
  cases hl : t.members.getLast? with
  | none => exact Or.inl ⟨_, rfl⟩
  | some m =>
    dsimp only
    split_ifs with h1 h2 h3
    · exact type_add_field_nonzero fuel types parent "" basic_type__int _ t hsu ht
        (Or.inl rfl) rfl (by decide)
        (by
          have e : scalar_size (type_of basic_type__int) = 4 := rfl
          have b : is_bool basic_type__int = false := rfl
          rw [e, b]
          simp)
        (by omega) (by simp [hu])
    · exact Or.inl ⟨_, rfl⟩
    · exact Or.inl ⟨_, rfl⟩
    · exact Or.inl ⟨_, rfl⟩

/-- C21 fails on the code: `struct { int a:3; int a:4; }`. The second field has
width 4, within the 32 bits of `int`, is not a `_Bool` and is named with a
non-zero width, yet `type_add_field` ends with the fatal error of `add_member`,
"Member 'a' already exists". -/
theorem type_add_field_duplicate_counterexample :
    size_of bits_a 2 basic_type__int = .ok 4
      ∧ ¬ (4 > 8 * 4)
      ∧ is_bool basic_type__int = false
      ∧ ¬ ("a".length ≠ 0 ∧ 4 = 0)
      ∧ type_add_field 2 empty_struct (struct_handle 1) "a" basic_type__int 3 = .ok bits_a
      ∧ type_add_field 2 bits_a (struct_handle 1) "a" basic_type__int 4
          = .error .member_exists := by
  refine ⟨rfl, by decide, rfl, by decide, rfl, rfl⟩

theorem type_add_field_unfold (fuel : Nat) (types : Types) (parent : CType)
    (name : String) (type : CType) (width : Nat)
    (hsu : is_struct_or_union parent = true)
    (hk : type_of type = T_INT ∨ type_of type = T_BOOL) (href : type.ref = 0) :
    type_add_field (fuel + 2) types parent name type width
      = if width > 8 * scalar_size (type_of type) ∨ (is_bool type = true ∧ width > 1) then
          .error .field_width
        else if name.length ≠ 0 ∧ width = 0 then .error .zero_length_field
        else if is_union parent = true ∧ name.length = 0 then .ok types
        else
          match place_field types (fuel + 2) parent type
              { member.zero with name := name, type := type, field_width := width } with
          | .error e => .error e
          | .ok r =>
            if width = 0 then reset_field_alignment (type_add_field (fuel + 1)) r.1 parent
            else add_member r.1 (fuel + 2) parent r.2 := by
  obtain ⟨h1, h2, h3, _, _, h6, _⟩ := field_kind_facts type hk
  have hmod : scalar_size (type_of type) * 8 % SIZE_MOD = 8 * scalar_size (type_of type) := by
    rw [Nat.mod_eq_of_lt (by unfold SIZE_MOD; omega)]
    omega
  rw [type_add_field]
  simp only [hsu, Bool.not_true, Bool.false_eq_true, if_false,
    field_type_allowed_field_kind types (fuel + 1) type hk href,
    size_of_scalar_kind types (fuel + 1 + 1) type h1 h2 h3, hmod]

/-- C21 as amended. For a struct or union and a field type `int`, `unsigned int`
or `_Bool` of size `sz`: `type_add_field` ends with the fatal error "width
exceeds" when `width > 8 * sz` or the type is `_Bool` and `width > 1`, and
otherwise with "zero length field" when the field is named and `width = 0`; both
are raised whatever the repository holds, before the entry of the parent is read
or written. When the entry of the parent is valid these are the only inputs with
these two errors, and in every other case the call returns unless `add_member`
ends with one of its own fatal errors, "member already exists" or "object is too
large". -/
theorem type_add_field_validation (fuel : Nat) (types : Types) (parent : CType)
    (name : String) (type : CType) (width : Nat)
    (hsu : is_struct_or_union parent = true)
    (hk : type_of type = T_INT ∨ type_of type = T_BOOL) (href : type.ref = 0) :
    size_of types (fuel + 2) type = .ok (scalar_size (type_of type))
      ∧ ((width > 8 * scalar_size (type_of type) ∨ (is_bool type = true ∧ width > 1)) →
          type_add_field (fuel + 2) types parent name type width = .error .field_width)
      ∧ (¬ (width > 8 * scalar_size (type_of type) ∨ (is_bool type = true ∧ width > 1)) →
          name.length ≠ 0 → width = 0 →
          type_add_field (fuel + 2) types parent name type width = .error .zero_length_field)
      ∧ (∀ t, get_typetree_handle types parent.ref = .ok t → name ≠ "..." →
          ¬ (width > 8 * scalar_size (type_of type) ∨ (is_bool type = true ∧ width > 1)) →
          ¬ (name.length ≠ 0 ∧ width = 0) →
          placed_outcome (type_add_field (fuel + 2) types parent name type width))
      ∧ (∀ t, get_typetree_handle types parent.ref = .ok t → name ≠ "..." →
          ((type_add_field (fuel + 2) types parent name type width = .error .field_width
              ↔ (width > 8 * scalar_size (type_of type)
                  ∨ (is_bool type = true ∧ width > 1)))
            ∧ (type_add_field (fuel + 2) types parent name type width
                  = .error .zero_length_field
              ↔ ¬ (width > 8 * scalar_size (type_of type)
                    ∨ (is_bool type = true ∧ width > 1))
                  ∧ name.length ≠ 0 ∧ width = 0))) := by
  obtain ⟨h1, h2, h3, _, _, h6, _⟩ := field_kind_facts type hk
  have hun := type_add_field_unfold fuel types parent name type width hsu hk href
  have hA : (width > 8 * scalar_size (type_of type) ∨ (is_bool type = true ∧ width > 1)) →
      type_add_field (fuel + 2) types parent name type width = .error .field_width := by
    intro h
    rw [hun, if_pos h]
  have hB : ¬ (width > 8 * scalar_size (type_of type) ∨ (is_bool type = true ∧ width > 1)) →
      name.length ≠ 0 → width = 0 →
      type_add_field (fuel + 2) types parent name type width = .error .zero_length_field := by
    intro h hn hw
    rw [hun, if_neg h, if_pos ⟨hn, hw⟩]
  have hC : ∀ t, get_typetree_handle types parent.ref = .ok t → name ≠ "..." →
      ¬ (width > 8 * scalar_size (type_of type) ∨ (is_bool type = true ∧ width > 1)) →
      ¬ (name.length ≠ 0 ∧ width = 0) →
      placed_outcome (type_add_field (fuel + 2) types parent name type width) := by
    intro t ht hname hw hz
    by_cases hu : is_union parent = true ∧ name.length = 0
    · refine Or.inl ⟨types, ?_⟩
      rw [hun, if_neg hw, if_neg hz, if_pos hu]
    · by_cases hw0 : width = 0
      · have hs : is_struct parent = true := by
          have hnl : name.length = 0 := by
            by_contra hne
            exact hz ⟨hne, hw0⟩
          have hnu : is_union parent = false := by
            cases h : is_union parent
            · rfl
            · exact absurd ⟨h, hnl⟩ hu
          simpa [is_struct_or_union, hnu] using hsu
        obtain ⟨r, t1, hpl, hg, _⟩ := place_field_returns types (fuel + 2) parent type
          { member.zero with name := name, type := type, field_width := width } t hsu ht hk
        have hres := reset_field_alignment_outcome fuel r.1 parent t1 hs hg
        rw [hun, if_neg hw, if_neg hz, if_neg hu, hpl]
        dsimp only
        rw [if_pos hw0]
        exact hres
      · exact type_add_field_nonzero (fuel + 1) types parent name type width t hsu ht hk
          href hname hw hw0 hu
  refine ⟨size_of_scalar_kind types (fuel + 2) type h1 h2 h3, hA, hB, hC, ?_⟩
  intro t ht hname
  constructor
  · constructor
    · intro he
      by_contra hw
      by_cases hz : name.length ≠ 0 ∧ width = 0
      · rw [hB hw hz.1 hz.2] at he
        cases he
      · rcases hC t ht hname hw hz with ⟨_, h⟩ | h | h <;> (rw [h] at he; cases he)
    · exact hA
  · constructor
    · intro he
      by_cases hw : width > 8 * scalar_size (type_of type) ∨ (is_bool type = true ∧ width > 1)
      · rw [hA hw] at he
        cases he
      · refine ⟨hw, ?_⟩
        by_contra hz
        rcases hC t ht hname hw (fun hh => hz hh) with ⟨_, h⟩ | h | h <;>
          (rw [h] at he; cases he)
    · rintro ⟨hw, hn, hw0⟩
      exact hB hw hn hw0

/-- Witness for C21 as amended: on `struct { int a:3; ... }` a field
`_Bool b:2` is refused for its width, a named field of width 0 is refused, and
`int b:5` is added. -/
theorem type_add_field_validation_witness :
    type_add_field (0 + 2) bits_a (struct_handle 1) "b" basic_type__bool 2 = .error .field_width
      ∧ type_add_field (0 + 2) bits_a (struct_handle 1) "b" basic_type__int 0
          = .error .zero_length_field
      ∧ placed_outcome (type_add_field (0 + 2) bits_a (struct_handle 1) "b" basic_type__int 5)
      ∧ type_add_field 2 bits_a (struct_handle 1) "b" basic_type__int 5 = .ok bits_ab :=
  ⟨(type_add_field_validation 0 bits_a (struct_handle 1) "b" basic_type__bool 2 rfl
      (Or.inr rfl) rfl).2.1 (Or.inr ⟨rfl, by decide⟩),
   (type_add_field_validation 0 bits_a (struct_handle 1) "b" basic_type__int 0 rfl
      (Or.inl rfl) rfl).2.2.1 (by decide) (by decide) rfl,
   (type_add_field_validation 0 bits_a (struct_handle 1) "b" basic_type__int 5 rfl
      (Or.inl rfl) rfl).2.2.2.1 _ rfl (by decide) (by decide) (by decide),
   rfl⟩

/-! ### Bit-field units -/

/-- C23 fails on the code: `type_add_anonymous_member` of the struct
`struct { int a; int b; }` into an empty union copies the members with their
offsets inside the struct, so that the union has the member `b` at byte offset 4;
its size is 8, while every member has size 4. -/
theorem union_anonymous_struct_counterexample :
    is_union (union_handle 2) = true
      ∧ is_struct (struct_handle 1) = true
      ∧ type_add_anonymous_member anon_types 3 (union_handle 2) (struct_handle 1)
          = .ok anon_types_added
      ∧ (∃ t m, get_typetree_handle anon_types_added 2 = .ok t ∧ m ∈ t.members
          ∧ m.name = "b" ∧ m.offset = 4 ∧ t.size = 8)
      ∧ size_of anon_types_added 3 basic_type__int = .ok 4 := by
  refine ⟨rfl, rfl, rfl, ⟨_, ⟨"b", basic_type__int, 4, 0, 0, none⟩, rfl, ?_, rfl, rfl, rfl⟩,
    rfl⟩
  exact List.mem_cons_of_mem _ (List.mem_cons_self _ _)

theorem union_growth_refl (types0 : Types) (fuel ref : Nat) (t : typetree) :
    union_growth types0 fuel ref t t := by
  refine ⟨[], by simp, ?_, ?_⟩
  · intro m hm
    cases hm
  · intro _
    exact ⟨[], List.Forall₂.nil, rfl⟩

theorem union_growth_trans (types0 : Types) (fuel ref : Nat) (t1 t2 t3 : typetree)
    (h12 : union_growth types0 fuel ref t1 t2) (h23 : union_growth types0 fuel ref t2 t3) :
    union_growth types0 fuel ref t1 t3 := by
  obtain ⟨a1, m1, o1, s1⟩ := h12
  obtain ⟨a2, m2, o2, s2⟩ := h23
  refine ⟨a1 ++ a2, by rw [m2, m1, List.append_assoc], ?_, ?_⟩
  · intro m hm
    rcases List.mem_append.mp hm with h | h
    · exact o1 m h
    · exact o2 m h
  · intro hind
    obtain ⟨z1, f1, e1⟩ := s1 (fun m hm => hind m (List.mem_append_left _ hm))
    obtain ⟨z2, f2, e2⟩ := s2 (fun m hm => hind m (List.mem_append_right _ hm))
    refine ⟨z1 ++ z2, List.rel_append f1 f2, ?_⟩
    rw [e2, e1, List.foldl_append]

theorem grow_size_facts (m : member) (sz : Nat) (t t' : typetree)
    (h : grow_size m sz t = .ok t') :
    ¬ (LONG_MAX + SIZE_MOD - m.offset) % SIZE_MOD < sz
      ∧ t'.members = t.members
      ∧ t'.size = max t.size ((m.offset + sz) % SIZE_MOD) := by
  unfold grow_size at h
  split_ifs at h with h1 h2 <;> cases h
  · exact ⟨h1, rfl, by simp only; omega⟩
  · exact ⟨h1, rfl, by omega⟩

theorem add_member_aggregate_facts (types : Types) (fuel : Nat) (parent : CType)
    (m : member) (t t' : typetree) (h : add_member_aggregate types fuel parent m t = .ok t') :
    ∃ t2 sz, size_of (set_typetree types parent.ref t2) fuel m.type = .ok sz
      ∧ t2.members = t.members ∧ t2.size = t.size
      ∧ grow_size m sz t2 = .ok t' := by
  unfold add_member_aggregate at h
  obtain ⟨sz, _, h⟩ := bind_eq_ok _ _ _ h
  obtain ⟨t1, h1, h⟩ := bind_eq_ok _ _ _ h
  obtain ⟨fl, _, h⟩ := bind_eq_ok _ _ _ h
  obtain ⟨t2, h2, h⟩ := bind_eq_ok _ _ _ h
  obtain ⟨sz2, hsz2, h⟩ := bind_eq_ok _ _ _ h
  obtain ⟨e1, e2⟩ := check_incomplete_ok _ _ _ _ h1
  obtain ⟨e3, e4⟩ := check_flexible_ok _ _ _ _ h2
  exact ⟨t2, sz2, hsz2, by rw [e3, e1], by rw [e4, e2], h⟩

/-- A successful `add_member` on a struct or union whose entry is `t`: the
member is appended; and when the size `sz` of its type does not depend on the
entry of the parent, the member ends at or below `LONG_MAX` and the new size is
the larger of the old size and `offset + sz`. -/
theorem add_member_step (types0 : Types) (fuel : Nat) (parent : CType) (m : member)
    (t t0 : typetree) (types' : Types)
    (hsu : is_struct_or_union parent = true)
    (h0 : get_typetree_handle types0 parent.ref = .ok t0)
    (h : add_member (set_typetree types0 parent.ref t) fuel parent m = .ok types') :
    ∃ t', types' = set_typetree types0 parent.ref t'
      ∧ t'.members = t.members ++ [m]
      ∧ ((∀ e, size_of (set_typetree types0 parent.ref e) fuel m.type
              = size_of types0 fuel m.type) →
          ∃ sz, size_of types0 fuel m.type = .ok sz
            ∧ ¬ (LONG_MAX + SIZE_MOD - m.offset) % SIZE_MOD < sz
            ∧ t'.size = max t.size ((m.offset + sz) % SIZE_MOD)) := by
  have ht : get_typetree_handle (set_typetree types0 parent.ref t) parent.ref = .ok t :=
    get_set_same _ _ _ _ h0
  have hnf : is_function parent = false := by
    rcases type_of_struct_or_union parent hsu with hk | hk <;> simp [is_function, hk]
  have hname : m.name ≠ "..." := by
    intro hdots
    unfold add_member at h
    simp only [hsu, Bool.true_or, Bool.not_true, Bool.false_eq_true, if_false, ht, hdots,
      if_true, hnf, Bool.not_false] at h
    split_ifs at h
  rw [add_member_unfold _ fuel parent m t hsu ht hname] at h
  split_ifs at h
  cases hagg : add_member_aggregate (set_typetree types0 parent.ref t) fuel parent m
      { t with members := t.members ++ [m] } with
  | error e => simp [hagg] at h
  | ok t' =>
    simp only [hagg, Except.ok.injEq] at h
    subst h
    obtain ⟨t2, sz, hsz, e1, e2, hg⟩ := add_member_aggregate_facts _ _ _ _ _ _ hagg
    obtain ⟨g1, g2, g3⟩ := grow_size_facts _ _ _ _ hg
    refine ⟨t', set_typetree_twice _ _ _ _, by rw [g2, e1], ?_⟩
    intro hind
    rw [set_typetree_twice, hind] at hsz
    exact ⟨sz, hsz, g1, by rw [g3, e2]⟩

/-- A successful `add_member` at byte offset 0 makes the entry grow as a union
does. -/
theorem add_member_union_growth (types0 : Types) (fuel : Nat) (parent : CType) (m : member)
    (t t0 : typetree) (types' : Types)
    (hsu : is_struct_or_union parent = true)
    (h0 : get_typetree_handle types0 parent.ref = .ok t0)
    (hoff : m.offset = 0)
    (h : add_member (set_typetree types0 parent.ref t) fuel parent m = .ok types') :
    ∃ t', types' = set_typetree types0 parent.ref t'
      ∧ union_growth types0 fuel parent.ref t t' := by
  obtain ⟨t', e1, e2, e3⟩ := add_member_step types0 fuel parent m t t0 types' hsu h0 h
  refine ⟨t', e1, [m], e2, ?_, ?_⟩
  · intro x hx
    simp only [List.mem_singleton] at hx
    subst hx
    exact hoff
  · intro hind
    obtain ⟨sz, f1, f2, f3⟩ := e3 (hind m (List.mem_singleton_self _))
    refine ⟨[sz], List.Forall₂.cons f1 List.Forall₂.nil, ?_⟩
    have hLM : (LONG_MAX + SIZE_MOD - m.offset) % SIZE_MOD = LONG_MAX := by
      rw [hoff]
      unfold LONG_MAX SIZE_MOD
      decide
    rw [hLM] at f2
    have hlt : sz < SIZE_MOD := by
      have : LONG_MAX < SIZE_MOD := by unfold LONG_MAX SIZE_MOD; decide
      omega
    rw [f3, hoff, Nat.zero_add, Nat.mod_eq_of_lt hlt]
    rfl

theorem is_union_facts (U : CType) (hU : is_union U = true) :
    is_struct_or_union U = true ∧ is_struct U = false ∧ is_function U = false := by
  have hk : type_of U = T_UNION := by simpa [is_union] using hU
  simp [is_struct_or_union, is_struct, is_union, is_function, hk]

theorem type_add_member_union_growth (types0 : Types) (fuel : Nat) (U : CType)
    (name : String) (type : CType) (t t0 : typetree) (types' : Types)
    (hU : is_union U = true)
    (h0 : get_typetree_handle types0 U.ref = .ok t0)
    (h : type_add_member (set_typetree types0 U.ref t) fuel U name type = .ok types') :
    ∃ t', types' = set_typetree types0 U.ref t'
      ∧ union_growth types0 fuel U.ref t t' := by
  obtain ⟨hsu, hs, hnf⟩ := is_union_facts U hU
  unfold type_add_member at h
  have hadj : adjust_member_alignment (set_typetree types0 U.ref t) fuel U type
      = .ok (set_typetree types0 U.ref t, 0) := by
    unfold adjust_member_alignment
    simp [hsu, hs]
  simp only [hsu, Bool.true_or, Bool.not_true, Bool.false_eq_true, if_false, hnf,
    Bool.not_false, if_true, hadj] at h
  exact add_member_union_growth types0 fuel U _ t t0 types' hsu h0 rfl h

theorem type_add_field_union_growth (types0 : Types) (fuel : Nat) (U : CType)
    (name : String) (type : CType) (width : Nat) (t t0 : typetree) (types' : Types)
    (hU : is_union U = true)
    (h0 : get_typetree_handle types0 U.ref = .ok t0)
    (h : type_add_field fuel (set_typetree types0 U.ref t) U name type width = .ok types') :
    ∃ t', types' = set_typetree types0 U.ref t'
      ∧ union_growth types0 fuel U.ref t t' := by
  obtain ⟨hsu, hs, hnf⟩ := is_union_facts U hU
  cases fuel with
  | zero => simp [type_add_field] at h
  | succ fuel =>
    have hpf : ∀ m, place_field (set_typetree types0 U.ref t) (fuel + 1) U type m
        = .ok (set_typetree types0 U.ref t, m) := by
      intro m
      unfold place_field
      simp [hs]
    have hreset : ∀ x, reset_field_alignment (type_add_field fuel) x U
        = .error .assertion := by
      intro x
      unfold reset_field_alignment
      simp [hs, throw, throwThe, MonadExceptOf.throw, bind, Except.bind]
    rw [type_add_field] at h
    simp only [hsu, Bool.not_true, Bool.false_eq_true, if_false, hU, true_and, hpf,
      hreset] at h
    split at h
    · cases h
    · cases h
    · split at h
      · cases h
      · split_ifs at h with c1 c2 c3 c4
        · simp only [Except.ok.injEq] at h
          subst h
          exact ⟨t, rfl, union_growth_refl _ _ _ _⟩
        · exact add_member_union_growth types0 (fuel + 1) U _ t t0 types' hsu h0 rfl h

/-- The loop of `type_add_anonymous_member` over the members of a union, each
added with `type_add_member`, makes the entry of a union parent grow as a union
does. -/
theorem anonymous_loop_union_growth (types0 : Types) (fuel : Nat) (U type : CType)
    (t0 : typetree) (hU : is_union U = true)
    (h0 : get_typetree_handle types0 U.ref = .ok t0) :
    ∀ (k i : Nat) (t : typetree) (types' : Types),
      anonymous_loop (fun ts m => type_add_member ts fuel U m.name m.type) type k i
          (set_typetree types0 U.ref t) = .ok types' →
      ∃ t', types' = set_typetree types0 U.ref t'
        ∧ union_growth types0 fuel U.ref t t' := by
  intro k
  induction k with
  | zero =>
    intro i t types' h
    simp [anonymous_loop] at h
  | succ k ih =>
    intro i t types' h
    unfold anonymous_loop at h
    split at h
    next => cases h
    next =>
      split_ifs at h
      · split at h
        next => cases h
        next m _ =>
          split at h
          next => cases h
          next types1 hstep =>
            obtain ⟨t1, e1, g1⟩ := type_add_member_union_growth types0 fuel U m.name m.type
              t t0 types1 hU h0 hstep
            rw [e1] at h
            obtain ⟨t', e2, g2⟩ := ih (i + 1) t1 types' h
            exact ⟨t', e2, union_growth_trans _ _ _ _ _ _ g1 g2⟩
      · simp only [Except.ok.injEq] at h
        subst h
        exact ⟨t, rfl, union_growth_refl _ _ _ _⟩

theorem type_add_anonymous_member_union_growth (types0 : Types) (fuel : Nat) (U type : CType)
    (t t0 : typetree) (types' : Types) (hU : is_union U = true)
    (h0 : get_typetree_handle types0 U.ref = .ok t0)
    (hty : is_struct type = false)
    (h : type_add_anonymous_member (set_typetree types0 U.ref t) fuel U type = .ok types') :
    ∃ t', types' = set_typetree types0 U.ref t'
      ∧ union_growth types0 fuel U.ref t t' := by
  obtain ⟨hsu, hs, hnf⟩ := is_union_facts U hU
  unfold type_add_anonymous_member at h
  simp only [hsu, Bool.not_true, Bool.false_eq_true, if_false, hs, false_and, hty,
    and_false] at h
  split_ifs at h
  split at h
  · cases h
  · exact anonymous_loop_union_growth types0 fuel U type t0 hU h0 _ _ t types' h

theorem apply_member_ops_union_growth (types0 : Types) (fuel : Nat) (U : CType)
    (t0 : typetree) (hU : is_union U = true)
    (h0 : get_typetree_handle types0 U.ref = .ok t0) :
    ∀ (ops : List member_op) (t : typetree) (types' : Types),
      (∀ op ∈ ops, union_op op) →
      apply_member_ops fuel U (set_typetree types0 U.ref t) ops = .ok types' →
      ∃ t', types' = set_typetree types0 U.ref t'
        ∧ union_growth types0 fuel U.ref t t' := by
  intro ops
  induction ops with
  | nil =>
    intro t types' _ h
    simp only [apply_member_ops, Except.ok.injEq] at h
    subst h
    exact ⟨t, rfl, union_growth_refl _ _ _ _⟩
  | cons op rest ih =>
    intro t types' hops h
    unfold apply_member_ops at h
    cases hop : apply_member_op fuel U (set_typetree types0 U.ref t) op with
    | error e => simp [hop] at h
    | ok types1 =>
      simp only [hop] at h
      have hperm := hops op (List.mem_cons_self _ _)
      have hstep : ∃ t1, types1 = set_typetree types0 U.ref t1
          ∧ union_growth types0 fuel U.ref t t1 := by
        cases op with
        | add_member name type =>
          exact type_add_member_union_growth types0 fuel U name type t t0 types1 hU h0 hop
        | add_field name type width =>
          exact type_add_field_union_growth types0 fuel U name type width t t0 types1 hU h0
            hop
        | add_anonymous type =>
          exact type_add_anonymous_member_union_growth types0 fuel U type t t0 types1 hU h0
            hperm hop
      obtain ⟨t1, e1, g1⟩ := hstep
      rw [e1] at h
      obtain ⟨t', e2, g2⟩ := ih t1 types' (fun o ho => hops o (List.mem_cons_of_mem _ ho)) h
      exact ⟨t', e2, union_growth_trans _ _ _ _ _ _ g1 g2⟩

theorem forall₂_imp_mem {α β : Type} (R R' : α → β → Prop) :
    ∀ (l : List α) (z : List β), List.Forall₂ R l z →
      (∀ a ∈ l, ∀ b, R a b → R' a b) → List.Forall₂ R' l z := by
  intro l z h
  induction h with
  | nil => intro _; exact List.Forall₂.nil
  | cons hab _ ih =>
    intro himp
    exact List.Forall₂.cons (himp _ (List.mem_cons_self _ _) _ hab)
      (ih (fun a ha b hb => himp a (List.mem_cons_of_mem _ ha) b hb))

/-- The loop of `type_add_anonymous_member` that hands the members of a struct to
`add_member` appends them to the entry of the parent as they are. -/
theorem anonymous_loop_copy (types0 : Types) (fuel : Nat) (U type : CType)
    (t0 ti : typetree) (hsu : is_struct_or_union U = true)
    (h0 : get_typetree_handle types0 U.ref = .ok t0)
    (hne : type.ref ≠ U.ref)
    (hti : get_typetree_handle types0 type.ref = .ok ti) :
    ∀ (k i : Nat) (t : typetree) (types' : Types),
      anonymous_loop (fun ts m => add_member ts fuel U m) type k i
          (set_typetree types0 U.ref t) = .ok types' →
      ∃ t', types' = set_typetree types0 U.ref t'
        ∧ t'.members = t.members ++ ti.members.drop i := by
  intro k
  induction k with
  | zero =>
    intro i t types' h
    simp [anonymous_loop] at h
  | succ k ih =>
    intro i t types' h
    unfold anonymous_loop at h
    rw [get_set_other types0 U.ref type.ref t0 t h0 hne, hti] at h
    dsimp only at h
    split_ifs at h with hlt
    · have hget : ti.members[i]? = some (ti.members[i]) := List.getElem?_eq_getElem hlt
      simp only [hget] at h
      split at h
      next => cases h
      next types1 hstep =>
        obtain ⟨t1, e1, e2, _⟩ := add_member_step types0 fuel U _ t t0 types1 hsu h0 hstep
        rw [e1] at h
        obtain ⟨t', e3, e4⟩ := ih (i + 1) t1 types' h
        refine ⟨t', e3, ?_⟩
        rw [e4, e2, List.append_assoc, List.singleton_append,
          ← List.drop_eq_getElem_cons hlt]
    · simp only [Except.ok.injEq] at h
      subst h
      refine ⟨t, rfl, ?_⟩
      rw [List.drop_eq_nil_of_le (by omega), List.append_nil]

/-- C23 as amended. A union that starts without members and with size 0 and is
built by any sequence of successful `type_add_member` and `type_add_field` calls
and `type_add_anonymous_member` calls whose argument is a union has every member
at byte offset 0; and when the size of each member type does not depend on the
entry of the union itself, the size of the union before sealing is the largest
`size_of` of its members. When `type_add_anonymous_member` is called with a
struct, the members of the struct are appended as they are, with their offsets
inside the struct. -/
theorem union_member_layout (fuel : Nat) (types0 : Types) (U : CType) (t0 : typetree)
    (hU : is_union U = true) (h0 : get_typetree_handle types0 U.ref = .ok t0) :
    (∀ (ops : List member_op) (types' : Types),
        t0.members = [] → t0.size = 0 →
        (∀ op ∈ ops, union_op op) →
        apply_member_ops fuel U types0 ops = .ok types' →
        ∃ t', get_typetree_handle types' U.ref = .ok t'
          ∧ (∀ m ∈ t'.members, m.offset = 0)
          ∧ ((∀ m ∈ t'.members, ∀ e,
                size_of (set_typetree types0 U.ref e) fuel m.type
                  = size_of types0 fuel m.type) →
              ∃ sizes : List Nat,
                List.Forall₂ (fun m s => size_of types' fuel m.type = .ok s) t'.members sizes
                  ∧ t'.size = sizes.foldl max 0))
      ∧ (∀ (type : CType) (ti : typetree) (types' : Types),
          is_struct type = true → type.ref ≠ U.ref →
          get_typetree_handle types0 type.ref = .ok ti →
          type_add_anonymous_member types0 fuel U type = .ok types' →
          ∃ t', get_typetree_handle types' U.ref = .ok t'
            ∧ t'.members = t0.members ++ ti.members) := by
  obtain ⟨hsu, hs, hnf⟩ := is_union_facts U hU
  have hself : set_typetree types0 U.ref t0 = types0 := set_typetree_self types0 U.ref t0 h0
  constructor
  · intro ops types' hm0 hs0 hops hrun
    rw [← hself] at hrun
    obtain ⟨t', e1, added, g1, g2, g3⟩ :=
      apply_member_ops_union_growth types0 fuel U t0 hU h0 ops t0 types' hops hrun
    rw [hm0, List.nil_append] at g1
    refine ⟨t', by rw [e1]; exact get_set_same _ _ _ _ h0, ?_, ?_⟩
    · rw [g1]; exact g2
    · intro hind
      rw [g1] at hind ⊢
      obtain ⟨sizes, f1, f2⟩ := g3 hind
      refine ⟨sizes, ?_, by rw [f2, hs0]⟩
      refine forall₂_imp_mem _ _ _ _ f1 ?_
      intro m hm s hms
      rw [e1, hind m hm]
      exact hms
  · intro type ti types' hst hne hti h
    have hsut : is_struct_or_union type = true := by simp [is_struct_or_union, hst]
    unfold type_add_anonymous_member at h
    simp only [hsu, hsut, Bool.not_true, Bool.false_eq_true, if_false, hs, false_and, hti,
      hU, hst, and_self, if_true] at h
    rw [← hself] at h
    obtain ⟨t', e1, e2⟩ :=
      anonymous_loop_copy types0 fuel U type t0 ti hsu h0 hne hti fuel 0 t0 types' h
    refine ⟨t', by rw [e1]; exact get_set_same _ _ _ _ h0, ?_⟩
    rw [e2, List.drop_zero]

/-- Witness for C23 as amended: `union { int i; char c; }` built from an empty
union has both members at offset 0 and size 4, the larger of 4 and 1. -/
theorem union_member_layout_witness :
    apply_member_ops 1 (union_handle 1) [{ typetree.zero with type := T_UNION }]
        [.add_member "i" basic_type__int, .add_member "c" basic_type__char] = .ok union_ic
      ∧ ∃ t', get_typetree_handle union_ic (union_handle 1).ref = .ok t'
          ∧ (∀ m ∈ t'.members, m.offset = 0)
          ∧ ∃ sizes : List Nat,
              List.Forall₂ (fun m s => size_of union_ic 1 m.type = .ok s) t'.members sizes
                ∧ t'.size = sizes.foldl max 0 := by
  have hrun : apply_member_ops 1 (union_handle 1) [{ typetree.zero with type := T_UNION }]
      [.add_member "i" basic_type__int, .add_member "c" basic_type__char]
        = .ok union_ic := rfl
  obtain ⟨t', h1, h2, h3⟩ := (union_member_layout 1 [{ typetree.zero with type := T_UNION }]
    (union_handle 1) { typetree.zero with type := T_UNION } rfl rfl).1
    [.add_member "i" basic_type__int, .add_member "c" basic_type__char] union_ic rfl rfl
    (by
      intro op hop
      simp only [List.mem_cons, List.mem_singleton, List.not_mem_nil, or_false] at hop
      rcases hop with rfl | rfl <;> trivial)
    hrun
  refine ⟨hrun, t', h1, h2, h3 ?_⟩
  intro m hm e
  have ht' : t' = { typetree.zero with
      type := T_UNION, size := 4,
      members := [⟨"i", basic_type__int, 0, 0, 0, none⟩,
                  ⟨"c", basic_type__char, 0, 0, 0, none⟩] } := by
    have h1' : get_typetree_handle union_ic 1 = .ok t' := h1
    have h1'' : get_typetree_handle union_ic 1 = .ok { typetree.zero with
      type := T_UNION, size := 4,
      members := [⟨"i", basic_type__int, 0, 0, 0, none⟩,
                  ⟨"c", basic_type__char, 0, 0, 0, none⟩] } := rfl
    rw [h1''] at h1'
    cases h1'
    rfl
  subst ht'
  have hm' : m ∈ [(⟨"i", basic_type__int, 0, 0, 0, none⟩ : member),
      ⟨"c", basic_type__char, 0, 0, 0, none⟩] := hm
  simp only [List.mem_cons, List.mem_singleton, List.not_mem_nil, or_false] at hm'
  rcases hm' with rfl | rfl
  · rw [size_of_scalar_kind _ _ _ (by decide) (by decide) (by decide),
      size_of_scalar_kind _ _ _ (by decide) (by decide) (by decide)]
  · rw [size_of_scalar_kind _ _ _ (by decide) (by decide) (by decide),
      size_of_scalar_kind _ _ _ (by decide) (by decide) (by decide)]


/-! ### Equality and the derived-from type -/

/-- C31 fails on the code. `int [3]` and `char [3]`, the function types `int ()`
and `char ()`, and `int **` and `char **` are each built by `type_create`;
in each pair `type_equal` returns true at every recursion depth, because
`typetree_equal` compares kind, size, signedness, the vararg flag and the
members and never the `next` handle of the entries; yet `type_next` gives `int`
and `char` (`int *` and `char *` for the pointers), which `type_equal` tells
apart. -/
theorem type_equal_ignores_derived_type :
    (type_create [] 1 T_ARRAY (.array basic_type__int 3 none)
        = .ok (array_pair_types.take 1, array_handle 1)
      ∧ type_create (array_pair_types.take 1) 1 T_ARRAY (.array basic_type__char 3 none)
        = .ok (array_pair_types, array_handle 2)
      ∧ is_array (array_handle 1) = true ∧ is_array (array_handle 2) = true
      ∧ (∀ fuel, type_equal array_pair_types (fuel + 1) (array_handle 1) (array_handle 2)
          = .ok true)
      ∧ type_next array_pair_types (array_handle 1) = .ok basic_type__int
      ∧ type_next array_pair_types (array_handle 2) = .ok basic_type__char
      ∧ (∀ fuel, type_equal array_pair_types (fuel + 1) basic_type__int basic_type__char
          = .ok false))
    ∧ (type_create [] 1 T_FUNCTION (.function basic_type__int)
        = .ok (function_pair_types.take 1, function_handle 1)
      ∧ type_create (function_pair_types.take 1) 1 T_FUNCTION (.function basic_type__char)
        = .ok (function_pair_types, function_handle 2)
      ∧ is_function (function_handle 1) = true ∧ is_function (function_handle 2) = true
      ∧ (∀ fuel, type_equal function_pair_types (fuel + 1) (function_handle 1)
            (function_handle 2) = .ok true)
      ∧ type_next function_pair_types (function_handle 1) = .ok basic_type__int
      ∧ type_next function_pair_types (function_handle 2) = .ok basic_type__char
      ∧ (∀ fuel, type_equal function_pair_types (fuel + 1) basic_type__int basic_type__char
          = .ok false))
    ∧ (type_create [] 1 T_POINTER (.pointer int_ptr)
        = .ok (pointer_pair_types.take 1, pointer_handle 1)
      ∧ type_create (pointer_pair_types.take 1) 1 T_POINTER (.pointer char_ptr)
        = .ok (pointer_pair_types, pointer_handle 2)
      ∧ is_pointer (pointer_handle 1) = true ∧ is_pointer (pointer_handle 2) = true
      ∧ (∀ fuel, type_equal pointer_pair_types (fuel + 1) (pointer_handle 1)
            (pointer_handle 2) = .ok true)
      ∧ type_next pointer_pair_types (pointer_handle 1) = .ok int_ptr
      ∧ type_next pointer_pair_types (pointer_handle 2) = .ok char_ptr
      ∧ (∀ fuel, type_equal pointer_pair_types (fuel + 1) int_ptr char_ptr = .ok false)) :=
  ⟨⟨rfl, rfl, rfl, rfl, fun _ => rfl, rfl, rfl, fun _ => rfl⟩,
   ⟨rfl, rfl, rfl, rfl, fun _ => rfl, rfl, rfl, fun _ => rfl⟩,
   ⟨rfl, rfl, rfl, rfl, fun _ => rfl, rfl, rfl, fun _ => rfl⟩⟩

/-! ### Termination of `type_equal` -/

/-- One level of `type_equal` on the two self-referential structs, or on the
pointers to them: the call goes into `typetree_equal` on entries 1 and 2, whose
member loop calls `type_equal` on the two pointers. -/
theorem type_equal_self_ref_step (n : Nat) (a b : CType)
    (h : (a = struct_handle 1 ∧ b = struct_handle 2)
      ∨ (a = struct_ptr 1 ∧ b = struct_ptr 2)) :
    type_equal self_ref_types (n + 1) a b
      = match type_equal self_ref_types n (struct_ptr 1) (struct_ptr 2) with
        | .error e => .error e
        | .ok false => .ok false
        | .ok true => .ok true := by
  rcases h with ⟨rfl, rfl⟩ | ⟨rfl, rfl⟩
  · show typetree_equal (type_equal self_ref_types n) (self_ref_entry 1) (self_ref_entry 2) = _
    show typetree_members_equal (type_equal self_ref_types n) false
      [⟨"next", struct_ptr 1, 0, 0, 0, none⟩] [⟨"next", struct_ptr 2, 0, 0, 0, none⟩] = _
    unfold typetree_members_equal
    cases type_equal self_ref_types n (struct_ptr 1) (struct_ptr 2) with
    | error e => rfl
    | ok r => cases r <;> rfl
  · show typetree_equal (type_equal self_ref_types n) (self_ref_entry 1) (self_ref_entry 2) = _
    show typetree_members_equal (type_equal self_ref_types n) false
      [⟨"next", struct_ptr 1, 0, 0, 0, none⟩] [⟨"next", struct_ptr 2, 0, 0, 0, none⟩] = _
    unfold typetree_members_equal
    cases type_equal self_ref_types n (struct_ptr 1) (struct_ptr 2) with
    | error e => rfl
    | ok r => cases r <;> rfl

/-- No recursion depth suffices for `type_equal` on the two self-referential
structs, nor on the pointers to them. -/
theorem type_equal_self_ref_out_of_fuel :
    ∀ fuel, type_equal self_ref_types fuel (struct_handle 1) (struct_handle 2)
          = .error .out_of_fuel
      ∧ type_equal self_ref_types fuel (struct_ptr 1) (struct_ptr 2) = .error .out_of_fuel := by
  intro fuel
  induction fuel with
  | zero => exact ⟨rfl, rfl⟩
  | succ n ih =>
    rw [type_equal_self_ref_step n _ _ (Or.inl ⟨rfl, rfl⟩),
      type_equal_self_ref_step n _ _ (Or.inr ⟨rfl, rfl⟩), ih.2]
    exact ⟨rfl, rfl⟩

/-- C32 fails on the code. `struct A { struct A *next; }` and
`struct B { struct B *next; }` are built by `type_create`, `type_add_member` and
`type_seal` as entries 1 and 2. `type_equal` on the two struct handles goes into
`typetree_equal` on entries 1 and 2, whose member loop calls `type_equal` on the
two pointer handles, which differ in their reference, have the same `type`
field and go into `typetree_equal` on entries 1 and 2 again: at every recursion
depth the call is still open, so it never returns. On a handle against itself,
and on two separate entries of `struct { int x; }`, it returns. -/
theorem type_equal_self_referential_structs :
    type_create [] 1 T_STRUCT .aggregate = .ok (empty_struct, struct_handle 1)
      ∧ type_create empty_struct 1 T_POINTER (.pointer (struct_handle 1))
          = .ok (empty_struct, struct_ptr 1)
      ∧ type_add_member empty_struct 1 (struct_handle 1) "next" (struct_ptr 1)
          = .ok [self_ref_entry 1]
      ∧ type_seal [self_ref_entry 1] 1 (struct_handle 1) = .ok [self_ref_entry 1]
      ∧ type_create [self_ref_entry 1] 1 T_STRUCT .aggregate
          = .ok ([self_ref_entry 1] ++ empty_struct, struct_handle 2)
      ∧ type_create ([self_ref_entry 1] ++ empty_struct) 1 T_POINTER
            (.pointer (struct_handle 2))
          = .ok ([self_ref_entry 1] ++ empty_struct, struct_ptr 2)
      ∧ type_add_member ([self_ref_entry 1] ++ empty_struct) 1 (struct_handle 2) "next"
            (struct_ptr 2)
          = .ok self_ref_types
      ∧ type_seal self_ref_types 1 (struct_handle 2) = .ok self_ref_types
      ∧ (∀ fuel, type_equal self_ref_types fuel (struct_handle 1) (struct_handle 2)
          = .error .out_of_fuel)
      ∧ (∀ fuel, type_equal self_ref_types fuel (struct_ptr 1) (struct_ptr 2)
          = .error .out_of_fuel)
      ∧ (∀ fuel, type_equal self_ref_types (fuel + 1) (struct_handle 1) (struct_handle 1)
          = .ok true)
      ∧ (∀ fuel, type_equal pair_types (fuel + 2) (struct_handle 1) (struct_handle 2)
          = .ok true) :=
  ⟨rfl, rfl, rfl, rfl, rfl, rfl, rfl, rfl,
   fun fuel => (type_equal_self_ref_out_of_fuel fuel).1,
   fun fuel => (type_equal_self_ref_out_of_fuel fuel).2,
   fun _ => rfl, fun _ => rfl⟩

/-! ### Termination of the passes -/

/-- On the block `[p = q; a = b]` the call of `can_merge` never returns: its
operand `var_equal(s1.t, s2.expr.l)` calls `type_equal` on `struct A *` and
`struct B *`. -/
theorem can_merge_self_ref_out_of_fuel (fuel : Nat) :
    can_merge (self_ref_env fuel) (st_ptr_copy 1 sym_p sym_q) (st_ptr_copy 2 sym_a sym_b)
      = .error .out_of_fuel := by
  cases fuel with
  | zero => rfl
  | succ n =>
    have h := (type_equal_self_ref_out_of_fuel (n + 1)).2
    have hid : is_identity self_ref_types (n + 1) (st_ptr_copy 2 sym_a sym_b).expr
        = .ok true := rfl
    have hve : var_equal self_ref_types (n + 1) (st_ptr_copy 1 sym_p sym_q).t
        (st_ptr_copy 2 sym_a sym_b).expr.l = .error .out_of_fuel := by
      unfold var_equal
      have e1 : (st_ptr_copy 1 sym_p sym_q).t.type = struct_ptr 1 := rfl
      have e2 : (st_ptr_copy 2 sym_a sym_b).expr.l.type = struct_ptr 2 := rfl
      rw [e1, e2, h]
      rfl
    unfold can_merge
    have e : (self_ref_env (n + 1)).types = self_ref_types := rfl
    have e' : (self_ref_env (n + 1)).fuel = n + 1 := rfl
    rw [e, e', hid, hve]
    rfl

/-- C33 fails on the code for `merge_chained_assignment`. The definition holds
one block `[p = q; a = b]` whose window `[0, 2)` is the whole statement array,
`p`, `q` being of type `struct A *` and `a`, `b` of type `struct B *` for the two
self-referential structs. The first call of `can_merge` calls `type_equal` on
`struct A *` and `struct B *` and never returns, so the pass does not terminate:
whatever recursion depth is granted to `type_equal` and however many iterations
to the loop, the run is still open. `dead_store_elimination` returns on the same
block. -/
theorem merge_chained_assignment_self_referential :
    self_ref_def.nodes[0]? = some ⟨0, 0, 2⟩
      ∧ window_inside self_ref_def ⟨0, 0, 2⟩
      ∧ (∀ tfuel, can_merge (self_ref_env tfuel) (st_ptr_copy 1 sym_p sym_q)
            (st_ptr_copy 2 sym_a sym_b) = .error .out_of_fuel)
      ∧ (∀ tfuel lfuel, merge_chained_assignment (self_ref_env tfuel) lfuel self_ref_def 0
          = .error .out_of_fuel)
      ∧ (∀ tfuel, dead_store_elimination (self_ref_env tfuel) 3 self_ref_def 0
          = .ok (self_ref_def, 0)) := by
  refine ⟨rfl, ⟨by decide, by decide, by decide⟩, can_merge_self_ref_out_of_fuel, ?_,
    fun _ => rfl⟩
  intro tfuel lfuel
  cases lfuel with
  | zero => rfl
  | succ n =>
    unfold merge_chained_assignment
    have hb : get_block self_ref_def 0 = .ok ⟨0, 0, 2⟩ := rfl
    simp only [hb, bind, Except.bind]
    rw [if_neg (by decide)]
    have hg : array_get self_ref_def.statements (0 : Int) = .ok (st_ptr_copy 1 sym_p sym_q) :=
      rfl
    simp only [hg]
    unfold merge_loop
    simp only [hb, bind, Except.bind]
    rw [if_pos (by decide)]
    have hg2 : array_get self_ref_def.statements ((0 : Int) + 1)
        = .ok (st_ptr_copy 2 sym_a sym_b) := rfl
    simp only [hg2, can_merge_self_ref_out_of_fuel]

/-! ### Running dead-store elimination twice -/

theorem dead_store_result_not_dead (env : Env) (s s' : Statement)
    (h : dead_store_result env s = some s') : is_dead_store env s' = false := by
  unfold dead_store_result at h
  split_ifs at h with hd hse
  · simp only [Option.some.injEq] at h
    subst h
    simp [is_dead_store]
  · simp only [Option.some.injEq] at h
    subst h
    simpa using hd

/-- On a window without dead stores the loop of `dead_store_elimination` runs
to its end and changes nothing. -/
theorem dead_store_loop_noop (env : Env) (bi : Nat) :
    ∀ (rest : List Statement) (fuel : Nat) (d : Definition) (b : Block)
      (pre done post : List Statement) (c : Int),
      d.nodes[bi]? = some b →
      d.statements = pre ++ done ++ rest ++ post →
      b.head = pre.length → b.count = done.length + rest.length →
      rest.length < fuel →
      (∀ st ∈ rest, is_dead_store env st = false) →
      dead_store_loop env bi fuel d done.length c = .ok (d, c) := by
  intro rest
  induction rest with
  | nil =>
    intro fuel d b pre done post c hb hs hh hc hf _
    obtain ⟨f, rfl⟩ : ∃ f, fuel = f + 1 := ⟨fuel - 1, by simp at hf; omega⟩
    unfold dead_store_loop
    simp only [get_block, hb, bind, Except.bind]
    rw [if_neg (by simp at hc; omega)]
  | cons st rest ih =>
    intro fuel d b pre done post c hb hs hh hc hf hnd
    obtain ⟨f, rfl⟩ : ∃ f, fuel = f + 1 := ⟨fuel - 1, by simp at hf; omega⟩
    have hf' : rest.length < f := by simp at hf; omega
    have hs' : d.statements = (pre ++ done) ++ st :: (rest ++ post) := by
      rw [hs]; simp
    have hidx : b.head + (done.length : Int) = ((pre ++ done).length : Int) := by
      rw [hh]; simp
    have hget : array_get d.statements (b.head + done.length) = .ok st := by
      rw [hs']; exact array_get_mid _ _ _ _ hidx
    simp only [List.length_cons, Nat.cast_add, Nat.cast_one] at hc
    have hdead : is_dead_store env st = false := hnd st (List.mem_cons_self _ _)
    unfold dead_store_loop
    simp only [get_block, hb, bind, Except.bind]
    rw [if_pos (by omega)]
    simp only [hget, hdead, Bool.false_eq_true, if_false]
    have h1 := ih f d b pre (done ++ [st]) post c hb (by rw [hs]; simp) hh
      (by simp; omega) hf' (fun s hs => hnd s (List.mem_cons_of_mem _ hs))
    simp only [List.length_append, List.length_singleton, Nat.cast_add, Nat.cast_one] at h1
    exact h1

/-- C34. On a block of `def.nodes` whose window lies inside the statement
array, with `is_live_after` and `has_side_effects` the same functions of the
statement in both runs: `dead_store_elimination` returns, and a second run on the
same block of the definition it left returns 0 and leaves that definition, its
statement array and all its blocks, as it is. -/
theorem dead_store_elimination_idempotent (env : Env) (d : Definition) (bi : Nat)
    (b : Block) (hb : d.nodes[bi]? = some b) (hw : window_inside d b)
    (fuel : Nat) (hf : b.count < fuel) :
    ∃ d1 c1, dead_store_elimination env fuel d bi = .ok (d1, c1)
      ∧ dead_store_elimination env fuel d1 bi = .ok (d1, 0) := by
  obtain ⟨d', b', h1, h2, h3, _, h5, _, h7⟩ :=
    dead_store_elimination_run env d bi b hb hw fuel hf
  obtain ⟨_, hh, hc⟩ := block_code_split d b hw
  simp only [List.length_nil, Nat.cast_zero, zero_add] at hc
  refine ⟨d', _, h1, ?_⟩
  have hle : ((block_code d b).filterMap (dead_store_result env)).length
      ≤ (block_code d b).length := List.length_filterMap_le _ _
  have h := dead_store_loop_noop env bi
    ((block_code d b).filterMap (dead_store_result env)) fuel d' b'
    (d.statements.take b.head.toNat) [] (d.statements.drop (b.head + b.count).toNat) 0
    h2 (by rw [h7]; simp) (by rw [h3]; exact hh) (by rw [h5]; simp) (by omega)
    (by
      intro st hst
      rw [List.mem_filterMap] at hst
      obtain ⟨s, _, hs⟩ := hst
      exact dead_store_result_not_dead env s st hs)
  unfold dead_store_elimination
  simpa using h

/-- Witness for C34: the first block of the sample; the first run erases the
dead store `t = a + b`, the second run finds nothing. -/
theorem dead_store_elimination_idempotent_witness :
    ∃ d1 c1, dead_store_elimination sample_env 3 sample_def 0 = .ok (d1, c1)
      ∧ dead_store_elimination sample_env 3 d1 0 = .ok (d1, 0) :=
  dead_store_elimination_idempotent sample_env sample_def 0 ⟨0, 0, 2⟩ rfl
    ⟨by decide, by decide, by decide⟩ 3 (by decide)


/-! ### The count of merges on the self-referential structs -/

/-- On the block `[p = q; a = b]` over the two self-referential structs the run
of `merge_chained_assignment` is still open at every recursion depth granted to
`type_equal` and after every number of loop iterations. -/
theorem merge_self_ref_out_of_fuel (tfuel lfuel : Nat) :
    merge_chained_assignment (self_ref_env tfuel) lfuel self_ref_def 0
      = .error .out_of_fuel := by
  cases lfuel with
  | zero => rfl
  | succ n =>
    unfold merge_chained_assignment
    have hb : get_block self_ref_def 0 = .ok ⟨0, 0, 2⟩ := rfl
    simp only [hb, bind, Except.bind]
    rw [if_neg (by decide)]
    have hg : array_get self_ref_def.statements (0 : Int) = .ok (st_ptr_copy 1 sym_p sym_q) :=
      rfl
    simp only [hg]
    unfold merge_loop
    simp only [hb, bind, Except.bind]
    rw [if_pos (by decide)]
    have hg2 : array_get self_ref_def.statements ((0 : Int) + 1)
        = .ok (st_ptr_copy 2 sym_a sym_b) := rfl
    simp only [hg2, can_merge_self_ref_out_of_fuel]

/-- The two statements of the block `[p = q; a = b]` do not satisfy the merge
conditions: `a = b` is an identity, but its operand is not `var_equal` to `p`,
the comparison of `struct A *` with `struct B *` never coming back with 1. -/
theorem self_ref_no_chain_link (tfuel : Nat) :
    ¬ chain_link (self_ref_env tfuel) (st_ptr_copy 1 sym_p sym_q)
        (st_ptr_copy 2 sym_a sym_b) := by
  rintro ⟨_, _, _, h4, _⟩
  have e1 : (st_ptr_copy 1 sym_p sym_q).t.type = struct_ptr 1 := rfl
  have e2 : (st_ptr_copy 2 sym_a sym_b).expr.l.type = struct_ptr 2 := rfl
  have e : (self_ref_env tfuel).types = self_ref_types := rfl
  have e' : (self_ref_env tfuel).fuel = tfuel := rfl
  unfold var_equal at h4
  rw [e, e', e1, e2, (type_equal_self_ref_out_of_fuel tfuel).2] at h4
  cases h4

/-- C25 fails on the code. The definition holds one block `[p = q; a = b]`,
window `[0, 2)`, with `p`, `q` of type `struct A *` and `a`, `b` of type
`struct B *` for the two self-referential structs. The two statements do not
satisfy the merge conditions, so no pair of adjacent statements of the block
does, and the claim asks for the return value 0 with the statement array and
the blocks unchanged. But the call of `can_merge` on the pair calls
`type_equal` on `struct A *` and `struct B *` and never returns:
`merge_chained_assignment` returns no count at all, whatever recursion depth is
granted to `type_equal` and however many iterations to the loop. -/
theorem merge_chained_assignment_no_link_diverges :
    self_ref_def.nodes[0]? = some ⟨0, 0, 2⟩
      ∧ window_inside self_ref_def ⟨0, 0, 2⟩
      ∧ block_code self_ref_def ⟨0, 0, 2⟩
          = [st_ptr_copy 1 sym_p sym_q, st_ptr_copy 2 sym_a sym_b]
      ∧ (∀ tfuel, List.Chain' (fun s1 s2 => ¬ chain_link (self_ref_env tfuel) s1 s2)
          (block_code self_ref_def ⟨0, 0, 2⟩))
      ∧ (∀ tfuel lfuel, merge_chained_assignment (self_ref_env tfuel) lfuel self_ref_def 0
          = .error .out_of_fuel)
      ∧ (∀ tfuel lfuel, merge_chained_assignment (self_ref_env tfuel) lfuel self_ref_def 0
          ≠ .ok (self_ref_def, 0)) := by
  have hcode : block_code self_ref_def ⟨0, 0, 2⟩
      = [st_ptr_copy 1 sym_p sym_q, st_ptr_copy 2 sym_a sym_b] := rfl
  refine ⟨rfl, ⟨by decide, by decide, by decide⟩, hcode, ?_, merge_self_ref_out_of_fuel, ?_⟩
  · intro tfuel
    rw [hcode]
    exact List.Chain'.cons (self_ref_no_chain_link tfuel) (List.chain'_singleton _)
  · intro tfuel lfuel h
    rw [merge_self_ref_out_of_fuel] at h
    cases h

end Lacc
